import Mathlib

/-!
# asn1go: declaration code generator (`codegen.go`)

A shallow embedding of the declaration generator of asn1go and theorems about it.

Modelling conventions.

* Go strings are modelled by Lean `String`s (sequences of Unicode scalar values); the
  byte-level behaviour on invalid UTF-8 is not modelled.
* `moduleContext` is threaded explicitly: a method `func (ctx *moduleContext) f(x) R`
  becomes `f x ctx : Option (R × moduleContext)` (or without `Option` when the method
  cannot diverge).  An `error` is modelled by its message.
* The recursion of `unwrapToLeafType` along type references and the recursion of
  `generateTypeBody` through `USEFUL_TYPES` are not structural; they are bounded by a
  fuel argument that is consumed only by those two kinds of calls.  `none` means that the
  fuel did not suffice.
* The abstract syntax tree (`ast.go`), the table `USEFUL_TYPES`, `fmt`'s `%#v`
  rendering and the Unicode tables behind `strings.Title` are not part of `codegen.go`;
  the syntax tree is modelled from its uses in `codegen.go`, the rest is collected in
  the parameter `Externals`.  `withUnicode` puts the title-case table and the white-space
  predicate of Go's `unicode` package (Unicode 14.0) into the parameters.
-/

namespace Asn1go

/-! ## Abstract syntax (uses of `ast.go` made by `codegen.go`) -/

/-- Modelled from the spec: the `Value` variants of `ast.go`.  `Number` is the integer
literal (`IntValue()` is its integer); `Other` stands for every other variant and carries
a description of it. -/
inductive Value where
  | Number (IntValue : Int)
  | Other (descr : String)
deriving DecidableEq, Repr

/-- Modelled from the spec: tag classes (universal / application / context / private). -/
inductive TagClass where
  | CLASS_UNIVERSAL
  | CLASS_APPLICATION
  | CLASS_CONTEXT_SPECIFIC
  | CLASS_PRIVATE
deriving DecidableEq, Repr

/-- Modelled from the spec: the explicit / implicit marker of a tagged type (and the
automatic value a module default can take). -/
inductive TagKind where
  | TAGS_EXPLICIT
  | TAGS_IMPLICIT
  | TAGS_AUTOMATIC
deriving DecidableEq, Repr

/-- Modelled from the spec: the charset of a restricted string.  `OtherString` stands for
every charset other than the three that `asn1TagFromType` recognises. -/
inductive LexType where
  | IA5String
  | UTF8String
  | PrintableString
  | OtherString (code : Nat)
deriving DecidableEq, Repr

/-- Modelled from the spec: the tag descriptor of `ast.go`, class and class number (a
value). -/
structure Tag where
  Class : TagClass
  ClassNumber : Value
deriving DecidableEq, Repr

mutual
/-- Modelled from the spec: the `Type` variants of `ast.go`.  The first twelve are the
ones `generateTypeBody` has a case for; `NullType`, `ObjectIdentifierType`, `ChoiceType`
and `OtherType` (any further variant) fall into its `default` branch. -/
inductive ASNType where
  | BooleanType
  | IntegerType (NamedNumberList : List (String × Int))
  | CharacterStringType
  | RealType
  | OctetStringType
  | SequenceType (Components : List ComponentType)
  | SequenceOfType (Type_ : ASNType)
  | TaggedType (Tag : Tag) (TagType : TagKind) (Type_ : ASNType)
  | ConstraintedType (Type_ : ASNType) (Constraint : String)
  | TypeReference (Name : String)
  | RestrictedStringType (LexType : LexType)
  | BitStringType (NamedBits : List (String × Int))
  | NullType
  | ObjectIdentifierType
  | ChoiceType (AlternativeTypeList : List NamedType)
  | OtherType (descr : String)
/-- Modelled from the spec: a component of a sequence, a named component or a
components-of inclusion. -/
inductive ComponentType where
  | Named (f : NamedComponentType)
  | ComponentsOf (Type_ : ASNType)
/-- Modelled from the spec: a named component with its optional flag and its default
value (`none` is the nil pointer). -/
inductive NamedComponentType where
  | mk (NamedType : NamedType) (IsOptional : Bool) (Default : Option Value)
/-- Modelled from the spec: an identifier paired with a type. -/
inductive NamedType where
  | mk (Identifier : String) (Type_ : ASNType)
end

/-- Identifier of a named type. -/
def NamedType.Identifier : NamedType → String
  | .mk i _ => i

/-- Type of a named type. -/
def NamedType.Type_ : NamedType → ASNType
  | .mk _ t => t

/-- The named type of a named component. -/
def NamedComponentType.NamedType : NamedComponentType → NamedType
  | .mk n _ _ => n

/-- The optional flag of a named component. -/
def NamedComponentType.IsOptional : NamedComponentType → Bool
  | .mk _ o _ => o

/-- The default value of a named component (`none` is the nil pointer). -/
def NamedComponentType.Default : NamedComponentType → Option Value
  | .mk _ _ d => d

/-- Modelled from the spec: an element of the assignment list.  Only type assignments are
processed; `ValueAssignment` stands for every other kind of assignment. -/
inductive Assignment where
  | TypeAssignment (TypeReference : String) (Type_ : ASNType)
  | ValueAssignment (ValueReference : String) (Type_ : ASNType) (Value : Value)

/-- Modelled from the spec: a type assignment, the name and the type bound to it. -/
structure TypeAssignment where
  TypeReference : String
  Type_ : ASNType

/-- Modelled from the spec: the module body, of which the ordered assignment list is
used. -/
structure ModuleBody where
  AssignmentList : List Assignment

/-- Modelled from the spec: the module identifier. -/
structure ModuleIdentifier where
  Reference : String

/-- Modelled from the spec: a parsed module. -/
structure ModuleDefinition where
  ModuleIdentifier : ModuleIdentifier
  TagDefault : Int
  ExtensibilityImplied : Bool
  ModuleBody : ModuleBody

/-- Modelled from the spec: `AssignmentList.GetType` of `ast.go`, the lookup of a name
among the local type assignments by exact match; the first match in list order is
returned, `none` is the nil pointer. -/
def GetType : List Assignment → String → Option TypeAssignment
  | [], _ => none
  | .TypeAssignment r t :: rest, name =>
      if r = name then some ⟨r, t⟩ else GetType rest name
  | .ValueAssignment _ _ _ :: rest, name => GetType rest name

/-! ## Target syntax (uses of `go/ast` made by `codegen.go`) -/

mutual
/-- The `go/ast` expressions built by the generator; `nil` is the nil expression. -/
inductive GoExpr where
  | nil
  | Ident (Name : String)
  | ArrayType (Elt : GoExpr)
  | StructType (Fields : List GoField)
/-- A field of a struct type: names, type and tag literal (`none` is the nil pointer,
`some v` a string literal with value `v`). -/
inductive GoField where
  | mk (Names : List String) (Type_ : GoExpr) (Tag : Option String)
end

/-- Names of a field. -/
def GoField.Names : GoField → List String
  | .mk n _ _ => n

/-- Type of a field. -/
def GoField.Type_ : GoField → GoExpr
  | .mk _ t _ => t

/-- Tag of a field. -/
def GoField.Tag : GoField → Option String
  | .mk _ _ t => t

/-- A `type Name Type` declaration (`GenDecl` with token `TYPE` and one `TypeSpec`). -/
structure GoDecl where
  Name : String
  Type_ : GoExpr

/-- A `go/ast` file: package name and declarations. -/
structure GoFile where
  Name : String
  Decls : List GoDecl

/-! ## Parts declared outside `codegen.go` -/

/-- What `codegen.go` uses but does not define: the registry `USEFUL_TYPES`, the `%#v`
rendering of `fmt` for types and values, and the Unicode tables used by `strings.Title`
for runes above `MaxASCII`. -/
structure Externals where
  USEFUL_TYPES : String → Option ASNType
  goSyntaxType : ASNType → String
  goSyntaxValue : Value → String
  IsLetter : Char → Bool
  IsDigit : Char → Bool
  IsSpace : Char → Bool
  ToTitleTable : Char → Char

/-- Go's `unicode.ToTitle`: ASCII lower-case letters are shifted to upper case, other
ASCII runes are unchanged, and runes above `MaxASCII` go through the case tables. -/
def ToTitle (X : Externals) (r : Char) : Char :=
  if r.toNat ≤ 0x7F then
    if 'a'.toNat ≤ r.toNat ∧ r.toNat ≤ 'z'.toNat then Char.ofNat (r.toNat - 32) else r
  else X.ToTitleTable r

/-- Go's `strings.isSeparator`: ASCII alphanumerics and underscore are not separators,
every other ASCII rune is; above ASCII, letters and digits are not separators and
otherwise only spaces are. -/
def isSeparator (X : Externals) (r : Char) : Bool :=
  if r.toNat ≤ 0x7F then
    if '0'.toNat ≤ r.toNat ∧ r.toNat ≤ '9'.toNat then false
    else if 'a'.toNat ≤ r.toNat ∧ r.toNat ≤ 'z'.toNat then false
    else if 'A'.toNat ≤ r.toNat ∧ r.toNat ≤ 'Z'.toNat then false
    else if r = '_' then false
    else true
  else if X.IsLetter r || X.IsDigit r then false
  else X.IsSpace r

/-- The mapping closure of Go's `strings.Title`, with its state `prev` made explicit. -/
def titleFrom (X : Externals) : Char → List Char → List Char
  | _, [] => []
  | prev, r :: rest =>
      (if isSeparator X prev then ToTitle X r else r) :: titleFrom X r rest

/-- Go's `strings.Title`: the runes that begin words are mapped to title case. -/
def Title (X : Externals) (s : String) : String :=
  String.mk (titleFrom X ' ' s.data)

/-- Go's `strings.Replace(s, "-", "_", -1)`: every hyphen becomes an underscore. -/
def replaceHyphens (s : String) : String :=
  String.mk (s.data.map (fun c => if c = '-' then '_' else c))

/-- Go's `fmt` rendering of an `int` under `%v`: decimal, with a minus sign. -/
def fmtInt (n : Int) : String :=
  toString n

/-- Go's `strings.Join(components, ",")`. -/
def joinComma (components : List String) : String :=
  ",".intercalate components

/-! ## `codegen.go` -/

/-- The state of one module run. -/
structure moduleContext where
  extensibilityImplied : Bool
  tagDefault : Int
  errors : List String
  lookupContext : ModuleBody

/-- Source `appendError`: append one error to the collected errors. -/
def moduleContext.appendError (ctx : moduleContext) (err : String) : moduleContext :=
  { ctx with errors := ctx.errors ++ [err] }

/-- Source `goifyName`: replace hyphens by underscores, then title-case. -/
def goifyName (X : Externals) (name : String) : String :=
  Title X (replaceHyphens name)

/-- Source `lookupValue`: the identity for now. -/
def lookupValue (_ctx : moduleContext) (val : Value) : Value :=
  val

/-- Source `lookupUsefulType`: the registry entry of the name, `none` for nil. -/
def lookupUsefulType (X : Externals) (_ctx : moduleContext) (reference : String) :
    Option ASNType :=
  X.USEFUL_TYPES reference

/-- Source `lookupType`: local assignment first, then the registry, else an error. -/
def lookupType (X : Externals) (reference : String) (ctx : moduleContext) :
    Option ASNType × moduleContext :=
  match GetType ctx.lookupContext.AssignmentList reference with
  | some assignment => (some assignment.Type_, ctx)
  | none =>
    match lookupUsefulType X ctx reference with
    | some usefulType => (some usefulType, ctx)
    | none =>
      (none, ctx.appendError ("Can not resolve Type Reference " ++ reference))

/-- The `for` loop of `unwrapToLeafType`: tagged and constrained layers are stripped;
`some r` when a type reference `r` is reached (the loop then calls `unwrapToLeafType r`),
`none` when any other type is reached (the loop then returns the original reference). -/
def unwrapLoop : ASNType → Option String
  | .TaggedType _ _ t => unwrapLoop t
  | .ConstraintedType t _ => unwrapLoop t
  | .TypeReference r => some r
  | _ => none

/-- Source `unwrapToLeafType`: walk over transitive type references.  One unit of fuel is
consumed by each recursive call. -/
def unwrapToLeafType (ctx : moduleContext) : Nat → String → Option String
  | fuel, reference =>
    match GetType ctx.lookupContext.AssignmentList reference with
    | some assignment =>
      match unwrapLoop assignment.Type_ with
      | some tt =>
        match fuel with
        | 0 => none
        | fuel + 1 => unwrapToLeafType ctx fuel tt
      | none => some reference
    | none => some reference

/-- The `unwrap` loop of `asn1TagFromType`: walks the tagged and constrained layers from
the outside in, appending the tokens of each tagged layer to `components` and an error
for each class number that is not a `Number`; returns the leaf type reached. -/
def unwrapTags (X : Externals) :
    ASNType → List String → moduleContext → ASNType × List String × moduleContext
  | .TaggedType tag tagType t, components, ctx =>
    let components :=
      if tag.Class = TagClass.CLASS_APPLICATION then components ++ ["application"]
      else components
    let components :=
      if tagType = TagKind.TAGS_EXPLICIT then components ++ ["explicit"] else components
    match lookupValue ctx tag.ClassNumber with
    | .Number cn => unwrapTags X t (components ++ ["tag:" ++ fmtInt cn]) ctx
    | cn =>
      unwrapTags X t components
        (ctx.appendError ("Tag value should be Number, got " ++ X.goSyntaxValue cn))
  | .ConstraintedType t _, components, ctx => unwrapTags X t components ctx
  | t, components, ctx => (t, components, ctx)

/-- The tag literal built at the end of `asn1TagFromType`: the comma-joined components
between backticks, or nil when there is none. -/
def tagLiteral (components : List String) : Option String :=
  if components.length > 0 then some ("`" ++ joinComma components ++ "`") else none

/-- Source `asn1TagFromType`: the annotation of a named component. -/
def asn1TagFromType (X : Externals) (fuel : Nat) (nt : NamedComponentType)
    (ctx : moduleContext) : Option (Option String × moduleContext) :=
  let t := nt.NamedType.Type_
  let components : List String := []
  let components := if nt.IsOptional then components ++ ["optional"] else components
  let components :=
    match nt.Default with
    | some (.Number defaultNumber) => components ++ ["default:" ++ fmtInt defaultNumber]
    | _ => components
  match unwrapTags X t components ctx with
  | (t, components, ctx) =>
    match t with
    | .RestrictedStringType lexType =>
      let components :=
        match lexType with
        | .IA5String => components ++ ["ia5"]
        | .UTF8String => components ++ ["utf8"]
        | .PrintableString => components ++ ["printable"]
        | _ => components
      some (tagLiteral components, ctx)
    | .TypeReference tt =>
      match unwrapToLeafType ctx fuel tt with
      | none => none
      | some leaf =>
        let components :=
          if leaf = "GeneralizedTime" then components ++ ["generalized"]
          else if leaf = "UTCTime" then components ++ ["utc"]
          else components
        some (tagLiteral components, ctx)
    | _ => some (tagLiteral components, ctx)

mutual
/-- The body of `generateTypeBody`.  The call through the registry
(`generateUsefulType`, which is `generateTypeBody` of the registry entry) is the
parameter `useful`; `fuel` is what `asn1TagFromType` may spend. -/
def generateTypeBodyWith (X : Externals) (fuel : Nat)
    (useful : ASNType → moduleContext → Option (GoExpr × moduleContext)) :
    ASNType → moduleContext → Option (GoExpr × moduleContext)
  | .BooleanType, ctx => some (.Ident "bool", ctx)
  | .IntegerType _, ctx => some (.Ident "int64", ctx)
  | .CharacterStringType, ctx => some (.Ident "string", ctx)
  | .RealType, ctx => some (.Ident "float64", ctx)
  | .OctetStringType, ctx => some (.ArrayType (.Ident "byte"), ctx)
  | .SequenceType components, ctx =>
    match generateFieldsWith X fuel useful components [] ctx with
    | none => none
    | some (fields, ctx) => some (.StructType fields, ctx)
  | .SequenceOfType t, ctx =>
    match generateTypeBodyWith X fuel useful t ctx with
    | none => none
    | some (elt, ctx) => some (.ArrayType elt, ctx)
  | .TaggedType _ _ t, ctx => generateTypeBodyWith X fuel useful t ctx
  | .ConstraintedType t _, ctx => generateTypeBodyWith X fuel useful t ctx
  | .TypeReference name, ctx =>
    match lookupUsefulType X ctx name with
    | some usefulType => useful usefulType ctx
    | none => some (.Ident (goifyName X name), ctx)
  | .RestrictedStringType _, ctx => some (.Ident "string", ctx)
  | .BitStringType _, ctx => some (.ArrayType (.Ident "bool"), ctx)
  | .NullType, ctx =>
    some (.nil, ctx.appendError ("Ignoring unsupported type " ++ X.goSyntaxType .NullType))
  | .ObjectIdentifierType, ctx =>
    some (.nil,
      ctx.appendError ("Ignoring unsupported type " ++ X.goSyntaxType .ObjectIdentifierType))
  | .ChoiceType alts, ctx =>
    some (.nil,
      ctx.appendError ("Ignoring unsupported type " ++ X.goSyntaxType (.ChoiceType alts)))
  | .OtherType d, ctx =>
    some (.nil,
      ctx.appendError ("Ignoring unsupported type " ++ X.goSyntaxType (.OtherType d)))
/-- The loop over `t.Components` in the `SequenceType` case: a named component appends
the field made by `generateStructField`, a components-of inclusion does nothing. -/
def generateFieldsWith (X : Externals) (fuel : Nat)
    (useful : ASNType → moduleContext → Option (GoExpr × moduleContext)) :
    List ComponentType → List GoField → moduleContext →
      Option (List GoField × moduleContext)
  | [], fields, ctx => some (fields, ctx)
  | .Named f :: rest, fields, ctx =>
    match generateStructFieldWith X fuel useful f ctx with
    | none => none
    | some (field, ctx) => generateFieldsWith X fuel useful rest (fields ++ [field]) ctx
  | .ComponentsOf _ :: rest, fields, ctx =>
    generateFieldsWith X fuel useful rest fields ctx
/-- The body of `generateStructField`: name, then type, then tag. -/
def generateStructFieldWith (X : Externals) (fuel : Nat)
    (useful : ASNType → moduleContext → Option (GoExpr × moduleContext)) :
    NamedComponentType → moduleContext → Option (GoField × moduleContext)
  | .mk (.mk identifier t) isOptional default, ctx =>
    match generateTypeBodyWith X fuel useful t ctx with
    | none => none
    | some (type, ctx) =>
      match asn1TagFromType X fuel (.mk (.mk identifier t) isOptional default) ctx with
      | none => none
      | some (tag, ctx) => some (.mk [goifyName X identifier] type tag, ctx)
end

/-- Source `generateTypeBody`: the target shape of a schema type.  One unit of fuel is consumed
by each call through the registry. -/
def generateTypeBody (X : Externals) :
    Nat → ASNType → moduleContext → Option (GoExpr × moduleContext)
  | 0 => generateTypeBodyWith X 0 (fun _ _ => none)
  | fuel + 1 => generateTypeBodyWith X (fuel + 1) (generateTypeBody X fuel)

/-- Source `generateUsefulType`: the representation of the registry entry, at present
`generateTypeBody` of it. -/
def generateUsefulType (X : Externals) (fuel : Nat) (_ref : String) (t : ASNType)
    (ctx : moduleContext) : Option (GoExpr × moduleContext) :=
  generateTypeBody X fuel t ctx

/-- Source `generateStructField`: the field of a named component. -/
def generateStructField (X : Externals) (fuel : Nat) (f : NamedComponentType)
    (ctx : moduleContext) : Option (GoField × moduleContext) :=
  match generateTypeBody X fuel f.NamedType.Type_ ctx with
  | none => none
  | some (type, ctx) =>
    match asn1TagFromType X fuel f ctx with
    | none => none
    | some (tag, ctx) => some (.mk [goifyName X f.NamedType.Identifier] type tag, ctx)

/-- Source `generateTypeDecl`: the declaration of one type assignment. -/
def generateTypeDecl (X : Externals) (fuel : Nat) (reference : String) (typeDescr : ASNType)
    (ctx : moduleContext) : Option (GoDecl × moduleContext) :=
  match generateTypeBody X fuel typeDescr ctx with
  | none => none
  | some (body, ctx) => some (⟨goifyName X reference, body⟩, ctx)

/-- The loop of `generateDeclarations` over the assignment list: a type assignment
appends its declaration, any other assignment does nothing. -/
def generateDeclarationsLoop (X : Externals) (fuel : Nat) :
    List Assignment → List GoDecl → moduleContext → Option (List GoDecl × moduleContext)
  | [], decls, ctx => some (decls, ctx)
  | .TypeAssignment r t :: rest, decls, ctx =>
    match generateTypeDecl X fuel r t ctx with
    | none => none
    | some (decl, ctx) => generateDeclarationsLoop X fuel rest (decls ++ [decl]) ctx
  | .ValueAssignment _ _ _ :: rest, decls, ctx =>
    generateDeclarationsLoop X fuel rest decls ctx

/-- Source `generateDeclarations`: the declarations of the module body. -/
def generateDeclarations (X : Externals) (fuel : Nat) (module : ModuleDefinition)
    (ctx : moduleContext) : Option (List GoDecl × moduleContext) :=
  generateDeclarationsLoop X fuel module.ModuleBody.AssignmentList [] ctx

/-- What `Generate` does at its end: it returns the aggregated error without touching
the writer, or it hands the file to the printer and returns what the printer returns. -/
inductive GenerateResult where
  | failed (msg : String)
  | printed (ast : GoFile)

/-- The message built by `Generate` from the collected errors. -/
def errorMessage (errors : List String) : String :=
  errors.foldl (fun msg err => msg ++ ("  " ++ err ++ "\n"))
    "Errors generating Go AST from module: \n"

/-- Source `Generate`: run the module, then fail with the collected errors or print. -/
def Generate (X : Externals) (fuel : Nat) (module : ModuleDefinition) :
    Option GenerateResult :=
  let ctx : moduleContext :=
    { extensibilityImplied := module.ExtensibilityImplied
      tagDefault := module.TagDefault
      errors := []
      lookupContext := module.ModuleBody }
  match generateDeclarations X fuel module ctx with
  | none => none
  | some (decls, ctx) =>
    let ast : GoFile :=
      { Name := goifyName X module.ModuleIdentifier.Reference, Decls := decls }
    if ctx.errors.length ≠ 0 then some (.failed (errorMessage ctx.errors))
    else some (.printed ast)

/-! ## Descriptions used in the statements -/

/-- The context with its errors emptied. -/
def moduleContext.reset (ctx : moduleContext) : moduleContext :=
  { ctx with errors := [] }

/-- The context with further errors appended. -/
def moduleContext.addErrors (ctx : moduleContext) (errs : List String) : moduleContext :=
  { ctx with errors := ctx.errors ++ errs }

/-- The leaf of a type: what remains below its tagged and constrained layers. -/
def leafOf : ASNType → ASNType
  | .TaggedType _ _ t => leafOf t
  | .ConstraintedType t _ => leafOf t
  | t => t

/-- The tokens of one tagged layer. -/
def tagTokens (tag : Tag) (tagType : TagKind) : List String :=
  (if tag.Class = TagClass.CLASS_APPLICATION then ["application"] else []) ++
  (if tagType = TagKind.TAGS_EXPLICIT then ["explicit"] else []) ++
  (match tag.ClassNumber with
   | .Number n => ["tag:" ++ fmtInt n]
   | _ => [])

/-- The tokens of the tagged layers of a type, outermost layer first. -/
def layerTokens : ASNType → List String
  | .TaggedType tag tagType t => tagTokens tag tagType ++ layerTokens t
  | .ConstraintedType t _ => layerTokens t
  | _ => []

/-- The errors of the tagged layers of a type, outermost layer first. -/
def layerErrors (X : Externals) : ASNType → List String
  | .TaggedType tag _ t =>
    (match tag.ClassNumber with
     | .Number _ => []
     | cn => ["Tag value should be Number, got " ++ X.goSyntaxValue cn]) ++ layerErrors X t
  | .ConstraintedType t _ => layerErrors X t
  | _ => []

/-- The token of the optional flag of a component. -/
def optionalToken (nt : NamedComponentType) : List String :=
  if nt.IsOptional then ["optional"] else []

/-- The token of the default value of a component: present for an integer literal. -/
def defaultToken (nt : NamedComponentType) : List String :=
  match nt.Default with
  | some (.Number n) => ["default:" ++ fmtInt n]
  | _ => []

/-- The hint of a time type name. -/
def timeHint (leafName : String) : List String :=
  if leafName = "GeneralizedTime" then ["generalized"]
  else if leafName = "UTCTime" then ["utc"]
  else []

/-- The leaf hint of a leaf type: the charset token of a restricted string, the time token
of a type reference (by the name `unwrapToLeafType` gives for it), nothing otherwise.
`none` when `unwrapToLeafType` has no result with this fuel. -/
def leafHint (ctx : moduleContext) (fuel : Nat) : ASNType → Option (List String)
  | .RestrictedStringType .IA5String => some ["ia5"]
  | .RestrictedStringType .UTF8String => some ["utf8"]
  | .RestrictedStringType .PrintableString => some ["printable"]
  | .TypeReference r => (unwrapToLeafType ctx fuel r).map timeHint
  | _ => some []

/-- The token list of a component, in the order of the annotation. -/
def annotationTokens (ctx : moduleContext) (fuel : Nat) (nt : NamedComponentType) :
    Option (List String) :=
  (leafHint ctx fuel (leafOf nt.NamedType.Type_)).map fun hint =>
    optionalToken nt ++ defaultToken nt ++ layerTokens nt.NamedType.Type_ ++ hint

/-- The annotation made of a token list: nil for the empty list, else the comma-joined
tokens between backticks. -/
def annotationOf (tokens : List String) : Option String :=
  if tokens = [] then none else some ("`" ++ joinComma tokens ++ "`")

/-- A registry with the two time types, renderings that name the variant only, and
Unicode tables that leave runes above ASCII alone; used for concrete runs. -/
def sampleExternals : Externals where
  USEFUL_TYPES := fun name =>
    if name = "GeneralizedTime" then
      some (.TaggedType ⟨.CLASS_UNIVERSAL, .Number 24⟩ .TAGS_IMPLICIT
        (.RestrictedStringType (.OtherString 0)))
    else if name = "UTCTime" then
      some (.TaggedType ⟨.CLASS_UNIVERSAL, .Number 23⟩ .TAGS_IMPLICIT
        (.RestrictedStringType (.OtherString 0)))
    else none
  goSyntaxType := fun t =>
    match t with
    | .NullType => "asn1go.NullType{}"
    | .ObjectIdentifierType => "asn1go.ObjectIdentifierType{}"
    | .ChoiceType _ => "asn1go.ChoiceType{...}"
    | .OtherType d => d
    | _ => "asn1go.Type"
  goSyntaxValue := fun v =>
    match v with
    | .Number n => fmtInt n
    | .Other d => d
  IsLetter := fun _ => false
  IsDigit := fun _ => false
  IsSpace := fun _ => false
  ToTitleTable := fun r => r

/-- The context at the start of a run of a module without assignments. -/
def emptyContext : moduleContext :=
  { extensibilityImplied := false, tagDefault := 0, errors := [], lookupContext := ⟨[]⟩ }

/-- A non-optional field whose type is the reference `UTCTime` under an explicit
application tag numbered 3. -/
def utcField : NamedComponentType :=
  .mk (.mk "stime" (.TaggedType ⟨.CLASS_APPLICATION, .Number 3⟩ .TAGS_EXPLICIT
    (.TypeReference "UTCTime"))) false none

/-- A generator step is framed when it reads of the context only the lookup context and
only appends to the errors: its run from any context is its run from an error-free
context with the same lookup context, with the errors of that run appended. -/
def Framed {α β : Type} (g : α → moduleContext → Option (β × moduleContext)) : Prop :=
  ∀ (a : α) (ctx ctx0 : moduleContext), ctx0.lookupContext = ctx.lookupContext →
    ctx0.errors = [] →
    g a ctx = (g a ctx0).map fun r => (r.1, ctx.addErrors r.2.errors)

/-- The call of `generateTypeBody` through the registry with the fuel left for it: none
is left at fuel 0. -/
def usefulCall (X : Externals) :
    Nat → ASNType → moduleContext → Option (GoExpr × moduleContext)
  | 0 => fun _ _ => none
  | fuel + 1 => generateTypeBody X fuel

/-- The named components of a component list, in order. -/
def namedComponents : List ComponentType → List NamedComponentType
  | [] => []
  | .Named f :: rest => f :: namedComponents rest
  | .ComponentsOf _ :: rest => namedComponents rest

/-- The type assignments of an assignment list, in order. -/
def typeAssignments : List Assignment → List TypeAssignment
  | [] => []
  | .TypeAssignment r t :: rest => ⟨r, t⟩ :: typeAssignments rest
  | .ValueAssignment _ _ _ :: rest => typeAssignments rest

/-- The errors `generateTypeBody` appends for a type on its own: those of its run from
the error-free context (none if that run has no result). -/
def typeDiagnostics (X : Externals) (fuel : Nat) (ctx : moduleContext) (t : ASNType) :
    List String :=
  match generateTypeBody X fuel t ctx.reset with
  | some (_, c) => c.errors
  | none => []

/-- The errors `asn1TagFromType` appends for a component on its own. -/
def tagDiagnostics (X : Externals) (fuel : Nat) (ctx : moduleContext)
    (f : NamedComponentType) : List String :=
  match asn1TagFromType X fuel f ctx.reset with
  | some (_, c) => c.errors
  | none => []

/-- The outermost variant of the type is one `generateTypeBody` has no case for. -/
def unsupported : ASNType → Bool
  | .NullType => true
  | .ObjectIdentifierType => true
  | .ChoiceType _ => true
  | .OtherType _ => true
  | _ => false

/-- The context `Generate` starts a module with. -/
def initialContext (module : ModuleDefinition) : moduleContext :=
  { extensibilityImplied := module.ExtensibilityImplied
    tagDefault := module.TagDefault
    errors := []
    lookupContext := module.ModuleBody }

/-- The field `fld` is the one of the named component `f`: its name is `goifyName` of the
identifier, its type the result of `generateTypeBody` on the type of the component and
its tag the result of `asn1TagFromType` on the component (both run from `ctx`). -/
def IsFieldOf (X : Externals) (fuel : Nat) (ctx : moduleContext) (f : NamedComponentType)
    (fld : GoField) : Prop :=
  fld.Names = [goifyName X f.NamedType.Identifier] ∧
  (generateTypeBody X fuel f.NamedType.Type_ ctx).map Prod.fst = some fld.Type_ ∧
  (asn1TagFromType X fuel f ctx).map Prod.fst = some fld.Tag

/-- The errors `generateStructField` appends for a component on its own: those of its
type, then those of its tag. -/
def fieldDiagnostics (X : Externals) (fuel : Nat) (ctx : moduleContext)
    (f : NamedComponentType) : List String :=
  typeDiagnostics X fuel ctx f.NamedType.Type_ ++ tagDiagnostics X fuel ctx f

/-- The components `name` (a UTF8 string) and `age` (an integer, optional). -/
def personComponents : List ComponentType :=
  [.Named (.mk (.mk "name" (.RestrictedStringType .UTF8String)) false none),
   .Named (.mk (.mk "age" (.IntegerType [])) true none)]

/-- A components-of inclusion followed by one ordinary component. -/
def inclusionComponents : List ComponentType :=
  [.ComponentsOf (.TypeReference "Base"),
   .Named (.mk (.mk "flag" .BooleanType) false none)]

/-- A context whose module declares the name `UTCTime` itself. -/
def shadowingContext : moduleContext :=
  { extensibilityImplied := false, tagDefault := 0, errors := ["earlier"],
    lookupContext := ⟨[.TypeAssignment "UTCTime" .BooleanType]⟩ }

/-- The declaration `d` is the one of the type assignment `a`: its name is `goifyName` of
the name of the assignment and its type the result of `generateTypeBody` on the type of
the assignment (run from `ctx`). -/
def IsDeclOf (X : Externals) (fuel : Nat) (ctx : moduleContext) (a : TypeAssignment)
    (d : GoDecl) : Prop :=
  d.Name = goifyName X a.TypeReference ∧
  (generateTypeBody X fuel a.Type_ ctx).map Prod.fst = some d.Type_

/-- The lines `Generate` adds to its message: for each error two spaces, the error and a
newline. -/
def errorLines : List String → String
  | [] => ""
  | err :: rest => "  " ++ err ++ "\n" ++ errorLines rest

/-- The module with the value assignment `zero` and the type assignment
`Foo-Bar ::= INTEGER`. -/
def fooBarModule : ModuleDefinition :=
  { ModuleIdentifier := ⟨"Sample-Module"⟩
    TagDefault := 0
    ExtensibilityImplied := false
    ModuleBody := ⟨[.ValueAssignment "zero" (.IntegerType []) (.Number 0),
      .TypeAssignment "Foo-Bar" (.IntegerType [])]⟩ }

/-- The module with the type assignments `A ::= NULL` and `B ::= INTEGER`. -/
def nullModule : ModuleDefinition :=
  { ModuleIdentifier := ⟨"Nulls"⟩
    TagDefault := 0
    ExtensibilityImplied := false
    ModuleBody := ⟨[.TypeAssignment "A" .NullType, .TypeAssignment "B" (.IntegerType [])]⟩ }

/-- An ASCII letter. -/
def isAsciiLetter (c : Char) : Bool :=
  ('a'.toNat ≤ c.toNat && c.toNat ≤ 'z'.toNat) ||
    ('A'.toNat ≤ c.toNat && c.toNat ≤ 'Z'.toNat)

/-- An ASCII digit. -/
def isAsciiDigit (c : Char) : Bool :=
  '0'.toNat ≤ c.toNat && c.toNat ≤ '9'.toNat

/-- A schema name: ASCII letters, digits and hyphens, the first character a letter. -/
def isSchemaName (name : String) : Bool :=
  match name.data with
  | [] => false
  | c :: rest =>
    isAsciiLetter c && rest.all fun r => isAsciiLetter r || isAsciiDigit r || r == '-'

/-- The upper-case form of an ASCII letter; other characters are unchanged. -/
def asciiUpper (c : Char) : Char :=
  if 'a'.toNat ≤ c.toNat ∧ c.toNat ≤ 'z'.toNat then Char.ofNat (c.toNat - 32) else c

/-- The characters with the first one in upper case. -/
def upperFirst : List Char → List Char
  | [] => []
  | c :: rest => asciiUpper c :: rest

/-- The characters with every hyphen replaced by an underscore. -/
def hyphensToUnderscores (cs : List Char) : List Char :=
  cs.map fun c => if c = '-' then '_' else c

/-- The module with the type assignments `A ::= NULL` and `B ::= OBJECT IDENTIFIER`. -/
def unsupportedModule : ModuleDefinition :=
  { ModuleIdentifier := ⟨"M"⟩
    TagDefault := 0
    ExtensibilityImplied := false
    ModuleBody := ⟨[.TypeAssignment "A" .NullType,
      .TypeAssignment "B" .ObjectIdentifierType]⟩ }

/-- The type is a tagged or a constrained layer around another type. -/
def isWrapper : ASNType → Bool
  | .TaggedType _ _ _ => true
  | .ConstraintedType _ _ => true
  | _ => false

/-- The reference the leaf resolution moves to from a name: the type reference found
below the tagged and constrained layers of the type assigned to the name in the module;
`none` when the name has no type assignment or the type found there is no reference. -/
def nextReference (ctx : moduleContext) (name : String) : Option String :=
  match GetType ctx.lookupContext.AssignmentList name with
  | some assignment => unwrapLoop assignment.Type_
  | none => none

/-- A field with a default that is no integer literal, under a tag whose class number is
no integer literal. -/
def symbolicTagField : NamedComponentType :=
  .mk (.mk "realm" (.TaggedType ⟨.CLASS_APPLICATION, .Other "max"⟩ .TAGS_EXPLICIT
    (.ConstraintedType (.TaggedType ⟨.CLASS_CONTEXT_SPECIFIC, .Number 2⟩ .TAGS_IMPLICIT
      (.RestrictedStringType .IA5String)) "SIZE (1..8)"))) false (some (.Other "\"x\""))

/-- A context whose module has `KerberosTime ::= GeneralizedTime`, `Realm ::= [0]
KerberosString` and `KerberosString ::= GeneralString`. -/
def kerberosContext : moduleContext :=
  { extensibilityImplied := false, tagDefault := 0, errors := [],
    lookupContext := ⟨[.TypeAssignment "KerberosTime" (.TypeReference "GeneralizedTime"),
      .ValueAssignment "GeneralizedTime" (.IntegerType []) (.Number 5),
      .TypeAssignment "Realm" (.TaggedType ⟨.CLASS_CONTEXT_SPECIFIC, .Number 0⟩
        .TAGS_EXPLICIT (.TypeReference "KerberosString")),
      .TypeAssignment "KerberosString" (.RestrictedStringType (.OtherString 1))]⟩ }

/-- The module with the single type assignment `Alias ::= Mystery`. -/
def mysteryModule : ModuleDefinition :=
  { ModuleIdentifier := ⟨"Mysteries"⟩
    TagDefault := 0
    ExtensibilityImplied := false
    ModuleBody := ⟨[.TypeAssignment "Alias" (.TypeReference "Mystery")]⟩ }

/-- The error `generateTypeBody` appends for an unsupported type. -/
def unsupportedError (X : Externals) (t : ASNType) : String :=
  "Ignoring unsupported type " ++ X.goSyntaxType t

/-- A sequence with the single field `t` of type `KerberosTime`. -/
def kerberosTimeRecord : ASNType :=
  .SequenceType [.Named (.mk (.mk "t" (.TypeReference "KerberosTime")) false none)]

/-- The context of `kerberosContext` with another tag default and extensibility flag. -/
def kerberosContextExplicit : moduleContext :=
  { kerberosContext with extensibilityImplied := true, tagDefault := 1 }

/-- The name reached from `r` after `k` steps of the leaf resolution, `none` when the
resolution stops before. -/
def walk (ctx : moduleContext) : Nat → String → Option String
  | 0, r => some r
  | k + 1, r =>
    match nextReference ctx r with
    | some tt => walk ctx k tt
    | none => none

/-- The local type-reference chains of the module are acyclic: no name is reached from
itself by one or more steps of the leaf resolution. -/
def Acyclic (ctx : moduleContext) : Prop :=
  ∀ n, ¬ Relation.TransGen (fun a b => nextReference ctx a = some b) n n

/-- The module with `A ::= [0] A` and `Holder ::= SEQUENCE { a A }`. -/
def selfCycleModule : ModuleDefinition :=
  { ModuleIdentifier := ⟨"Cycle"⟩
    TagDefault := 0
    ExtensibilityImplied := false
    ModuleBody := ⟨[.TypeAssignment "A" (.TaggedType ⟨.CLASS_CONTEXT_SPECIFIC, .Number 0⟩
        .TAGS_EXPLICIT (.TypeReference "A")),
      .TypeAssignment "Holder"
        (.SequenceType [.Named (.mk (.mk "a" (.TypeReference "A")) false none)])]⟩ }

/-- A context whose module has `A ::= B` and `B ::= A`. -/
def mutualCycleContext : moduleContext :=
  { extensibilityImplied := false, tagDefault := 0, errors := [],
    lookupContext := ⟨[.TypeAssignment "A" (.TypeReference "B"),
      .TypeAssignment "B" (.TypeReference "A")]⟩ }

/-- A context whose module has `A ::= B` and `B ::= INTEGER`. -/
def chainContext : moduleContext :=
  { extensibilityImplied := false, tagDefault := 0, errors := [],
    lookupContext := ⟨[.TypeAssignment "A" (.TypeReference "B"),
      .TypeAssignment "B" (.IntegerType [])]⟩ }

mutual
/-- The expression is not nil and has no nil expression anywhere inside: no nil element
type of an array, no field with a nil type. -/
def GoExpr.complete : GoExpr → Bool
  | .nil => false
  | .Ident _ => true
  | .ArrayType elt => elt.complete
  | .StructType fields => fieldsComplete fields
/-- Every field of the list has a complete type. -/
def fieldsComplete : List GoField → Bool
  | [] => true
  | .mk _ type _ :: rest => type.complete && fieldsComplete rest
end

/-- A generator step is sound when a run that starts and ends without errors returns a
complete expression. -/
def Sound (g : ASNType → moduleContext → Option (GoExpr × moduleContext)) : Prop :=
  ∀ (t : ASNType) (c0 : moduleContext) (e : GoExpr) (c : moduleContext),
    c0.errors = [] → g t c0 = some (e, c) → c.errors = [] → e.complete = true

/-- A sequence with the single field `names`, a sequence of strings. -/
def namesRecord : ASNType :=
  .SequenceType [.Named (.mk (.mk "names"
    (.SequenceOfType (.RestrictedStringType (.OtherString 1)))) false none)]

/-- A sequence with the single field `id`, an object identifier. -/
def identifierRecord : ASNType :=
  .SequenceType [.Named (.mk (.mk "id" .ObjectIdentifierType) false none)]

/-- What the idempotence of `goifyName` needs of the title-case table at a rune above
ASCII: its title case is no hyphen, is a separator exactly when the rune is, and is its
own title case. -/
def TitleCaseSoundAt (X : Externals) (r : Char) : Prop :=
  X.ToTitleTable r ≠ '-' ∧
  isSeparator X (X.ToTitleTable r) = isSeparator X r ∧
  ToTitle X (X.ToTitleTable r) = X.ToTitleTable r

/-- The three facts about `ToTitle` at a rune that the idempotence of `strings.Title`
after the replacement of hyphens rests on. -/
def TitleStable (X : Externals) (r : Char) : Prop :=
  (r ≠ '-' → ToTitle X r ≠ '-') ∧
  isSeparator X (ToTitle X r) = isSeparator X r ∧
  ToTitle X (ToTitle X r) = ToTitle X r

mutual
/-- The expression with the tag of every field, at every depth, removed. -/
def GoExpr.eraseTags : GoExpr → GoExpr
  | .nil => .nil
  | .Ident name => .Ident name
  | .ArrayType elt => .ArrayType elt.eraseTags
  | .StructType fields => .StructType (eraseFieldTags fields)
/-- The fields with their tags removed, at every depth. -/
def eraseFieldTags : List GoField → List GoField
  | [] => []
  | .mk names type _ :: rest => .mk names type.eraseTags none :: eraseFieldTags rest
end

/-- Two generator steps give the same shape: from contexts with the same errors, results
of the two, when both exist, are the same expression up to field tags and have the same
errors. -/
def SameShape (g1 g2 : ASNType → moduleContext → Option (GoExpr × moduleContext)) : Prop :=
  ∀ (t : ASNType) (c1 c2 : moduleContext) (e1 e2 : GoExpr) (d1 d2 : moduleContext),
    c1.errors = c2.errors → g1 t c1 = some (e1, d1) → g2 t c2 = some (e2, d2) →
    e1.eraseTags = e2.eraseTags ∧ d1.errors = d2.errors

/-- The step `g` has a result in the module of `c` whenever the step `g'` has one in any
context. -/
def Follows (c : moduleContext)
    (g' g : ASNType → moduleContext → Option (GoExpr × moduleContext)) : Prop :=
  ∀ (t : ASNType) (ctx' ctx : moduleContext), ctx.lookupContext = c.lookupContext →
    (g' t ctx').isSome = true → (g t ctx).isSome = true

/-- The title case of a rune number in a table of case ranges `(lo, hi, stride, to)`: the
runes `lo`, `lo + stride`, ... up to `hi` have the title cases `to`, `to + stride`, ...;
the first range that has the rune decides, and a rune in no range has no entry. -/
def titleCaseOf : List (Nat × Nat × Nat × Nat) → Nat → Option Nat
  | [], _ => none
  | (lo, hi, stride, tlo) :: rest, n =>
    if lo ≤ n ∧ n ≤ hi ∧ (n - lo) % stride = 0 then some (tlo + (n - lo))
    else titleCaseOf rest n

/-- The rune number lies in one of the ranges `(lo, hi)`. -/
def inRanges : List (Nat × Nat) → Nat → Bool
  | [], _ => false
  | (lo, hi) :: rest, n => (Nat.ble lo n && Nat.ble n hi) || inRanges rest n

/-- The images `a`, `a + s`, ... up to `b` of a case range lie in none of the case ranges
of the list: each range is below them, above them, or holds runes of the other parity
only. -/
def imageApart (a b s : Nat) : List (Nat × Nat × Nat × Nat) → Bool
  | [] => true
  | (lo, hi, stride, _) :: rest =>
    (Nat.blt b lo || Nat.blt hi a ||
      ((s % 2 == 0 || a == b) && stride % 2 == 0 && (a + lo) % 2 == 1)) &&
    imageApart a b s rest

/-- No rune number from `a` to `b` lies in one of the ranges `(lo, hi)`. -/
def spaceFree (a b : Nat) : List (Nat × Nat) → Bool
  | [] => true
  | (lo, hi) :: rest => (Nat.blt b lo || Nat.blt hi a) && spaceFree a b rest

/-- The check of a table of case ranges `T` against the white-space ranges `S`, range by
range: the runes of the range are above ASCII; their title cases are valid runes, are
upper-case ASCII letters or above ASCII, and lie in no case range of `T`; neither the
runes nor their title cases are white space. -/
def caseRangesOK (T : List (Nat × Nat × Nat × Nat)) (S : List (Nat × Nat)) :
    List (Nat × Nat × Nat × Nat) → Bool
  | [] => true
  | (lo, hi, stride, tlo) :: rest =>
    Nat.blt 0x7F lo && Nat.ble lo hi && Nat.blt 0 stride &&
    (Nat.blt (tlo + (hi - lo)) 0xD800 ||
      (Nat.ble 0xE000 tlo && Nat.blt (tlo + (hi - lo)) 0x110000)) &&
    ((Nat.ble 65 tlo && Nat.ble (tlo + (hi - lo)) 90) || Nat.blt 0x7F tlo) &&
    imageApart tlo (tlo + (hi - lo)) stride T &&
    spaceFree lo hi S && spaceFree tlo (tlo + (hi - lo)) S &&
    caseRangesOK T S rest

/-- Go's `unicode` tables, title case: the runes above ASCII whose simple title-case
mapping in the Unicode Character Database (version 14.0) is another rune, as case ranges
`(lo, hi, stride, to)`: the runes `lo`, `lo + stride`, ... up to `hi` have the title
cases `to`, `to + stride`, ...  Every other rune above ASCII is its own title case. -/
def titleCaseRanges : List (Nat × Nat × Nat × Nat) :=
  [(0x00B5, 0x00B5, 1, 0x039C), (0x00E0, 0x00F6, 1, 0x00C0), (0x00F8, 0x00FE, 1, 0x00D8),
   (0x00FF, 0x00FF, 1, 0x0178), (0x0101, 0x012F, 2, 0x0100), (0x0131, 0x0131, 1, 0x0049),
   (0x0133, 0x0137, 2, 0x0132), (0x013A, 0x0148, 2, 0x0139), (0x014B, 0x0177, 2, 0x014A),
   (0x017A, 0x017E, 2, 0x0179), (0x017F, 0x017F, 1, 0x0053), (0x0180, 0x0180, 1, 0x0243),
   (0x0183, 0x0185, 2, 0x0182), (0x0188, 0x0188, 1, 0x0187), (0x018C, 0x018C, 1, 0x018B),
   (0x0192, 0x0192, 1, 0x0191), (0x0195, 0x0195, 1, 0x01F6), (0x0199, 0x0199, 1, 0x0198),
   (0x019A, 0x019A, 1, 0x023D), (0x019E, 0x019E, 1, 0x0220), (0x01A1, 0x01A5, 2, 0x01A0),
   (0x01A8, 0x01A8, 1, 0x01A7), (0x01AD, 0x01AD, 1, 0x01AC), (0x01B0, 0x01B0, 1, 0x01AF),
   (0x01B4, 0x01B6, 2, 0x01B3), (0x01B9, 0x01B9, 1, 0x01B8), (0x01BD, 0x01BD, 1, 0x01BC),
   (0x01BF, 0x01BF, 1, 0x01F7), (0x01C4, 0x01C4, 1, 0x01C5), (0x01C6, 0x01C6, 1, 0x01C5),
   (0x01C7, 0x01C7, 1, 0x01C8), (0x01C9, 0x01C9, 1, 0x01C8), (0x01CA, 0x01CA, 1, 0x01CB),
   (0x01CC, 0x01DC, 2, 0x01CB), (0x01DD, 0x01DD, 1, 0x018E), (0x01DF, 0x01EF, 2, 0x01DE),
   (0x01F1, 0x01F1, 1, 0x01F2), (0x01F3, 0x01F5, 2, 0x01F2), (0x01F9, 0x021F, 2, 0x01F8),
   (0x0223, 0x0233, 2, 0x0222), (0x023C, 0x023C, 1, 0x023B), (0x023F, 0x0240, 1, 0x2C7E),
   (0x0242, 0x0242, 1, 0x0241), (0x0247, 0x024F, 2, 0x0246), (0x0250, 0x0250, 1, 0x2C6F),
   (0x0251, 0x0251, 1, 0x2C6D), (0x0252, 0x0252, 1, 0x2C70), (0x0253, 0x0253, 1, 0x0181),
   (0x0254, 0x0254, 1, 0x0186), (0x0256, 0x0257, 1, 0x0189), (0x0259, 0x0259, 1, 0x018F),
   (0x025B, 0x025B, 1, 0x0190), (0x025C, 0x025C, 1, 0xA7AB), (0x0260, 0x0260, 1, 0x0193),
   (0x0261, 0x0261, 1, 0xA7AC), (0x0263, 0x0263, 1, 0x0194), (0x0265, 0x0265, 1, 0xA78D),
   (0x0266, 0x0266, 1, 0xA7AA), (0x0268, 0x0268, 1, 0x0197), (0x0269, 0x0269, 1, 0x0196),
   (0x026A, 0x026A, 1, 0xA7AE), (0x026B, 0x026B, 1, 0x2C62), (0x026C, 0x026C, 1, 0xA7AD),
   (0x026F, 0x026F, 1, 0x019C), (0x0271, 0x0271, 1, 0x2C6E), (0x0272, 0x0272, 1, 0x019D),
   (0x0275, 0x0275, 1, 0x019F), (0x027D, 0x027D, 1, 0x2C64), (0x0280, 0x0280, 1, 0x01A6),
   (0x0282, 0x0282, 1, 0xA7C5), (0x0283, 0x0283, 1, 0x01A9), (0x0287, 0x0287, 1, 0xA7B1),
   (0x0288, 0x0288, 1, 0x01AE), (0x0289, 0x0289, 1, 0x0244), (0x028A, 0x028B, 1, 0x01B1),
   (0x028C, 0x028C, 1, 0x0245), (0x0292, 0x0292, 1, 0x01B7), (0x029D, 0x029D, 1, 0xA7B2),
   (0x029E, 0x029E, 1, 0xA7B0), (0x0345, 0x0345, 1, 0x0399), (0x0371, 0x0373, 2, 0x0370),
   (0x0377, 0x0377, 1, 0x0376), (0x037B, 0x037D, 1, 0x03FD), (0x03AC, 0x03AC, 1, 0x0386),
   (0x03AD, 0x03AF, 1, 0x0388), (0x03B1, 0x03C1, 1, 0x0391), (0x03C2, 0x03C2, 1, 0x03A3),
   (0x03C3, 0x03CB, 1, 0x03A3), (0x03CC, 0x03CC, 1, 0x038C), (0x03CD, 0x03CE, 1, 0x038E),
   (0x03D0, 0x03D0, 1, 0x0392), (0x03D1, 0x03D1, 1, 0x0398), (0x03D5, 0x03D5, 1, 0x03A6),
   (0x03D6, 0x03D6, 1, 0x03A0), (0x03D7, 0x03D7, 1, 0x03CF), (0x03D9, 0x03EF, 2, 0x03D8),
   (0x03F0, 0x03F0, 1, 0x039A), (0x03F1, 0x03F1, 1, 0x03A1), (0x03F2, 0x03F2, 1, 0x03F9),
   (0x03F3, 0x03F3, 1, 0x037F), (0x03F5, 0x03F5, 1, 0x0395), (0x03F8, 0x03F8, 1, 0x03F7),
   (0x03FB, 0x03FB, 1, 0x03FA), (0x0430, 0x044F, 1, 0x0410), (0x0450, 0x045F, 1, 0x0400),
   (0x0461, 0x0481, 2, 0x0460), (0x048B, 0x04BF, 2, 0x048A), (0x04C2, 0x04CE, 2, 0x04C1),
   (0x04CF, 0x04CF, 1, 0x04C0), (0x04D1, 0x052F, 2, 0x04D0), (0x0561, 0x0586, 1, 0x0531),
   (0x13F8, 0x13FD, 1, 0x13F0), (0x1C80, 0x1C80, 1, 0x0412), (0x1C81, 0x1C81, 1, 0x0414),
   (0x1C82, 0x1C82, 1, 0x041E), (0x1C83, 0x1C84, 1, 0x0421), (0x1C85, 0x1C85, 1, 0x0422),
   (0x1C86, 0x1C86, 1, 0x042A), (0x1C87, 0x1C87, 1, 0x0462), (0x1C88, 0x1C88, 1, 0xA64A),
   (0x1D79, 0x1D79, 1, 0xA77D), (0x1D7D, 0x1D7D, 1, 0x2C63), (0x1D8E, 0x1D8E, 1, 0xA7C6),
   (0x1E01, 0x1E95, 2, 0x1E00), (0x1E9B, 0x1E9B, 1, 0x1E60), (0x1EA1, 0x1EFF, 2, 0x1EA0),
   (0x1F00, 0x1F07, 1, 0x1F08), (0x1F10, 0x1F15, 1, 0x1F18), (0x1F20, 0x1F27, 1, 0x1F28),
   (0x1F30, 0x1F37, 1, 0x1F38), (0x1F40, 0x1F45, 1, 0x1F48), (0x1F51, 0x1F57, 2, 0x1F59),
   (0x1F60, 0x1F67, 1, 0x1F68), (0x1F70, 0x1F71, 1, 0x1FBA), (0x1F72, 0x1F75, 1, 0x1FC8),
   (0x1F76, 0x1F77, 1, 0x1FDA), (0x1F78, 0x1F79, 1, 0x1FF8), (0x1F7A, 0x1F7B, 1, 0x1FEA),
   (0x1F7C, 0x1F7D, 1, 0x1FFA), (0x1F80, 0x1F87, 1, 0x1F88), (0x1F90, 0x1F97, 1, 0x1F98),
   (0x1FA0, 0x1FA7, 1, 0x1FA8), (0x1FB0, 0x1FB1, 1, 0x1FB8), (0x1FB3, 0x1FB3, 1, 0x1FBC),
   (0x1FBE, 0x1FBE, 1, 0x0399), (0x1FC3, 0x1FC3, 1, 0x1FCC), (0x1FD0, 0x1FD1, 1, 0x1FD8),
   (0x1FE0, 0x1FE1, 1, 0x1FE8), (0x1FE5, 0x1FE5, 1, 0x1FEC), (0x1FF3, 0x1FF3, 1, 0x1FFC),
   (0x214E, 0x214E, 1, 0x2132), (0x2170, 0x217F, 1, 0x2160), (0x2184, 0x2184, 1, 0x2183),
   (0x24D0, 0x24E9, 1, 0x24B6), (0x2C30, 0x2C5F, 1, 0x2C00), (0x2C61, 0x2C61, 1, 0x2C60),
   (0x2C65, 0x2C65, 1, 0x023A), (0x2C66, 0x2C66, 1, 0x023E), (0x2C68, 0x2C6C, 2, 0x2C67),
   (0x2C73, 0x2C73, 1, 0x2C72), (0x2C76, 0x2C76, 1, 0x2C75), (0x2C81, 0x2CE3, 2, 0x2C80),
   (0x2CEC, 0x2CEE, 2, 0x2CEB), (0x2CF3, 0x2CF3, 1, 0x2CF2), (0x2D00, 0x2D25, 1, 0x10A0),
   (0x2D27, 0x2D27, 1, 0x10C7), (0x2D2D, 0x2D2D, 1, 0x10CD), (0xA641, 0xA66D, 2, 0xA640),
   (0xA681, 0xA69B, 2, 0xA680), (0xA723, 0xA72F, 2, 0xA722), (0xA733, 0xA76F, 2, 0xA732),
   (0xA77A, 0xA77C, 2, 0xA779), (0xA77F, 0xA787, 2, 0xA77E), (0xA78C, 0xA78C, 1, 0xA78B),
   (0xA791, 0xA793, 2, 0xA790), (0xA794, 0xA794, 1, 0xA7C4), (0xA797, 0xA7A9, 2, 0xA796),
   (0xA7B5, 0xA7C3, 2, 0xA7B4), (0xA7C8, 0xA7CA, 2, 0xA7C7), (0xA7D1, 0xA7D1, 1, 0xA7D0),
   (0xA7D7, 0xA7D9, 2, 0xA7D6), (0xA7F6, 0xA7F6, 1, 0xA7F5), (0xAB53, 0xAB53, 1, 0xA7B3),
   (0xAB70, 0xABBF, 1, 0x13A0), (0xFF41, 0xFF5A, 1, 0xFF21), (0x10428, 0x1044F, 1, 0x10400),
   (0x104D8, 0x104FB, 1, 0x104B0), (0x10597, 0x105A1, 1, 0x10570), (0x105A3, 0x105B1, 1, 0x1057C),
   (0x105B3, 0x105B9, 1, 0x1058C), (0x105BB, 0x105BC, 1, 0x10594), (0x10CC0, 0x10CF2, 1, 0x10C80),
   (0x118C0, 0x118DF, 1, 0x118A0), (0x16E60, 0x16E7F, 1, 0x16E40), (0x1E922, 0x1E943, 1, 0x1E900)]

/-- Go's `unicode.IsSpace`: the runes with the White Space property, which are, in
Latin-1, tab to carriage return, space, U+0085 and U+00A0. -/
def whiteSpaceRanges : List (Nat × Nat) :=
  [(0x0009, 0x000D), (0x0020, 0x0020), (0x0085, 0x0085), (0x00A0, 0x00A0),
   (0x1680, 0x1680), (0x2000, 0x200A), (0x2028, 0x2029), (0x202F, 0x202F),
   (0x205F, 0x205F), (0x3000, 0x3000)]

/-- Go's `unicode.To(TitleCase, r)` for a rune above ASCII, by the table of case
ranges. -/
def unicodeToTitle (r : Char) : Char :=
  match titleCaseOf titleCaseRanges r.toNat with
  | some m => Char.ofNat m
  | none => r

/-- Go's `unicode.IsSpace`, by the table of white-space ranges. -/
def unicodeIsSpace (r : Char) : Bool :=
  inRanges whiteSpaceRanges r.toNat

/-- The parameters with the title-case table and the white-space predicate of Go's
`unicode` package in place of the ones given; the registry, the renderings and the
letter and digit predicates stay as given. -/
def withUnicode (X : Externals) : Externals :=
  { X with IsSpace := unicodeIsSpace, ToTitleTable := unicodeToTitle }

/-! ## Lemmas -/

theorem unwrapTags_eq (X : Externals) :
    ∀ (t : ASNType) (components : List String) (ctx : moduleContext),
      unwrapTags X t components ctx =
        (leafOf t, components ++ layerTokens t, ctx.addErrors (layerErrors X t))
  | .TaggedType tag tagType t, components, ctx => by
    obtain ⟨cls, cn⟩ := tag
    cases cn <;>
      simp [unwrapTags, lookupValue, leafOf, layerTokens, layerErrors, tagTokens,
        unwrapTags_eq X t, moduleContext.addErrors, moduleContext.appendError] <;>
      split_ifs <;> simp
  | .ConstraintedType t _, components, ctx => by
    simp [unwrapTags, leafOf, layerTokens, layerErrors, unwrapTags_eq X t]
  | .BooleanType, _, _ => by
    simp [unwrapTags, leafOf, layerTokens, layerErrors, moduleContext.addErrors]
  | .IntegerType _, _, _ => by
    simp [unwrapTags, leafOf, layerTokens, layerErrors, moduleContext.addErrors]
  | .CharacterStringType, _, _ => by
    simp [unwrapTags, leafOf, layerTokens, layerErrors, moduleContext.addErrors]
  | .RealType, _, _ => by
    simp [unwrapTags, leafOf, layerTokens, layerErrors, moduleContext.addErrors]
  | .OctetStringType, _, _ => by
    simp [unwrapTags, leafOf, layerTokens, layerErrors, moduleContext.addErrors]
  | .SequenceType _, _, _ => by
    simp [unwrapTags, leafOf, layerTokens, layerErrors, moduleContext.addErrors]
  | .SequenceOfType _, _, _ => by
    simp [unwrapTags, leafOf, layerTokens, layerErrors, moduleContext.addErrors]
  | .TypeReference _, _, _ => by
    simp [unwrapTags, leafOf, layerTokens, layerErrors, moduleContext.addErrors]
  | .RestrictedStringType _, _, _ => by
    simp [unwrapTags, leafOf, layerTokens, layerErrors, moduleContext.addErrors]
  | .BitStringType _, _, _ => by
    simp [unwrapTags, leafOf, layerTokens, layerErrors, moduleContext.addErrors]
  | .NullType, _, _ => by
    simp [unwrapTags, leafOf, layerTokens, layerErrors, moduleContext.addErrors]
  | .ObjectIdentifierType, _, _ => by
    simp [unwrapTags, leafOf, layerTokens, layerErrors, moduleContext.addErrors]
  | .ChoiceType _, _, _ => by
    simp [unwrapTags, leafOf, layerTokens, layerErrors, moduleContext.addErrors]
  | .OtherType _, _, _ => by
    simp [unwrapTags, leafOf, layerTokens, layerErrors, moduleContext.addErrors]

theorem unwrapToLeafType_congr (c1 c2 : moduleContext)
    (h : c1.lookupContext = c2.lookupContext) :
    ∀ (fuel : Nat) (r : String), unwrapToLeafType c1 fuel r = unwrapToLeafType c2 fuel r := by
  intro fuel
  induction fuel with
  | zero => intro r; simp [unwrapToLeafType, h]
  | succ n ih =>
    intro r
    rw [unwrapToLeafType, unwrapToLeafType]
    simp only [ih, h]

theorem tagLiteral_eq (components : List String) :
    tagLiteral components = annotationOf components := by
  cases components <;> simp [tagLiteral, annotationOf]

/-- The result of `asn1TagFromType`, annotation and context, in closed form. -/
theorem asn1TagFromType_eq (X : Externals) (fuel : Nat) (nt : NamedComponentType)
    (ctx : moduleContext) :
    asn1TagFromType X fuel nt ctx =
      (annotationTokens ctx fuel nt).map fun tokens =>
        (annotationOf tokens, ctx.addErrors (layerErrors X nt.NamedType.Type_)) := by
  obtain ⟨⟨identifier, t⟩, isOptional, default⟩ := nt
  simp only [asn1TagFromType, annotationTokens, NamedComponentType.NamedType,
    NamedType.Type_, unwrapTags_eq, tagLiteral_eq, optionalToken, defaultToken,
    NamedComponentType.IsOptional, NamedComponentType.Default]
  have hd : (match default with
      | some (Value.Number n) =>
        (if isOptional = true then ([] : List String) ++ ["optional"] else []) ++
          ["default:" ++ fmtInt n]
      | _ => (if isOptional = true then ([] : List String) ++ ["optional"] else [])) =
      (if isOptional = true then ["optional"] else []) ++
        (match default with
         | some (Value.Number n) => ["default:" ++ fmtInt n]
         | _ => []) := by
    cases default with
    | none => simp
    | some v => cases v <;> simp
  rw [hd]
  generalize leafOf t = leaf
  cases leaf <;> simp [leafHint, unwrapToLeafType_congr (ctx.addErrors _) ctx rfl]
  · rename_i r
    cases unwrapToLeafType ctx fuel r <;> simp [timeHint]
    split_ifs <;> simp
  · rename_i lt
    cases lt <;> simp [leafHint]

theorem annotationTokens_congr (c1 c2 : moduleContext)
    (h : c1.lookupContext = c2.lookupContext) (fuel : Nat) (nt : NamedComponentType) :
    annotationTokens c1 fuel nt = annotationTokens c2 fuel nt := by
  unfold annotationTokens
  have : ∀ t, leafHint c1 fuel t = leafHint c2 fuel t := by
    intro t
    cases t <;> simp [leafHint, unwrapToLeafType_congr c1 c2 h]
  rw [this]

theorem Framed.lookupContext_eq {α β : Type}
    {g : α → moduleContext → Option (β × moduleContext)} (hg : Framed g)
    {a : α} {ctx0 : moduleContext} (h0 : ctx0.errors = []) {b : β} {c : moduleContext}
    (h : g a ctx0 = some (b, c)) : c = ctx0.addErrors c.errors := by
  have := hg a ctx0 ctx0 rfl h0
  rw [h] at this
  simpa using this

theorem asn1TagFromType_framed (X : Externals) (fuel : Nat) :
    Framed (asn1TagFromType X fuel) := by
  intro nt ctx ctx0 hl h0
  rw [asn1TagFromType_eq, asn1TagFromType_eq, annotationTokens_congr ctx0 ctx hl]
  cases annotationTokens ctx fuel nt <;> simp [moduleContext.addErrors, h0]

theorem addErrors_addErrors (ctx : moduleContext) (a b : List String) :
    (ctx.addErrors a).addErrors b = ctx.addErrors (a ++ b) := by
  simp [moduleContext.addErrors]

theorem addErrors_errors (ctx : moduleContext) (a : List String) :
    (ctx.addErrors a).errors = ctx.errors ++ a := rfl

theorem addErrors_lookupContext (ctx : moduleContext) (a : List String) :
    (ctx.addErrors a).lookupContext = ctx.lookupContext := rfl

theorem appendError_eq (ctx : moduleContext) (e : String) :
    ctx.appendError e = ctx.addErrors [e] := rfl

mutual
theorem generateTypeBodyWith_frame (X : Externals) (fuel : Nat)
    (useful : ASNType → moduleContext → Option (GoExpr × moduleContext))
    (hu : Framed useful) :
    ∀ (t : ASNType) (ctx ctx0 : moduleContext), ctx0.lookupContext = ctx.lookupContext →
      ctx0.errors = [] →
      generateTypeBodyWith X fuel useful t ctx =
        (generateTypeBodyWith X fuel useful t ctx0).map fun r =>
          (r.1, ctx.addErrors r.2.errors)
  | .BooleanType, ctx, ctx0, _, h0 => by
    simp [generateTypeBodyWith, moduleContext.addErrors, h0]
  | .IntegerType _, ctx, ctx0, _, h0 => by
    simp [generateTypeBodyWith, moduleContext.addErrors, h0]
  | .CharacterStringType, ctx, ctx0, _, h0 => by
    simp [generateTypeBodyWith, moduleContext.addErrors, h0]
  | .RealType, ctx, ctx0, _, h0 => by
    simp [generateTypeBodyWith, moduleContext.addErrors, h0]
  | .OctetStringType, ctx, ctx0, _, h0 => by
    simp [generateTypeBodyWith, moduleContext.addErrors, h0]
  | .SequenceType components, ctx, ctx0, hl, h0 => by
    have ih := generateFieldsWith_frame X fuel useful hu components [] ctx ctx0 hl h0
    simp only [generateTypeBodyWith]
    rw [ih]
    cases generateFieldsWith X fuel useful components [] ctx0 with
    | none => rfl
    | some r => simp
  | .SequenceOfType t, ctx, ctx0, hl, h0 => by
    have ih := generateTypeBodyWith_frame X fuel useful hu t ctx ctx0 hl h0
    simp only [generateTypeBodyWith]
    rw [ih]
    cases generateTypeBodyWith X fuel useful t ctx0 with
    | none => rfl
    | some r => simp
  | .TaggedType _ _ t, ctx, ctx0, hl, h0 => by
    simpa only [generateTypeBodyWith] using
      generateTypeBodyWith_frame X fuel useful hu t ctx ctx0 hl h0
  | .ConstraintedType t _, ctx, ctx0, hl, h0 => by
    simpa only [generateTypeBodyWith] using
      generateTypeBodyWith_frame X fuel useful hu t ctx ctx0 hl h0
  | .TypeReference name, ctx, ctx0, hl, h0 => by
    simp only [generateTypeBodyWith, lookupUsefulType]
    cases X.USEFUL_TYPES name with
    | none => simp [moduleContext.addErrors, h0]
    | some u => exact hu u ctx ctx0 hl h0
  | .RestrictedStringType _, ctx, ctx0, _, h0 => by
    simp [generateTypeBodyWith, moduleContext.addErrors, h0]
  | .BitStringType _, ctx, ctx0, _, h0 => by
    simp [generateTypeBodyWith, moduleContext.addErrors, h0]
  | .NullType, ctx, ctx0, _, h0 => by
    simp [generateTypeBodyWith, moduleContext.addErrors, moduleContext.appendError, h0]
  | .ObjectIdentifierType, ctx, ctx0, _, h0 => by
    simp [generateTypeBodyWith, moduleContext.addErrors, moduleContext.appendError, h0]
  | .ChoiceType _, ctx, ctx0, _, h0 => by
    simp [generateTypeBodyWith, moduleContext.addErrors, moduleContext.appendError, h0]
  | .OtherType _, ctx, ctx0, _, h0 => by
    simp [generateTypeBodyWith, moduleContext.addErrors, moduleContext.appendError, h0]
theorem generateFieldsWith_frame (X : Externals) (fuel : Nat)
    (useful : ASNType → moduleContext → Option (GoExpr × moduleContext))
    (hu : Framed useful) :
    ∀ (cs : List ComponentType) (fields : List GoField) (ctx ctx0 : moduleContext),
      ctx0.lookupContext = ctx.lookupContext → ctx0.errors = [] →
      generateFieldsWith X fuel useful cs fields ctx =
        (generateFieldsWith X fuel useful cs [] ctx0).map fun r =>
          (fields ++ r.1, ctx.addErrors r.2.errors)
  | [], fields, ctx, ctx0, _, h0 => by
    simp [generateFieldsWith, moduleContext.addErrors, h0]
  | .Named f :: rest, fields, ctx, ctx0, hl, h0 => by
    have ihf := generateStructFieldWith_frame X fuel useful hu f
    simp only [generateFieldsWith]
    rw [ihf ctx ctx0 hl h0]
    cases hf : generateStructFieldWith X fuel useful f ctx0 with
    | none => rfl
    | some r =>
      obtain ⟨field, c⟩ := r
      have hc : c = ctx0.addErrors c.errors := by
        have := ihf ctx0 ctx0 rfl h0
        rw [hf] at this
        simpa using this
      have hcl : ctx0.lookupContext = c.lookupContext := by rw [hc]; rfl
      simp only [Option.map_some', List.nil_append]
      rw [generateFieldsWith_frame X fuel useful hu rest (fields ++ [field])
          (ctx.addErrors c.errors) ctx0 hl h0,
        generateFieldsWith_frame X fuel useful hu rest [field] c ctx0 hcl h0]
      cases generateFieldsWith X fuel useful rest [] ctx0 with
      | none => rfl
      | some r2 =>
        simp [addErrors_addErrors, addErrors_errors]
  | .ComponentsOf _ :: rest, fields, ctx, ctx0, hl, h0 => by
    simpa only [generateFieldsWith] using
      generateFieldsWith_frame X fuel useful hu rest fields ctx ctx0 hl h0
theorem generateStructFieldWith_frame (X : Externals) (fuel : Nat)
    (useful : ASNType → moduleContext → Option (GoExpr × moduleContext))
    (hu : Framed useful) :
    ∀ (f : NamedComponentType) (ctx ctx0 : moduleContext),
      ctx0.lookupContext = ctx.lookupContext → ctx0.errors = [] →
      generateStructFieldWith X fuel useful f ctx =
        (generateStructFieldWith X fuel useful f ctx0).map fun r =>
          (r.1, ctx.addErrors r.2.errors)
  | .mk (.mk identifier t) isOptional default, ctx, ctx0, hl, h0 => by
    have iht := generateTypeBodyWith_frame X fuel useful hu t
    simp only [generateStructFieldWith]
    rw [iht ctx ctx0 hl h0]
    cases ht : generateTypeBodyWith X fuel useful t ctx0 with
    | none => rfl
    | some r =>
      obtain ⟨type, c⟩ := r
      have hc : c = ctx0.addErrors c.errors := by
        have := iht ctx0 ctx0 rfl h0
        rw [ht] at this
        simpa using this
      have hcl : c.lookupContext = ctx.lookupContext := by rw [hc]; exact hl
      simp only [Option.map_some']
      rw [asn1TagFromType_eq, asn1TagFromType_eq,
        annotationTokens_congr (ctx.addErrors c.errors) c (by rw [hcl]; rfl)]
      cases annotationTokens c fuel (.mk (.mk identifier t) isOptional default) with
      | none => rfl
      | some toks => simp [addErrors_addErrors, addErrors_errors]
end

theorem generateTypeBody_eq_with (X : Externals) (fuel : Nat) :
    generateTypeBody X fuel = generateTypeBodyWith X fuel (usefulCall X fuel) := by
  cases fuel <;> rfl

theorem generateTypeBody_framed (X : Externals) :
    ∀ fuel : Nat, Framed (generateTypeBody X fuel)
  | 0 => by
    intro t ctx ctx0 hl h0
    rw [generateTypeBody_eq_with]
    exact generateTypeBodyWith_frame X 0 _ (fun _ _ _ _ _ => rfl) t ctx ctx0 hl h0
  | fuel + 1 => by
    intro t ctx ctx0 hl h0
    rw [generateTypeBody_eq_with]
    exact generateTypeBodyWith_frame X (fuel + 1) _ (generateTypeBody_framed X fuel)
      t ctx ctx0 hl h0

theorem usefulCall_framed (X : Externals) : ∀ fuel : Nat, Framed (usefulCall X fuel)
  | 0 => fun _ _ _ _ _ => rfl
  | fuel + 1 => generateTypeBody_framed X fuel

theorem generateStructFieldWith_eq (X : Externals) (fuel : Nat) (f : NamedComponentType)
    (ctx : moduleContext) :
    generateStructFieldWith X fuel (usefulCall X fuel) f ctx =
      generateStructField X fuel f ctx := by
  obtain ⟨⟨identifier, t⟩, isOptional, default⟩ := f
  simp only [generateStructFieldWith, generateStructField, generateTypeBody_eq_with,
    NamedComponentType.NamedType, NamedType.Type_, NamedType.Identifier]

theorem generateStructField_framed (X : Externals) (fuel : Nat) :
    Framed (generateStructField X fuel) := by
  intro f ctx ctx0 hl h0
  rw [← generateStructFieldWith_eq, ← generateStructFieldWith_eq]
  exact generateStructFieldWith_frame X fuel _ (usefulCall_framed X fuel) f ctx ctx0 hl h0

theorem reset_lookupContext (ctx : moduleContext) :
    ctx.reset.lookupContext = ctx.lookupContext := rfl

theorem reset_errors (ctx : moduleContext) : ctx.reset.errors = [] := rfl

theorem reset_addErrors (ctx : moduleContext) (errs : List String) :
    (ctx.addErrors errs).reset = ctx.reset := rfl

/-- A framed step run from any context: its result is the one from the error-free
context, its context the starting one with the errors of that run appended. -/
theorem Framed.run {α β : Type} {g : α → moduleContext → Option (β × moduleContext)}
    (hg : Framed g) (a : α) (ctx : moduleContext) :
    g a ctx = (g a ctx.reset).map fun r => (r.1, ctx.addErrors r.2.errors) :=
  hg a ctx ctx.reset rfl rfl

/-- The result of a framed step does not depend on the errors already collected, nor
on anything of the context but the lookup context. -/
theorem Framed.fst_congr {α β : Type}
    {g : α → moduleContext → Option (β × moduleContext)} (hg : Framed g) (a : α)
    (c1 c2 : moduleContext) (h : c1.lookupContext = c2.lookupContext) :
    (g a c1).map Prod.fst = (g a c2).map Prod.fst := by
  rw [hg a c1 c2.reset (by simp [reset_lookupContext, h]) rfl, hg.run a c2]
  cases g a c2.reset <;> rfl

theorem Framed.run_some {α β : Type} {g : α → moduleContext → Option (β × moduleContext)}
    (hg : Framed g) {a : α} {ctx : moduleContext} {b : β} {c : moduleContext}
    (h : g a ctx = some (b, c)) :
    ∃ c0, g a ctx.reset = some (b, c0) ∧ c = ctx.addErrors c0.errors := by
  rw [hg.run a ctx] at h
  cases h0 : g a ctx.reset with
  | none => simp [h0] at h
  | some r =>
    obtain ⟨b0, c0⟩ := r
    simp only [h0, Option.map_some', Option.some.injEq, Prod.mk.injEq] at h
    exact ⟨c0, by rw [h.1], h.2.symm⟩

theorem generateTypeBody_run_some (X : Externals) (fuel : Nat) {t : ASNType}
    {ctx : moduleContext} {e : GoExpr} {c : moduleContext}
    (h : generateTypeBody X fuel t ctx = some (e, c)) :
    c = ctx.addErrors (typeDiagnostics X fuel ctx t) := by
  obtain ⟨c0, h0, hc⟩ := (generateTypeBody_framed X fuel).run_some h
  simp [typeDiagnostics, h0, hc]

theorem asn1TagFromType_run_some (X : Externals) (fuel : Nat) {f : NamedComponentType}
    {ctx : moduleContext} {tag : Option String} {c : moduleContext}
    (h : asn1TagFromType X fuel f ctx = some (tag, c)) :
    c = ctx.addErrors (tagDiagnostics X fuel ctx f) := by
  obtain ⟨c0, h0, hc⟩ := (asn1TagFromType_framed X fuel).run_some h
  simp [tagDiagnostics, h0, hc]

theorem typeDiagnostics_congr (X : Externals) (fuel : Nat) (c1 c2 : moduleContext)
    (h : c1.lookupContext = c2.lookupContext) (t : ASNType) :
    typeDiagnostics X fuel c1 t = typeDiagnostics X fuel c2 t := by
  unfold typeDiagnostics
  rw [generateTypeBody_framed X fuel t c1.reset c2.reset h.symm rfl]
  cases generateTypeBody X fuel t c2.reset <;> simp [moduleContext.addErrors, reset_errors]

theorem tagDiagnostics_congr (X : Externals) (fuel : Nat) (c1 c2 : moduleContext)
    (h : c1.lookupContext = c2.lookupContext) (f : NamedComponentType) :
    tagDiagnostics X fuel c1 f = tagDiagnostics X fuel c2 f := by
  unfold tagDiagnostics
  rw [asn1TagFromType_framed X fuel f c1.reset c2.reset h.symm rfl]
  cases asn1TagFromType X fuel f c2.reset <;> simp [moduleContext.addErrors, reset_errors]

theorem fieldDiagnostics_congr (X : Externals) (fuel : Nat) (c1 c2 : moduleContext)
    (h : c1.lookupContext = c2.lookupContext) (f : NamedComponentType) :
    fieldDiagnostics X fuel c1 f = fieldDiagnostics X fuel c2 f := by
  unfold fieldDiagnostics
  rw [typeDiagnostics_congr X fuel c1 c2 h, tagDiagnostics_congr X fuel c1 c2 h]

theorem isFieldOf_congr {X : Externals} {fuel : Nat} {c1 c2 : moduleContext}
    (h : c1.lookupContext = c2.lookupContext) {f : NamedComponentType} {fld : GoField}
    (hf : IsFieldOf X fuel c1 f fld) : IsFieldOf X fuel c2 f fld := by
  obtain ⟨h1, h2, h3⟩ := hf
  refine ⟨h1, ?_, ?_⟩
  · rw [← h2]; exact ((generateTypeBody_framed X fuel).fst_congr _ c1 c2 h).symm
  · rw [← h3]; exact ((asn1TagFromType_framed X fuel).fst_congr _ c1 c2 h).symm

/-- What `generateStructField` returns: the field of the component, and the context with
the errors of the component appended. -/
theorem generateStructField_some (X : Externals) (fuel : Nat) {f : NamedComponentType}
    {ctx : moduleContext} {fld : GoField} {c : moduleContext}
    (h : generateStructField X fuel f ctx = some (fld, c)) :
    IsFieldOf X fuel ctx f fld ∧ c = ctx.addErrors (fieldDiagnostics X fuel ctx f) := by
  unfold generateStructField at h
  cases ht : generateTypeBody X fuel f.NamedType.Type_ ctx with
  | none => simp [ht] at h
  | some r1 =>
    obtain ⟨type, c1⟩ := r1
    simp only [ht] at h
    cases ha : asn1TagFromType X fuel f c1 with
    | none => simp [ha] at h
    | some r2 =>
      obtain ⟨tag, c2⟩ := r2
      simp only [ha, Option.some.injEq, Prod.mk.injEq] at h
      obtain ⟨rfl, rfl⟩ := h
      have hc1 := generateTypeBody_run_some X fuel ht
      have hc2 := asn1TagFromType_run_some X fuel ha
      have hl : c1.lookupContext = ctx.lookupContext := by rw [hc1]; rfl
      refine ⟨⟨rfl, by rw [ht]; rfl, ?_⟩, ?_⟩
      · rw [← (asn1TagFromType_framed X fuel).fst_congr f c1 ctx hl, ha]; rfl
      · rw [hc2, tagDiagnostics_congr X fuel c1 ctx hl, fieldDiagnostics]
        conv_lhs => rw [hc1]
        rw [addErrors_addErrors]

/-- The function `generateStructField` has a result exactly when both `generateTypeBody` on the type
and `asn1TagFromType` on the component have one. -/
theorem generateStructField_isSome (X : Externals) (fuel : Nat) (f : NamedComponentType)
    (ctx : moduleContext) :
    (generateStructField X fuel f ctx).isSome =
      ((generateTypeBody X fuel f.NamedType.Type_ ctx).isSome &&
        (asn1TagFromType X fuel f ctx).isSome) := by
  unfold generateStructField
  cases ht : generateTypeBody X fuel f.NamedType.Type_ ctx with
  | none => simp
  | some r1 =>
    obtain ⟨type, c1⟩ := r1
    have hc1 := generateTypeBody_run_some X fuel ht
    have hl : c1.lookupContext = ctx.lookupContext := by rw [hc1]; rfl
    have := congrArg Option.isSome ((asn1TagFromType_framed X fuel).fst_congr f c1 ctx hl)
    simp only [Option.isSome_map'] at this
    rw [← this]
    cases ha : asn1TagFromType X fuel f c1 <;> simp [ha]

/-- What the loop over the components returns: the fields so far followed by one field per
named component, in order, and the context with the errors of the named components
appended, in order. -/
theorem generateFieldsWith_some (X : Externals) (fuel : Nat) :
    ∀ (cs : List ComponentType) (acc : List GoField) (ctx : moduleContext)
      (flds : List GoField) (c : moduleContext),
      generateFieldsWith X fuel (usefulCall X fuel) cs acc ctx = some (flds, c) →
      ∃ new, flds = acc ++ new ∧
        List.Forall₂ (IsFieldOf X fuel ctx) (namedComponents cs) new ∧
        c = ctx.addErrors ((namedComponents cs).flatMap (fieldDiagnostics X fuel ctx))
  | [], acc, ctx, flds, c, h => by
    simp only [generateFieldsWith, Option.some.injEq, Prod.mk.injEq] at h
    obtain ⟨rfl, rfl⟩ := h
    exact ⟨[], by simp, by simp [namedComponents], by
      simp [namedComponents, moduleContext.addErrors]⟩
  | .Named f :: rest, acc, ctx, flds, c, h => by
    simp only [generateFieldsWith, generateStructFieldWith_eq] at h
    cases hf : generateStructField X fuel f ctx with
    | none => simp [hf] at h
    | some r =>
      obtain ⟨fld, c1⟩ := r
      simp only [hf] at h
      obtain ⟨hfld, hc1⟩ := generateStructField_some X fuel hf
      obtain ⟨new, hnew, hall, hc⟩ := generateFieldsWith_some X fuel rest _ c1 flds c h
      have hl : c1.lookupContext = ctx.lookupContext := by rw [hc1]; rfl
      refine ⟨fld :: new, by simp [hnew], ?_, ?_⟩
      · simp only [namedComponents]
        exact List.Forall₂.cons hfld (hall.imp fun _ _ h => isFieldOf_congr hl h)
      · have hd : fieldDiagnostics X fuel c1 = fieldDiagnostics X fuel ctx :=
          funext (fieldDiagnostics_congr X fuel c1 ctx hl)
        rw [hc, hd]
        conv_lhs => rw [hc1]
        simp [namedComponents, addErrors_addErrors]
  | .ComponentsOf _ :: rest, acc, ctx, flds, c, h => by
    simp only [generateFieldsWith] at h
    simpa only [namedComponents] using generateFieldsWith_some X fuel rest acc ctx flds c h

/-- The loop over the components has a result exactly when `generateStructField` has one
on every named component. -/
theorem generateFieldsWith_isSome (X : Externals) (fuel : Nat) :
    ∀ (cs : List ComponentType) (acc : List GoField) (ctx : moduleContext),
      (generateFieldsWith X fuel (usefulCall X fuel) cs acc ctx).isSome =
        (namedComponents cs).all fun f => (generateStructField X fuel f ctx).isSome
  | [], acc, ctx => by simp [generateFieldsWith, namedComponents]
  | .Named f :: rest, acc, ctx => by
    simp only [generateFieldsWith, generateStructFieldWith_eq, namedComponents,
      List.all_cons]
    cases hf : generateStructField X fuel f ctx with
    | none => simp
    | some r =>
      obtain ⟨fld, c1⟩ := r
      obtain ⟨-, hc1⟩ := generateStructField_some X fuel hf
      have hl : c1.lookupContext = ctx.lookupContext := by rw [hc1]; rfl
      simp only [Option.isSome_some, Bool.true_and]
      rw [generateFieldsWith_isSome X fuel rest _ c1]
      congr 1
      funext g
      have := congrArg Option.isSome
        ((generateStructField_framed X fuel).fst_congr g c1 ctx hl)
      simpa only [Option.isSome_map'] using this
  | .ComponentsOf _ :: rest, acc, ctx => by
    simpa only [generateFieldsWith, namedComponents] using
      generateFieldsWith_isSome X fuel rest acc ctx

theorem generateTypeDecl_some (X : Externals) (fuel : Nat) {r : String} {t : ASNType}
    {ctx : moduleContext} {d : GoDecl} {c : moduleContext}
    (h : generateTypeDecl X fuel r t ctx = some (d, c)) :
    IsDeclOf X fuel ctx ⟨r, t⟩ d ∧ c = ctx.addErrors (typeDiagnostics X fuel ctx t) := by
  unfold generateTypeDecl at h
  cases ht : generateTypeBody X fuel t ctx with
  | none => simp [ht] at h
  | some r1 =>
    obtain ⟨body, c1⟩ := r1
    simp only [ht, Option.some.injEq, Prod.mk.injEq] at h
    obtain ⟨rfl, rfl⟩ := h
    exact ⟨⟨rfl, by rw [ht]; rfl⟩, generateTypeBody_run_some X fuel ht⟩

theorem isDeclOf_congr {X : Externals} {fuel : Nat} {c1 c2 : moduleContext}
    (h : c1.lookupContext = c2.lookupContext) {a : TypeAssignment} {d : GoDecl}
    (hd : IsDeclOf X fuel c1 a d) : IsDeclOf X fuel c2 a d := by
  obtain ⟨h1, h2⟩ := hd
  refine ⟨h1, ?_⟩
  rw [← h2]; exact ((generateTypeBody_framed X fuel).fst_congr _ c1 c2 h).symm

/-- What the loop over the assignments returns: the declarations so far followed by one
declaration per type assignment, in order, and the context with the errors of the type
assignments appended, in order. -/
theorem generateDeclarationsLoop_some (X : Externals) (fuel : Nat) :
    ∀ (as : List Assignment) (acc : List GoDecl) (ctx : moduleContext)
      (decls : List GoDecl) (c : moduleContext),
      generateDeclarationsLoop X fuel as acc ctx = some (decls, c) →
      ∃ new, decls = acc ++ new ∧
        List.Forall₂ (IsDeclOf X fuel ctx) (typeAssignments as) new ∧
        c = ctx.addErrors
          ((typeAssignments as).flatMap fun a => typeDiagnostics X fuel ctx a.Type_)
  | [], acc, ctx, decls, c, h => by
    simp only [generateDeclarationsLoop, Option.some.injEq, Prod.mk.injEq] at h
    obtain ⟨rfl, rfl⟩ := h
    exact ⟨[], by simp, by simp [typeAssignments], by
      simp [typeAssignments, moduleContext.addErrors]⟩
  | .TypeAssignment r t :: rest, acc, ctx, decls, c, h => by
    simp only [generateDeclarationsLoop] at h
    cases hd : generateTypeDecl X fuel r t ctx with
    | none => simp [hd] at h
    | some r1 =>
      obtain ⟨d, c1⟩ := r1
      simp only [hd] at h
      obtain ⟨hdecl, hc1⟩ := generateTypeDecl_some X fuel hd
      obtain ⟨new, hnew, hall, hc⟩ := generateDeclarationsLoop_some X fuel rest _ c1 decls c h
      have hl : c1.lookupContext = ctx.lookupContext := by rw [hc1]; rfl
      refine ⟨d :: new, by simp [hnew], ?_, ?_⟩
      · simp only [typeAssignments]
        exact List.Forall₂.cons hdecl (hall.imp fun _ _ h => isDeclOf_congr hl h)
      · have hdg : (fun a : TypeAssignment => typeDiagnostics X fuel c1 a.Type_) =
            fun a => typeDiagnostics X fuel ctx a.Type_ :=
          funext fun a => typeDiagnostics_congr X fuel c1 ctx hl a.Type_
        rw [hc, hdg]
        conv_lhs => rw [hc1]
        simp [typeAssignments, addErrors_addErrors]
  | .ValueAssignment _ _ _ :: rest, acc, ctx, decls, c, h => by
    simp only [generateDeclarationsLoop] at h
    simpa only [typeAssignments] using
      generateDeclarationsLoop_some X fuel rest acc ctx decls c h

/-- The loop over the assignments has a result exactly when `generateTypeBody` has one on
the type of every type assignment. -/
theorem generateDeclarationsLoop_isSome (X : Externals) (fuel : Nat) :
    ∀ (as : List Assignment) (acc : List GoDecl) (ctx : moduleContext),
      (generateDeclarationsLoop X fuel as acc ctx).isSome =
        (typeAssignments as).all fun a => (generateTypeBody X fuel a.Type_ ctx).isSome
  | [], acc, ctx => by simp [generateDeclarationsLoop, typeAssignments]
  | .TypeAssignment r t :: rest, acc, ctx => by
    simp only [generateDeclarationsLoop, generateTypeDecl, typeAssignments, List.all_cons]
    cases ht : generateTypeBody X fuel t ctx with
    | none => simp
    | some r1 =>
      obtain ⟨body, c1⟩ := r1
      have hc1 := generateTypeBody_run_some X fuel ht
      have hl : c1.lookupContext = ctx.lookupContext := by rw [hc1]; rfl
      simp only [Option.isSome_some, Bool.true_and]
      rw [generateDeclarationsLoop_isSome X fuel rest _ c1]
      congr 1
      funext a
      have := congrArg Option.isSome
        ((generateTypeBody_framed X fuel).fst_congr a.Type_ c1 ctx hl)
      simpa only [Option.isSome_map'] using this
  | .ValueAssignment _ _ _ :: rest, acc, ctx => by
    simpa only [generateDeclarationsLoop, typeAssignments] using
      generateDeclarationsLoop_isSome X fuel rest acc ctx

theorem errorMessage_foldl (errors : List String) (msg : String) :
    errors.foldl (fun msg err => msg ++ ("  " ++ err ++ "\n")) msg =
      msg ++ errorLines errors := by
  induction errors generalizing msg with
  | nil => simp [errorLines]
  | cons e rest ih =>
    rw [List.foldl_cons, ih, errorLines]
    simp only [String.append_assoc]

theorem errorMessage_eq (errors : List String) :
    errorMessage errors = "Errors generating Go AST from module: \n" ++ errorLines errors :=
  errorMessage_foldl errors _

/-- The function `Generate` in terms of the result of `generateDeclarations`. -/
theorem Generate_eq (X : Externals) (fuel : Nat) (module : ModuleDefinition) :
    Generate X fuel module =
      (generateDeclarations X fuel module (initialContext module)).map fun r =>
        if r.2.errors = [] then
          .printed ⟨goifyName X module.ModuleIdentifier.Reference, r.1⟩
        else .failed (errorMessage r.2.errors) := by
  unfold Generate
  show (match generateDeclarations X fuel module (initialContext module) with
    | none => none
    | some (decls, ctx) => _) = _
  cases generateDeclarations X fuel module (initialContext module) with
  | none => rfl
  | some r =>
    obtain ⟨decls, c⟩ := r
    cases he : c.errors <;> simp [he]

theorem isSeparator_of_wordChar (X : Externals) (c : Char)
    (h : (isAsciiLetter c || isAsciiDigit c || c == '_') = true) :
    isSeparator X c = false := by
  unfold isSeparator
  simp only [isAsciiLetter, isAsciiDigit, Bool.or_eq_true, Bool.and_eq_true,
    decide_eq_true_eq, beq_iff_eq] at h
  have ha : 'a'.toNat = 97 := rfl
  have hz : 'z'.toNat = 122 := rfl
  have hA : 'A'.toNat = 65 := rfl
  have hZ : 'Z'.toNat = 90 := rfl
  have h0 : '0'.toNat = 48 := rfl
  have h9 : '9'.toNat = 57 := rfl
  rw [ha, hz, hA, hZ, h0, h9] at h
  rw [ha, hz, hA, hZ, h0, h9]
  rcases h with ((h | h) | h) | h
  · have : c.toNat ≤ 0x7F := by omega
    simp only [this, if_true]
    split_ifs <;> rfl
  · have : c.toNat ≤ 0x7F := by omega
    simp only [this, if_true]
    split_ifs <;> rfl
  · have : c.toNat ≤ 0x7F := by omega
    simp only [this, if_true]
    split_ifs
    rfl
  · subst h
    rfl

theorem titleFrom_of_wordChars (X : Externals) :
    ∀ (cs : List Char) (prev : Char),
      (isAsciiLetter prev || isAsciiDigit prev || prev == '_') = true →
      (∀ c ∈ cs, (isAsciiLetter c || isAsciiDigit c || c == '_') = true) →
      titleFrom X prev cs = cs
  | [], _, _, _ => rfl
  | c :: rest, prev, hp, hcs => by
    have hc := hcs c (List.mem_cons_self _ _)
    have hr : ∀ d ∈ rest, (isAsciiLetter d || isAsciiDigit d || d == '_') = true :=
      fun d hd => hcs d (List.mem_cons_of_mem _ hd)
    simp only [titleFrom, isSeparator_of_wordChar X prev hp, Bool.false_eq_true, if_false]
    rw [titleFrom_of_wordChars X rest c hc hr]

theorem unwrapLoop_eq_some (r : String) :
    ∀ t : ASNType, unwrapLoop t = some r ↔ leafOf t = .TypeReference r
  | .TaggedType _ _ t => by simpa only [unwrapLoop, leafOf] using unwrapLoop_eq_some r t
  | .ConstraintedType t _ => by simpa only [unwrapLoop, leafOf] using unwrapLoop_eq_some r t
  | .TypeReference n => by simp [unwrapLoop, leafOf]
  | .BooleanType => by simp [unwrapLoop, leafOf]
  | .IntegerType _ => by simp [unwrapLoop, leafOf]
  | .CharacterStringType => by simp [unwrapLoop, leafOf]
  | .RealType => by simp [unwrapLoop, leafOf]
  | .OctetStringType => by simp [unwrapLoop, leafOf]
  | .SequenceType _ => by simp [unwrapLoop, leafOf]
  | .SequenceOfType _ => by simp [unwrapLoop, leafOf]
  | .RestrictedStringType _ => by simp [unwrapLoop, leafOf]
  | .BitStringType _ => by simp [unwrapLoop, leafOf]
  | .NullType => by simp [unwrapLoop, leafOf]
  | .ObjectIdentifierType => by simp [unwrapLoop, leafOf]
  | .ChoiceType _ => by simp [unwrapLoop, leafOf]
  | .OtherType _ => by simp [unwrapLoop, leafOf]

theorem unwrapLoop_eq_none (t : ASNType) :
    unwrapLoop t = none ↔ ∀ r, leafOf t ≠ .TypeReference r := by
  constructor
  · intro h r hr
    rw [(unwrapLoop_eq_some r t).mpr hr] at h
    cases h
  · intro h
    cases hu : unwrapLoop t with
    | none => rfl
    | some r => exact absurd ((unwrapLoop_eq_some r t).mp hu) (h r)

/-- One step of `unwrapToLeafType`: the name itself when the resolution stops at it,
else the resolution of the next reference with one unit of fuel less. -/
theorem unwrapToLeafType_step (ctx : moduleContext) (fuel : Nat) (r : String) :
    unwrapToLeafType ctx fuel r =
      match nextReference ctx r with
      | none => some r
      | some tt =>
        match fuel with
        | 0 => none
        | fuel + 1 => unwrapToLeafType ctx fuel tt := by
  rw [unwrapToLeafType, nextReference]
  cases GetType ctx.lookupContext.AssignmentList r with
  | none => rfl
  | some a =>
    simp only
    cases unwrapLoop a.Type_ <;> rfl

theorem GetType_eq_find (name : String) :
    ∀ as : List Assignment,
      GetType as name = (typeAssignments as).find? fun a => a.TypeReference == name
  | [] => rfl
  | .TypeAssignment r t :: rest => by
    simp only [GetType, typeAssignments, List.find?_cons, beq_iff_eq]
    by_cases h : r = name
    · simp [h]
    · have hb : (r == name) = false := by simpa using h
      simp [h, hb, GetType_eq_find name rest]
  | .ValueAssignment _ _ _ :: rest => by
    simpa only [GetType, typeAssignments] using GetType_eq_find name rest

theorem generateTypeBody_of_unsupported (X : Externals) (fuel : Nat) (t : ASNType)
    (ctx : moduleContext) (h : unsupported t = true) :
    generateTypeBody X fuel t ctx = some (.nil, ctx.addErrors [unsupportedError X t]) := by
  cases t <;> simp [unsupported] at h <;>
    simp [generateTypeBody_eq_with, generateTypeBodyWith, moduleContext.appendError,
      moduleContext.addErrors, unsupportedError]

theorem typeDiagnostics_of_unsupported (X : Externals) (fuel : Nat) (t : ASNType)
    (ctx : moduleContext) (h : unsupported t = true) :
    typeDiagnostics X fuel ctx t = [unsupportedError X t] := by
  simp [typeDiagnostics, generateTypeBody_of_unsupported X fuel t _ h,
    moduleContext.addErrors, moduleContext.reset]

theorem generateTypeBody_of_unresolved (X : Externals) (fuel : Nat) (n : String)
    (ctx : moduleContext) (hu : X.USEFUL_TYPES n = none) :
    generateTypeBody X fuel (.TypeReference n) ctx =
      some (.Ident (goifyName X n), ctx) := by
  simp [generateTypeBody_eq_with, generateTypeBodyWith, lookupUsefulType, hu]

theorem unwrapToLeafType_terminal (ctx : moduleContext) :
    ∀ (fuel : Nat) (r l : String), unwrapToLeafType ctx fuel r = some l →
      nextReference ctx l = none := by
  intro fuel
  induction fuel with
  | zero =>
    intro r l h
    rw [unwrapToLeafType_step] at h
    cases hn : nextReference ctx r with
    | none =>
      simp only [hn, Option.some.injEq] at h
      rw [← h]; exact hn
    | some tt => simp [hn] at h
  | succ n ih =>
    intro r l h
    rw [unwrapToLeafType_step] at h
    cases hn : nextReference ctx r with
    | none =>
      simp only [hn, Option.some.injEq] at h
      rw [← h]; exact hn
    | some tt =>
      simp only [hn] at h
      exact ih tt l h

theorem unwrapToLeafType_of_terminal (ctx : moduleContext) (l : String)
    (h : nextReference ctx l = none) (fuel : Nat) :
    unwrapToLeafType ctx fuel l = some l := by
  rw [unwrapToLeafType_step, h]

theorem unwrapToLeafType_succ (ctx : moduleContext) :
    ∀ (fuel : Nat) (r l : String), unwrapToLeafType ctx fuel r = some l →
      unwrapToLeafType ctx (fuel + 1) r = some l := by
  intro fuel
  induction fuel with
  | zero =>
    intro r l h
    rw [unwrapToLeafType_step] at h ⊢
    cases hn : nextReference ctx r with
    | none => simpa [hn] using h
    | some tt => simp [hn] at h
  | succ n ih =>
    intro r l h
    rw [unwrapToLeafType_step] at h ⊢
    cases hn : nextReference ctx r with
    | none => simpa [hn] using h
    | some tt =>
      simp only [hn] at h ⊢
      exact ih tt l h

theorem unwrapToLeafType_mono (ctx : moduleContext) {fuel fuel' : Nat} (hle : fuel ≤ fuel')
    {r l : String} (h : unwrapToLeafType ctx fuel r = some l) :
    unwrapToLeafType ctx fuel' r = some l := by
  induction hle with
  | refl => exact h
  | step _ ih => exact unwrapToLeafType_succ ctx _ r l ih

theorem unwrapToLeafType_unique (ctx : moduleContext) {f1 f2 : Nat} {r l1 l2 : String}
    (h1 : unwrapToLeafType ctx f1 r = some l1) (h2 : unwrapToLeafType ctx f2 r = some l2) :
    l1 = l2 := by
  have a := unwrapToLeafType_mono ctx (Nat.le_max_left f1 f2) h1
  have b := unwrapToLeafType_mono ctx (Nat.le_max_right f1 f2) h2
  rw [a] at b
  exact Option.some.inj b

theorem unwrapToLeafType_eq_none_iff (ctx : moduleContext) :
    ∀ (fuel : Nat) (r : String),
      unwrapToLeafType ctx fuel r = none ↔ (walk ctx (fuel + 1) r).isSome = true := by
  intro fuel
  induction fuel with
  | zero =>
    intro r
    rw [unwrapToLeafType_step]
    simp only [walk]
    cases nextReference ctx r <;> simp
  | succ n ih =>
    intro r
    rw [unwrapToLeafType_step]
    rw [walk]
    cases hn : nextReference ctx r with
    | none => simp
    | some tt => simpa using ih tt

theorem walk_add (ctx : moduleContext) :
    ∀ (i d : Nat) (r : String), walk ctx (i + d) r = (walk ctx i r).bind (walk ctx d)
  | 0, d, r => by simp [walk]
  | i + 1, d, r => by
    rw [Nat.add_right_comm, walk, walk]
    cases nextReference ctx r with
    | none => rfl
    | some tt => exact walk_add ctx i d tt

theorem walk_isSome_of_le (ctx : moduleContext) {i k : Nat} (hik : i ≤ k) {r : String}
    (h : (walk ctx k r).isSome = true) : (walk ctx i r).isSome = true := by
  obtain ⟨d, rfl⟩ := Nat.exists_eq_add_of_le hik
  rw [walk_add] at h
  cases hw : walk ctx i r with
  | none => simp [hw] at h
  | some x => rfl

theorem transGen_of_walk (ctx : moduleContext) :
    ∀ (d : Nat) (x y : String), walk ctx (d + 1) x = some y →
      Relation.TransGen (fun a b => nextReference ctx a = some b) x y
  | 0, x, y, h => by
    rw [walk] at h
    cases hn : nextReference ctx x with
    | none => simp [hn] at h
    | some tt =>
      simp only [hn, walk, Option.some.injEq] at h
      subst h
      exact Relation.TransGen.single hn
  | d + 1, x, y, h => by
    rw [walk] at h
    cases hn : nextReference ctx x with
    | none => simp [hn] at h
    | some tt =>
      simp only [hn] at h
      exact Relation.TransGen.head hn (transGen_of_walk ctx d tt y h)

theorem declared_of_nextReference (ctx : moduleContext) {x y : String}
    (h : nextReference ctx x = some y) :
    x ∈ (typeAssignments ctx.lookupContext.AssignmentList).map (fun a => a.TypeReference) := by
  unfold nextReference at h
  cases hg : GetType ctx.lookupContext.AssignmentList x with
  | none => simp [hg] at h
  | some a =>
    rw [GetType_eq_find] at hg
    have hm := List.mem_of_find?_eq_some hg
    have hp := List.find?_some hg
    simp only [beq_iff_eq] at hp
    exact List.mem_map.mpr ⟨a, hm, hp⟩

/-- In a module with acyclic reference chains no chain has more steps than the module
has type assignments. -/
theorem walk_eq_none_of_acyclic (ctx : moduleContext) (h : Acyclic ctx) (r : String) :
    walk ctx ((typeAssignments ctx.lookupContext.AssignmentList).length + 1) r = none := by
  by_contra hne
  have hs : (walk ctx ((typeAssignments ctx.lookupContext.AssignmentList).length + 1)
      r).isSome = true := by
    cases hw : walk ctx ((typeAssignments ctx.lookupContext.AssignmentList).length + 1) r
    · exact absurd hw hne
    · rfl
  set N := (typeAssignments ctx.lookupContext.AssignmentList).length with hN
  let names := ((typeAssignments ctx.lookupContext.AssignmentList).map
    (fun a => a.TypeReference)).toFinset
  let f : Nat → String := fun i => (walk ctx i r).getD ""
  have hcard : names.card < (Finset.range (N + 1)).card := by
    rw [Finset.card_range]
    calc names.card
        ≤ ((typeAssignments ctx.lookupContext.AssignmentList).map
            (fun a => a.TypeReference)).length := List.toFinset_card_le _
      _ = N := by rw [List.length_map]
      _ < N + 1 := Nat.lt_succ_self N
  have hmaps : ∀ i ∈ Finset.range (N + 1), f i ∈ names := by
    intro i hi
    have hi' : i + 1 ≤ N + 1 := Nat.succ_le_of_lt (Finset.mem_range.mp hi)
    have h1 := walk_isSome_of_le ctx hi' hs
    rw [walk_add] at h1
    cases hw : walk ctx i r with
    | none => simp [hw] at h1
    | some x =>
      simp only [hw, Option.some_bind, walk] at h1
      cases hn : nextReference ctx x with
      | none => simp [hn] at h1
      | some y =>
        have := declared_of_nextReference ctx hn
        simp only [f, hw, Option.getD_some, names, List.mem_toFinset]
        exact this
  obtain ⟨i, hi, j, hj, hij, hfij⟩ :=
    Finset.exists_ne_map_eq_of_card_lt_of_maps_to hcard hmaps
  have key : ∀ a b, a < b → b ≤ N → f a = f b → False := by
    intro a b hab hb hf
    obtain ⟨d, rfl⟩ := Nat.exists_eq_add_of_lt hab
    have hsb := walk_isSome_of_le ctx (Nat.le_succ_of_le hb) hs
    have hsa := walk_isSome_of_le ctx (Nat.le_of_lt (Nat.lt_succ_of_le
      (Nat.le_trans (Nat.le_of_lt hab) hb))) hs
    obtain ⟨x, hx⟩ := Option.isSome_iff_exists.mp hsa
    obtain ⟨y, hy⟩ := Option.isSome_iff_exists.mp hsb
    simp only [f, hx, hy, Option.getD_some] at hf
    subst hf
    have hy' := hy
    rw [Nat.add_assoc, walk_add, hx, Option.some_bind] at hy'
    exact h x (transGen_of_walk ctx d x x hy')
  rcases Nat.lt_or_gt_of_ne hij with hlt | hgt
  · exact key i j hlt (Nat.le_of_lt_succ (Finset.mem_range.mp hj)) hfij
  · exact key j i hgt (Nat.le_of_lt_succ (Finset.mem_range.mp hi)) hfij.symm

/-- Names from which the resolution always moves on to such a name again have no result
with any fuel. -/
theorem unwrapToLeafType_none_of_closed (ctx : moduleContext) (S : String → Prop)
    (hS : ∀ x, S x → ∃ y, nextReference ctx x = some y ∧ S y) :
    ∀ (fuel : Nat) (x : String), S x → unwrapToLeafType ctx fuel x = none := by
  intro fuel
  induction fuel with
  | zero =>
    intro x hx
    obtain ⟨y, hy, -⟩ := hS x hx
    rw [unwrapToLeafType_step, hy]
  | succ n ih =>
    intro x hx
    obtain ⟨y, hy, hSy⟩ := hS x hx
    rw [unwrapToLeafType_step, hy]
    exact ih y hSy

/-- A module is acyclic when its names can be ranked so that every step of the leaf
resolution lowers the rank. -/
theorem acyclic_of_rank (ctx : moduleContext) (rank : String → Nat)
    (h : ∀ a b, nextReference ctx a = some b → rank b < rank a) : Acyclic ctx := by
  have key : ∀ a b, Relation.TransGen (fun a b => nextReference ctx a = some b) a b →
      rank b < rank a := by
    intro a b hab
    induction hab with
    | single hs => exact h _ _ hs
    | tail _ hs ih => exact Nat.lt_trans (h _ _ hs) ih
  intro n hn
  exact Nat.lt_irrefl _ (key n n hn)

theorem nextReference_chainContext (a b : String)
    (h : nextReference chainContext a = some b) : a = "A" ∧ b = "B" := by
  simp only [nextReference, chainContext, GetType] at h
  by_cases ha : "A" = a
  · subst ha
    simp only [if_true, unwrapLoop, Option.some.injEq] at h
    exact ⟨rfl, h.symm⟩
  · simp only [ha, if_false] at h
    by_cases hb : "B" = a
    · simp [hb, unwrapLoop] at h
    · simp [hb] at h

theorem acyclic_chainContext : Acyclic chainContext := by
  refine acyclic_of_rank chainContext (fun n => if n = "A" then 1 else 0) ?_
  intro a b h
  obtain ⟨rfl, rfl⟩ := nextReference_chainContext a b h
  decide

theorem fieldsComplete_append :
    ∀ a b : List GoField, fieldsComplete (a ++ b) = (fieldsComplete a && fieldsComplete b)
  | [], b => by simp [fieldsComplete]
  | .mk _ t _ :: rest, b => by
    simp [fieldsComplete, fieldsComplete_append rest b, Bool.and_assoc]

theorem fieldsComplete_iff (fields : List GoField) :
    fieldsComplete fields = true ↔ ∀ fld ∈ fields, (GoField.Type_ fld).complete = true := by
  induction fields with
  | nil => simp [fieldsComplete]
  | cons f rest ih =>
    obtain ⟨n, t, g⟩ := f
    simp [fieldsComplete, ih, GoField.Type_]

theorem errors_eq_nil_of_addErrors {ctx c : moduleContext} {errs : List String}
    (hc : c = ctx.addErrors errs) (h : c.errors = []) : ctx.errors = [] ∧ errs = [] := by
  rw [hc, addErrors_errors] at h
  exact List.append_eq_nil.mp h

mutual
theorem generateTypeBodyWith_sound (X : Externals) (fuel : Nat)
    (useful : ASNType → moduleContext → Option (GoExpr × moduleContext))
    (hf : Framed useful) (hu : Sound useful) :
    ∀ (t : ASNType) (c0 : moduleContext) (e : GoExpr) (c : moduleContext),
      c0.errors = [] → generateTypeBodyWith X fuel useful t c0 = some (e, c) →
      c.errors = [] → e.complete = true
  | .BooleanType, c0, e, c, _, h, _ => by
    simp only [generateTypeBodyWith, Option.some.injEq, Prod.mk.injEq] at h
    rw [← h.1]; rfl
  | .IntegerType _, c0, e, c, _, h, _ => by
    simp only [generateTypeBodyWith, Option.some.injEq, Prod.mk.injEq] at h
    rw [← h.1]; rfl
  | .CharacterStringType, c0, e, c, _, h, _ => by
    simp only [generateTypeBodyWith, Option.some.injEq, Prod.mk.injEq] at h
    rw [← h.1]; rfl
  | .RealType, c0, e, c, _, h, _ => by
    simp only [generateTypeBodyWith, Option.some.injEq, Prod.mk.injEq] at h
    rw [← h.1]; rfl
  | .OctetStringType, c0, e, c, _, h, _ => by
    simp only [generateTypeBodyWith, Option.some.injEq, Prod.mk.injEq] at h
    rw [← h.1]; rfl
  | .SequenceType components, c0, e, c, h0, h, hc => by
    simp only [generateTypeBodyWith] at h
    cases hfs : generateFieldsWith X fuel useful components [] c0 with
    | none => simp [hfs] at h
    | some r =>
      obtain ⟨fields, c1⟩ := r
      simp only [hfs, Option.some.injEq, Prod.mk.injEq] at h
      obtain ⟨rfl, rfl⟩ := h
      simp only [GoExpr.complete]
      exact generateFieldsWith_sound X fuel useful hf hu components [] c0 fields c1 h0 hfs
        hc rfl
  | .SequenceOfType t, c0, e, c, h0, h, hc => by
    simp only [generateTypeBodyWith] at h
    cases ht : generateTypeBodyWith X fuel useful t c0 with
    | none => simp [ht] at h
    | some r =>
      obtain ⟨elt, c1⟩ := r
      simp only [ht, Option.some.injEq, Prod.mk.injEq] at h
      obtain ⟨rfl, rfl⟩ := h
      simp only [GoExpr.complete]
      exact generateTypeBodyWith_sound X fuel useful hf hu t c0 elt c1 h0 ht hc
  | .TaggedType _ _ t, c0, e, c, h0, h, hc => by
    simp only [generateTypeBodyWith] at h
    exact generateTypeBodyWith_sound X fuel useful hf hu t c0 e c h0 h hc
  | .ConstraintedType t _, c0, e, c, h0, h, hc => by
    simp only [generateTypeBodyWith] at h
    exact generateTypeBodyWith_sound X fuel useful hf hu t c0 e c h0 h hc
  | .TypeReference name, c0, e, c, h0, h, hc => by
    simp only [generateTypeBodyWith, lookupUsefulType] at h
    cases hn : X.USEFUL_TYPES name with
    | none =>
      simp only [hn, Option.some.injEq, Prod.mk.injEq] at h
      rw [← h.1]; rfl
    | some u =>
      simp only [hn] at h
      exact hu u c0 e c h0 h hc
  | .RestrictedStringType _, c0, e, c, _, h, _ => by
    simp only [generateTypeBodyWith, Option.some.injEq, Prod.mk.injEq] at h
    rw [← h.1]; rfl
  | .BitStringType _, c0, e, c, _, h, _ => by
    simp only [generateTypeBodyWith, Option.some.injEq, Prod.mk.injEq] at h
    rw [← h.1]; rfl
  | .NullType, c0, e, c, _, h, hc => by
    simp only [generateTypeBodyWith, Option.some.injEq, Prod.mk.injEq] at h
    rw [← h.2] at hc
    simp [moduleContext.appendError] at hc
  | .ObjectIdentifierType, c0, e, c, _, h, hc => by
    simp only [generateTypeBodyWith, Option.some.injEq, Prod.mk.injEq] at h
    rw [← h.2] at hc
    simp [moduleContext.appendError] at hc
  | .ChoiceType _, c0, e, c, _, h, hc => by
    simp only [generateTypeBodyWith, Option.some.injEq, Prod.mk.injEq] at h
    rw [← h.2] at hc
    simp [moduleContext.appendError] at hc
  | .OtherType _, c0, e, c, _, h, hc => by
    simp only [generateTypeBodyWith, Option.some.injEq, Prod.mk.injEq] at h
    rw [← h.2] at hc
    simp [moduleContext.appendError] at hc
theorem generateFieldsWith_sound (X : Externals) (fuel : Nat)
    (useful : ASNType → moduleContext → Option (GoExpr × moduleContext))
    (hf : Framed useful) (hu : Sound useful) :
    ∀ (cs : List ComponentType) (acc : List GoField) (c0 : moduleContext)
      (fields : List GoField) (c : moduleContext),
      c0.errors = [] → generateFieldsWith X fuel useful cs acc c0 = some (fields, c) →
      c.errors = [] → fieldsComplete acc = true → fieldsComplete fields = true
  | [], acc, c0, fields, c, _, h, _, ha => by
    simp only [generateFieldsWith, Option.some.injEq, Prod.mk.injEq] at h
    rw [← h.1]; exact ha
  | .Named f :: rest, acc, c0, fields, c, h0, h, hc, ha => by
    simp only [generateFieldsWith] at h
    cases hsf : generateStructFieldWith X fuel useful f c0 with
    | none => simp [hsf] at h
    | some r =>
      obtain ⟨fld, c1⟩ := r
      simp only [hsf] at h
      have hc1 : c1 = c0.addErrors c1.errors := by
        have := generateStructFieldWith_frame X fuel useful hf f c0 c0 rfl h0
        rw [hsf] at this
        simpa using this
      have hrest := generateFieldsWith_frame X fuel useful hf rest (acc ++ [fld]) c1
        c0 (by rw [hc1]; rfl) h0
      rw [h] at hrest
      have hc1e : c1.errors = [] := by
        cases hr : generateFieldsWith X fuel useful rest [] c0 with
        | none => simp [hr] at hrest
        | some r2 =>
          simp only [hr, Option.map_some', Option.some.injEq, Prod.mk.injEq] at hrest
          exact (errors_eq_nil_of_addErrors hrest.2 hc).1
      have hfld := generateStructFieldWith_sound X fuel useful hf hu f c0 fld c1 h0 hsf hc1e
      refine generateFieldsWith_sound X fuel useful hf hu rest (acc ++ [fld]) c1 fields c
        hc1e h hc ?_
      rw [fieldsComplete_append, ha]
      obtain ⟨n, t, g⟩ := fld
      simpa [fieldsComplete, GoField.Type_] using hfld
  | .ComponentsOf _ :: rest, acc, c0, fields, c, h0, h, hc, ha => by
    simp only [generateFieldsWith] at h
    exact generateFieldsWith_sound X fuel useful hf hu rest acc c0 fields c h0 h hc ha
theorem generateStructFieldWith_sound (X : Externals) (fuel : Nat)
    (useful : ASNType → moduleContext → Option (GoExpr × moduleContext))
    (hf : Framed useful) (hu : Sound useful) :
    ∀ (f : NamedComponentType) (c0 : moduleContext) (fld : GoField) (c : moduleContext),
      c0.errors = [] → generateStructFieldWith X fuel useful f c0 = some (fld, c) →
      c.errors = [] → (GoField.Type_ fld).complete = true
  | .mk (.mk identifier t) isOptional default, c0, fld, c, h0, h, hc => by
    simp only [generateStructFieldWith] at h
    cases ht : generateTypeBodyWith X fuel useful t c0 with
    | none => simp [ht] at h
    | some r =>
      obtain ⟨type, c1⟩ := r
      simp only [ht] at h
      cases ha : asn1TagFromType X fuel (.mk (.mk identifier t) isOptional default) c1 with
      | none => simp [ha] at h
      | some r2 =>
        obtain ⟨tag, c2⟩ := r2
        simp only [ha, Option.some.injEq, Prod.mk.injEq] at h
        obtain ⟨rfl, rfl⟩ := h
        have hc2 := asn1TagFromType_run_some X fuel ha
        have hc1e := (errors_eq_nil_of_addErrors hc2 hc).1
        exact generateTypeBodyWith_sound X fuel useful hf hu t c0 type c1 h0 ht hc1e
end

theorem generateTypeBody_sound (X : Externals) : ∀ fuel : Nat, Sound (generateTypeBody X fuel)
  | 0 => by
    intro t c0 e c h0 h hc
    rw [generateTypeBody_eq_with] at h
    exact generateTypeBodyWith_sound X 0 _ (usefulCall_framed X 0)
      (fun _ _ _ _ _ h _ => by cases h) t c0 e c h0 h hc
  | fuel + 1 => by
    intro t c0 e c h0 h hc
    rw [generateTypeBody_eq_with] at h
    exact generateTypeBodyWith_sound X (fuel + 1) _ (usefulCall_framed X (fuel + 1))
      (generateTypeBody_sound X fuel) t c0 e c h0 h hc

/-- A run of `generateTypeBody` that appends no error returns a complete expression. -/
theorem generateTypeBody_complete (X : Externals) (fuel : Nat) {t : ASNType}
    {ctx : moduleContext} {e : GoExpr} {c : moduleContext}
    (h : generateTypeBody X fuel t ctx = some (e, c)) (hc : c.errors = ctx.errors) :
    e.complete = true := by
  obtain ⟨c0, h0, hc0⟩ := (generateTypeBody_framed X fuel).run_some h
  have : c0.errors = [] := by
    rw [hc0, addErrors_errors] at hc
    exact List.append_right_eq_self.mp hc
  exact generateTypeBody_sound X fuel t ctx.reset e c0 rfl h0 this

theorem exists_of_forall₂_right {α β : Type} {R : α → β → Prop} :
    ∀ {l1 : List α} {l2 : List β}, List.Forall₂ R l1 l2 → ∀ b ∈ l2, ∃ a ∈ l1, R a b
  | _, _, .nil, b, hb => by cases hb
  | _, _, .cons (a := a) hab hrest, b, hb => by
    rcases List.mem_cons.mp hb with rfl | hb'
    · exact ⟨a, List.mem_cons_self _ _, hab⟩
    · obtain ⟨a', ha', hr⟩ := exists_of_forall₂_right hrest b hb'
      exact ⟨a', List.mem_cons_of_mem _ ha', hr⟩

/-- The declarations of a run of `generateDeclarations` that ends without errors all
have complete types. -/
theorem generateDeclarations_complete (X : Externals) (fuel : Nat)
    (module : ModuleDefinition) (ctx : moduleContext)
    {decls : List GoDecl} {c : moduleContext}
    (h : generateDeclarations X fuel module ctx = some (decls, c)) (hc : c.errors = []) :
    ∀ d ∈ decls, (GoDecl.Type_ d).complete = true := by
  obtain ⟨new, hnew, hall, hce⟩ := generateDeclarationsLoop_some X fuel _ [] ctx decls c h
  simp only [List.nil_append] at hnew
  subst hnew
  intro d hd
  obtain ⟨a, ha, -, hbody⟩ := exists_of_forall₂_right hall d hd
  have hdiag : typeDiagnostics X fuel ctx a.Type_ = [] := by
    have := (errors_eq_nil_of_addErrors hce hc).2
    rw [List.flatMap_eq_nil_iff] at this
    exact this a ha
  cases hb : generateTypeBody X fuel a.Type_ ctx with
  | none => simp [hb] at hbody
  | some r =>
    obtain ⟨e, c1⟩ := r
    simp only [hb, Option.map_some', Option.some.injEq] at hbody
    subst hbody
    refine generateTypeBody_complete X fuel hb ?_
    rw [generateTypeBody_run_some X fuel hb, hdiag, addErrors_errors, List.append_nil]

theorem toNat_ofNat_upper (n : Nat) (h1 : 97 ≤ n) (h2 : n ≤ 122) :
    (Char.ofNat (n - 32)).toNat = n - 32 := by
  interval_cases n <;> rfl

theorem titleStable_of_ascii (X : Externals) (r : Char) (h : r.toNat ≤ 0x7F) :
    TitleStable X r := by
  have ha : 'a'.toNat = 97 := rfl
  have hz : 'z'.toNat = 122 := rfl
  by_cases hl : 'a'.toNat ≤ r.toNat ∧ r.toNat ≤ 'z'.toNat
  · have hu : ToTitle X r = Char.ofNat (r.toNat - 32) := by
      simp only [ToTitle, h, if_true, hl, and_self]
    have hnat : (ToTitle X r).toNat = r.toNat - 32 := by
      rw [hu]
      exact toNat_ofNat_upper _ (by omega) (by omega)
    have hletter : isAsciiLetter (ToTitle X r) = true := by
      have hA : 'A'.toNat = 65 := rfl
      have hZ : 'Z'.toNat = 90 := rfl
      simp only [isAsciiLetter, hnat, ha, hz, hA, hZ, Bool.or_eq_true, Bool.and_eq_true,
        decide_eq_true_eq]
      omega
    have hletter' : isAsciiLetter r = true := by
      simp only [isAsciiLetter, Bool.or_eq_true, Bool.and_eq_true, decide_eq_true_eq]
      exact Or.inl hl
    refine ⟨fun _ hh => ?_, ?_, ?_⟩
    · have := congrArg Char.toNat hh
      rw [hnat] at this
      have hy : '-'.toNat = 45 := rfl
      omega
    · rw [isSeparator_of_wordChar X _ (by simp [hletter]),
        isSeparator_of_wordChar X _ (by simp [hletter'])]
    · have h7 : (ToTitle X r).toNat ≤ 0x7F := by omega
      have hnl : ¬ ('a'.toNat ≤ (ToTitle X r).toNat ∧ (ToTitle X r).toNat ≤ 'z'.toNat) := by
        omega
      conv_lhs => rw [ToTitle]
      simp only [h7, if_true, hnl, if_false]
  · have hu : ToTitle X r = r := by
      simp only [ToTitle, h, if_true, hl, if_false]
    refine ⟨fun hne => by rw [hu]; exact hne, by rw [hu], by rw [hu, hu]⟩

theorem titleStable_of_sound (X : Externals) (r : Char) (h : 0x7F < r.toNat)
    (hs : TitleCaseSoundAt X r) : TitleStable X r := by
  have hu : ToTitle X r = X.ToTitleTable r := by
    have : ¬ r.toNat ≤ 0x7F := by omega
    simp only [ToTitle, this, if_false]
  obtain ⟨h1, h2, h3⟩ := hs
  exact ⟨fun _ => by rw [hu]; exact h1, by rw [hu]; exact h2, by rw [hu]; exact h3⟩

theorem titleStable_of (X : Externals) (r : Char)
    (h : 0x7F < r.toNat → TitleCaseSoundAt X r) : TitleStable X r := by
  by_cases h7 : r.toNat ≤ 0x7F
  · exact titleStable_of_ascii X r h7
  · exact titleStable_of_sound X r (by omega) (h (by omega))

theorem titleFrom_idempotent (X : Externals) :
    ∀ (l : List Char) (prev prev' : Char), (∀ c ∈ l, TitleStable X c) →
      isSeparator X prev' = isSeparator X prev →
      titleFrom X prev' (titleFrom X prev l) = titleFrom X prev l
  | [], _, _, _, _ => rfl
  | c :: rest, prev, prev', hl, hp => by
    obtain ⟨-, h2, h3⟩ := hl c (List.mem_cons_self _ _)
    have hrest : ∀ d ∈ rest, TitleStable X d := fun d hd => hl d (List.mem_cons_of_mem _ hd)
    simp only [titleFrom, hp]
    by_cases hs : isSeparator X prev = true
    · simp only [hs, if_true, h3]
      rw [titleFrom_idempotent X rest c (ToTitle X c) hrest h2]
    · simp only [hs, Bool.false_eq_true, if_false]
      rw [titleFrom_idempotent X rest c c hrest rfl]

theorem titleFrom_no_hyphen (X : Externals) :
    ∀ (l : List Char) (prev : Char), (∀ c ∈ l, TitleStable X c) → '-' ∉ l →
      '-' ∉ titleFrom X prev l
  | [], _, _, _ => by simp [titleFrom]
  | c :: rest, prev, hl, hn => by
    obtain ⟨h1, -, -⟩ := hl c (List.mem_cons_self _ _)
    have hrest : ∀ d ∈ rest, TitleStable X d := fun d hd => hl d (List.mem_cons_of_mem _ hd)
    have hc : c ≠ '-' := fun h => hn (h ▸ List.mem_cons_self _ _)
    have hr : '-' ∉ rest := fun h => hn (List.mem_cons_of_mem _ h)
    simp only [titleFrom, List.mem_cons, not_or]
    refine ⟨?_, titleFrom_no_hyphen X rest c hrest hr⟩
    split_ifs
    · exact fun h => h1 hc h.symm
    · exact fun h => hc h.symm

theorem hyphensToUnderscores_no_hyphen (l : List Char) : '-' ∉ hyphensToUnderscores l := by
  simp only [hyphensToUnderscores, List.mem_map, not_exists, not_and]
  intro c _ h
  split_ifs at h with hc
  · exact absurd h (by decide)
  · exact hc h

theorem hyphensToUnderscores_of_no_hyphen (l : List Char) (h : '-' ∉ l) :
    hyphensToUnderscores l = l := by
  unfold hyphensToUnderscores
  have : ∀ c ∈ l, (if c = '-' then '_' else c) = c := by
    intro c hc
    have hne : c ≠ '-' := fun he => h (he ▸ hc)
    simp [hne]
  rw [List.map_congr_left this, List.map_id']

theorem goifyName_data (X : Externals) (x : String) :
    (goifyName X x).data = titleFrom X ' ' (hyphensToUnderscores x.data) := rfl

theorem eraseFieldTags_append :
    ∀ a b : List GoField, eraseFieldTags (a ++ b) = eraseFieldTags a ++ eraseFieldTags b
  | [], b => rfl
  | .mk _ _ _ :: rest, b => by
    simp [eraseFieldTags, eraseFieldTags_append rest b]

theorem asn1TagFromType_errors_eq (X : Externals) (fuel : Nat) {nt : NamedComponentType}
    {ctx : moduleContext} {tag : Option String} {c : moduleContext}
    (h : asn1TagFromType X fuel nt ctx = some (tag, c)) :
    c.errors = ctx.errors ++ layerErrors X nt.NamedType.Type_ := by
  rw [asn1TagFromType_eq] at h
  cases ha : annotationTokens ctx fuel nt with
  | none => simp [ha] at h
  | some toks =>
    simp only [ha, Option.map_some', Option.some.injEq, Prod.mk.injEq] at h
    rw [← h.2]
    rfl

mutual
theorem generateTypeBodyWith_sameShape (X : Externals) (f1 f2 : Nat)
    (u1 u2 : ASNType → moduleContext → Option (GoExpr × moduleContext))
    (hu : SameShape u1 u2) :
    ∀ (t : ASNType) (c1 c2 : moduleContext) (e1 e2 : GoExpr) (d1 d2 : moduleContext),
      c1.errors = c2.errors → generateTypeBodyWith X f1 u1 t c1 = some (e1, d1) →
      generateTypeBodyWith X f2 u2 t c2 = some (e2, d2) →
      e1.eraseTags = e2.eraseTags ∧ d1.errors = d2.errors
  | .BooleanType, c1, c2, e1, e2, d1, d2, he, h1, h2 => by
    simp only [generateTypeBodyWith, Option.some.injEq, Prod.mk.injEq] at h1 h2
    rw [← h1.1, ← h1.2, ← h2.1, ← h2.2]; exact ⟨rfl, he⟩
  | .IntegerType _, c1, c2, e1, e2, d1, d2, he, h1, h2 => by
    simp only [generateTypeBodyWith, Option.some.injEq, Prod.mk.injEq] at h1 h2
    rw [← h1.1, ← h1.2, ← h2.1, ← h2.2]; exact ⟨rfl, he⟩
  | .CharacterStringType, c1, c2, e1, e2, d1, d2, he, h1, h2 => by
    simp only [generateTypeBodyWith, Option.some.injEq, Prod.mk.injEq] at h1 h2
    rw [← h1.1, ← h1.2, ← h2.1, ← h2.2]; exact ⟨rfl, he⟩
  | .RealType, c1, c2, e1, e2, d1, d2, he, h1, h2 => by
    simp only [generateTypeBodyWith, Option.some.injEq, Prod.mk.injEq] at h1 h2
    rw [← h1.1, ← h1.2, ← h2.1, ← h2.2]; exact ⟨rfl, he⟩
  | .OctetStringType, c1, c2, e1, e2, d1, d2, he, h1, h2 => by
    simp only [generateTypeBodyWith, Option.some.injEq, Prod.mk.injEq] at h1 h2
    rw [← h1.1, ← h1.2, ← h2.1, ← h2.2]; exact ⟨rfl, he⟩
  | .SequenceType components, c1, c2, e1, e2, d1, d2, he, h1, h2 => by
    simp only [generateTypeBodyWith] at h1 h2
    cases hf1 : generateFieldsWith X f1 u1 components [] c1 with
    | none => simp [hf1] at h1
    | some r1 =>
      cases hf2 : generateFieldsWith X f2 u2 components [] c2 with
      | none => simp [hf2] at h2
      | some r2 =>
        obtain ⟨fl1, m1⟩ := r1
        obtain ⟨fl2, m2⟩ := r2
        simp only [hf1, hf2, Option.some.injEq, Prod.mk.injEq] at h1 h2
        obtain ⟨rfl, rfl⟩ := h1
        obtain ⟨rfl, rfl⟩ := h2
        obtain ⟨ha, hb⟩ := generateFieldsWith_sameShape X f1 f2 u1 u2 hu components [] []
          c1 c2 fl1 fl2 m1 m2 rfl he hf1 hf2
        exact ⟨by simp only [GoExpr.eraseTags, ha], hb⟩
  | .SequenceOfType t, c1, c2, e1, e2, d1, d2, he, h1, h2 => by
    simp only [generateTypeBodyWith] at h1 h2
    cases ht1 : generateTypeBodyWith X f1 u1 t c1 with
    | none => simp [ht1] at h1
    | some r1 =>
      cases ht2 : generateTypeBodyWith X f2 u2 t c2 with
      | none => simp [ht2] at h2
      | some r2 =>
        obtain ⟨a1, m1⟩ := r1
        obtain ⟨a2, m2⟩ := r2
        simp only [ht1, ht2, Option.some.injEq, Prod.mk.injEq] at h1 h2
        obtain ⟨rfl, rfl⟩ := h1
        obtain ⟨rfl, rfl⟩ := h2
        obtain ⟨ha, hb⟩ := generateTypeBodyWith_sameShape X f1 f2 u1 u2 hu t c1 c2 a1 a2
          m1 m2 he ht1 ht2
        exact ⟨by simp only [GoExpr.eraseTags, ha], hb⟩
  | .TaggedType _ _ t, c1, c2, e1, e2, d1, d2, he, h1, h2 => by
    simp only [generateTypeBodyWith] at h1 h2
    exact generateTypeBodyWith_sameShape X f1 f2 u1 u2 hu t c1 c2 e1 e2 d1 d2 he h1 h2
  | .ConstraintedType t _, c1, c2, e1, e2, d1, d2, he, h1, h2 => by
    simp only [generateTypeBodyWith] at h1 h2
    exact generateTypeBodyWith_sameShape X f1 f2 u1 u2 hu t c1 c2 e1 e2 d1 d2 he h1 h2
  | .TypeReference name, c1, c2, e1, e2, d1, d2, he, h1, h2 => by
    simp only [generateTypeBodyWith, lookupUsefulType] at h1 h2
    cases hn : X.USEFUL_TYPES name with
    | none =>
      simp only [hn, Option.some.injEq, Prod.mk.injEq] at h1 h2
      rw [← h1.1, ← h1.2, ← h2.1, ← h2.2]; exact ⟨rfl, he⟩
    | some u =>
      simp only [hn] at h1 h2
      exact hu u c1 c2 e1 e2 d1 d2 he h1 h2
  | .RestrictedStringType _, c1, c2, e1, e2, d1, d2, he, h1, h2 => by
    simp only [generateTypeBodyWith, Option.some.injEq, Prod.mk.injEq] at h1 h2
    rw [← h1.1, ← h1.2, ← h2.1, ← h2.2]; exact ⟨rfl, he⟩
  | .BitStringType _, c1, c2, e1, e2, d1, d2, he, h1, h2 => by
    simp only [generateTypeBodyWith, Option.some.injEq, Prod.mk.injEq] at h1 h2
    rw [← h1.1, ← h1.2, ← h2.1, ← h2.2]; exact ⟨rfl, he⟩
  | .NullType, c1, c2, e1, e2, d1, d2, he, h1, h2 => by
    simp only [generateTypeBodyWith, Option.some.injEq, Prod.mk.injEq] at h1 h2
    rw [← h1.1, ← h1.2, ← h2.1, ← h2.2]
    exact ⟨rfl, by simp [moduleContext.appendError, he]⟩
  | .ObjectIdentifierType, c1, c2, e1, e2, d1, d2, he, h1, h2 => by
    simp only [generateTypeBodyWith, Option.some.injEq, Prod.mk.injEq] at h1 h2
    rw [← h1.1, ← h1.2, ← h2.1, ← h2.2]
    exact ⟨rfl, by simp [moduleContext.appendError, he]⟩
  | .ChoiceType _, c1, c2, e1, e2, d1, d2, he, h1, h2 => by
    simp only [generateTypeBodyWith, Option.some.injEq, Prod.mk.injEq] at h1 h2
    rw [← h1.1, ← h1.2, ← h2.1, ← h2.2]
    exact ⟨rfl, by simp [moduleContext.appendError, he]⟩
  | .OtherType _, c1, c2, e1, e2, d1, d2, he, h1, h2 => by
    simp only [generateTypeBodyWith, Option.some.injEq, Prod.mk.injEq] at h1 h2
    rw [← h1.1, ← h1.2, ← h2.1, ← h2.2]
    exact ⟨rfl, by simp [moduleContext.appendError, he]⟩
theorem generateFieldsWith_sameShape (X : Externals) (f1 f2 : Nat)
    (u1 u2 : ASNType → moduleContext → Option (GoExpr × moduleContext))
    (hu : SameShape u1 u2) :
    ∀ (cs : List ComponentType) (acc1 acc2 : List GoField) (c1 c2 : moduleContext)
      (fl1 fl2 : List GoField) (d1 d2 : moduleContext),
      eraseFieldTags acc1 = eraseFieldTags acc2 → c1.errors = c2.errors →
      generateFieldsWith X f1 u1 cs acc1 c1 = some (fl1, d1) →
      generateFieldsWith X f2 u2 cs acc2 c2 = some (fl2, d2) →
      eraseFieldTags fl1 = eraseFieldTags fl2 ∧ d1.errors = d2.errors
  | [], acc1, acc2, c1, c2, fl1, fl2, d1, d2, ha, he, h1, h2 => by
    simp only [generateFieldsWith, Option.some.injEq, Prod.mk.injEq] at h1 h2
    rw [← h1.1, ← h1.2, ← h2.1, ← h2.2]; exact ⟨ha, he⟩
  | .Named f :: rest, acc1, acc2, c1, c2, fl1, fl2, d1, d2, ha, he, h1, h2 => by
    simp only [generateFieldsWith] at h1 h2
    cases hs1 : generateStructFieldWith X f1 u1 f c1 with
    | none => simp [hs1] at h1
    | some r1 =>
      cases hs2 : generateStructFieldWith X f2 u2 f c2 with
      | none => simp [hs2] at h2
      | some r2 =>
        obtain ⟨fld1, m1⟩ := r1
        obtain ⟨fld2, m2⟩ := r2
        simp only [hs1, hs2] at h1 h2
        obtain ⟨hfld, hm⟩ := generateStructFieldWith_sameShape X f1 f2 u1 u2 hu f c1 c2
          fld1 fld2 m1 m2 he hs1 hs2
        refine generateFieldsWith_sameShape X f1 f2 u1 u2 hu rest _ _ m1 m2 fl1 fl2 d1 d2
          ?_ hm h1 h2
        rw [eraseFieldTags_append, eraseFieldTags_append, ha, hfld]
  | .ComponentsOf _ :: rest, acc1, acc2, c1, c2, fl1, fl2, d1, d2, ha, he, h1, h2 => by
    simp only [generateFieldsWith] at h1 h2
    exact generateFieldsWith_sameShape X f1 f2 u1 u2 hu rest acc1 acc2 c1 c2 fl1 fl2 d1 d2
      ha he h1 h2
theorem generateStructFieldWith_sameShape (X : Externals) (f1 f2 : Nat)
    (u1 u2 : ASNType → moduleContext → Option (GoExpr × moduleContext))
    (hu : SameShape u1 u2) :
    ∀ (f : NamedComponentType) (c1 c2 : moduleContext) (fld1 fld2 : GoField)
      (d1 d2 : moduleContext),
      c1.errors = c2.errors →
      generateStructFieldWith X f1 u1 f c1 = some (fld1, d1) →
      generateStructFieldWith X f2 u2 f c2 = some (fld2, d2) →
      eraseFieldTags [fld1] = eraseFieldTags [fld2] ∧ d1.errors = d2.errors
  | .mk (.mk identifier t) isOptional default, c1, c2, fld1, fld2, d1, d2, he, h1, h2 => by
    simp only [generateStructFieldWith] at h1 h2
    cases ht1 : generateTypeBodyWith X f1 u1 t c1 with
    | none => simp [ht1] at h1
    | some r1 =>
      cases ht2 : generateTypeBodyWith X f2 u2 t c2 with
      | none => simp [ht2] at h2
      | some r2 =>
        obtain ⟨ty1, m1⟩ := r1
        obtain ⟨ty2, m2⟩ := r2
        simp only [ht1, ht2] at h1 h2
        obtain ⟨hty, hm⟩ := generateTypeBodyWith_sameShape X f1 f2 u1 u2 hu t c1 c2 ty1 ty2
          m1 m2 he ht1 ht2
        cases ha1 : asn1TagFromType X f1 (.mk (.mk identifier t) isOptional default) m1 with
        | none => simp [ha1] at h1
        | some q1 =>
          cases ha2 : asn1TagFromType X f2 (.mk (.mk identifier t) isOptional default)
              m2 with
          | none => simp [ha2] at h2
          | some q2 =>
            obtain ⟨tag1, n1⟩ := q1
            obtain ⟨tag2, n2⟩ := q2
            simp only [ha1, ha2, Option.some.injEq, Prod.mk.injEq] at h1 h2
            obtain ⟨rfl, rfl⟩ := h1
            obtain ⟨rfl, rfl⟩ := h2
            refine ⟨by simp only [eraseFieldTags, hty], ?_⟩
            rw [asn1TagFromType_errors_eq X f1 ha1, asn1TagFromType_errors_eq X f2 ha2, hm]
end

theorem usefulCall_sameShape (X : Externals) :
    ∀ f1 f2 : Nat, SameShape (usefulCall X f1) (usefulCall X f2)
  | 0, _ => fun _ _ _ _ _ _ _ _ h1 _ => by cases h1
  | _ + 1, 0 => fun _ _ _ _ _ _ _ _ _ h2 => by cases h2
  | f1 + 1, f2 + 1 => by
    intro t c1 c2 e1 e2 d1 d2 he h1 h2
    have h1' : generateTypeBody X f1 t c1 = some (e1, d1) := h1
    have h2' : generateTypeBody X f2 t c2 = some (e2, d2) := h2
    rw [generateTypeBody_eq_with] at h1' h2'
    exact generateTypeBodyWith_sameShape X f1 f2 _ _ (usefulCall_sameShape X f1 f2)
      t c1 c2 e1 e2 d1 d2 he h1' h2'

/-- Runs of `generateTypeBody` from contexts with the same errors, in whatever modules
and with whatever fuel, return the same expression up to field tags and the same
errors. -/
theorem generateTypeBody_sameShape (X : Externals) (f1 f2 : Nat) :
    SameShape (generateTypeBody X f1) (generateTypeBody X f2) := by
  intro t c1 c2 e1 e2 d1 d2 he h1 h2
  rw [generateTypeBody_eq_with] at h1 h2
  exact generateTypeBodyWith_sameShape X f1 f2 _ _ (usefulCall_sameShape X f1 f2)
    t c1 c2 e1 e2 d1 d2 he h1 h2


theorem acyclic_congr {c ctx : moduleContext} (h : ctx.lookupContext = c.lookupContext)
    (hc : Acyclic c) : Acyclic ctx := by
  have hn : ∀ a, nextReference ctx a = nextReference c a := by
    intro a
    simp only [nextReference, h]
  intro n hn'
  refine hc n ?_
  have : (fun a b => nextReference ctx a = some b) = fun a b => nextReference c a = some b := by
    funext a b
    rw [hn a]
  rw [this] at hn'
  exact hn'

/-- In a module with acyclic reference chains `unwrapToLeafType` has a result with any
fuel that is at least the number of type assignments. -/
theorem unwrapToLeafType_isSome_of_acyclic (c : moduleContext) (hc : Acyclic c)
    {fuel : Nat} (hN : (typeAssignments c.lookupContext.AssignmentList).length ≤ fuel)
    (r : String) : (unwrapToLeafType c fuel r).isSome = true := by
  have hw := walk_eq_none_of_acyclic c hc r
  cases hu : unwrapToLeafType c (typeAssignments c.lookupContext.AssignmentList).length r with
  | none =>
    rw [unwrapToLeafType_eq_none_iff, hw] at hu
    cases hu
  | some l =>
    rw [unwrapToLeafType_mono c hN hu]
    rfl

theorem asn1TagFromType_isSome_of_acyclic (X : Externals) (c : moduleContext)
    (hc : Acyclic c) {fuel : Nat}
    (hN : (typeAssignments c.lookupContext.AssignmentList).length ≤ fuel)
    (nt : NamedComponentType) (ctx : moduleContext)
    (hl : ctx.lookupContext = c.lookupContext) :
    (asn1TagFromType X fuel nt ctx).isSome = true := by
  rw [asn1TagFromType_eq, annotationTokens_congr ctx c hl]
  simp only [annotationTokens, Option.isSome_map']
  generalize leafOf nt.NamedType.Type_ = leaf
  cases leaf with
  | TypeReference r =>
    simp only [leafHint, Option.isSome_map']
    exact unwrapToLeafType_isSome_of_acyclic c hc hN r
  | RestrictedStringType lt => cases lt <;> rfl
  | _ => rfl

mutual
theorem generateTypeBodyWith_follows (X : Externals) (f' f : Nat) (c : moduleContext)
    (hc : Acyclic c) (hN : (typeAssignments c.lookupContext.AssignmentList).length ≤ f)
    (u' u : ASNType → moduleContext → Option (GoExpr × moduleContext))
    (hfu : Framed u) (hu : Follows c u' u) :
    ∀ (t : ASNType) (ctx' ctx : moduleContext), ctx.lookupContext = c.lookupContext →
      (generateTypeBodyWith X f' u' t ctx').isSome = true →
      (generateTypeBodyWith X f u t ctx).isSome = true
  | .BooleanType, _, _, _, _ => by simp [generateTypeBodyWith]
  | .IntegerType _, _, _, _, _ => by simp [generateTypeBodyWith]
  | .CharacterStringType, _, _, _, _ => by simp [generateTypeBodyWith]
  | .RealType, _, _, _, _ => by simp [generateTypeBodyWith]
  | .OctetStringType, _, _, _, _ => by simp [generateTypeBodyWith]
  | .SequenceType components, ctx', ctx, hl, h => by
    simp only [generateTypeBodyWith] at h ⊢
    have := generateFieldsWith_follows X f' f c hc hN u' u hfu hu components [] [] ctx' ctx
      hl (by
        cases hf : generateFieldsWith X f' u' components [] ctx' with
        | none => simp [hf] at h
        | some r => rfl)
    cases hf : generateFieldsWith X f u components [] ctx with
    | none => simp [hf] at this
    | some r => rfl
  | .SequenceOfType t, ctx', ctx, hl, h => by
    simp only [generateTypeBodyWith] at h ⊢
    have := generateTypeBodyWith_follows X f' f c hc hN u' u hfu hu t ctx' ctx hl (by
      cases ht : generateTypeBodyWith X f' u' t ctx' with
      | none => simp [ht] at h
      | some r => rfl)
    cases ht : generateTypeBodyWith X f u t ctx with
    | none => simp [ht] at this
    | some r => rfl
  | .TaggedType _ _ t, ctx', ctx, hl, h => by
    simp only [generateTypeBodyWith] at h ⊢
    exact generateTypeBodyWith_follows X f' f c hc hN u' u hfu hu t ctx' ctx hl h
  | .ConstraintedType t _, ctx', ctx, hl, h => by
    simp only [generateTypeBodyWith] at h ⊢
    exact generateTypeBodyWith_follows X f' f c hc hN u' u hfu hu t ctx' ctx hl h
  | .TypeReference name, ctx', ctx, hl, h => by
    simp only [generateTypeBodyWith, lookupUsefulType] at h ⊢
    cases hn : X.USEFUL_TYPES name with
    | none => rfl
    | some v =>
      simp only [hn] at h ⊢
      exact hu v ctx' ctx hl h
  | .RestrictedStringType _, _, _, _, _ => by simp [generateTypeBodyWith]
  | .BitStringType _, _, _, _, _ => by simp [generateTypeBodyWith]
  | .NullType, _, _, _, _ => by simp [generateTypeBodyWith]
  | .ObjectIdentifierType, _, _, _, _ => by simp [generateTypeBodyWith]
  | .ChoiceType _, _, _, _, _ => by simp [generateTypeBodyWith]
  | .OtherType _, _, _, _, _ => by simp [generateTypeBodyWith]
theorem generateFieldsWith_follows (X : Externals) (f' f : Nat) (c : moduleContext)
    (hc : Acyclic c) (hN : (typeAssignments c.lookupContext.AssignmentList).length ≤ f)
    (u' u : ASNType → moduleContext → Option (GoExpr × moduleContext))
    (hfu : Framed u) (hu : Follows c u' u) :
    ∀ (cs : List ComponentType) (acc' acc : List GoField) (ctx' ctx : moduleContext),
      ctx.lookupContext = c.lookupContext →
      (generateFieldsWith X f' u' cs acc' ctx').isSome = true →
      (generateFieldsWith X f u cs acc ctx).isSome = true
  | [], _, _, _, _, _, _ => by simp [generateFieldsWith]
  | .Named fld :: rest, acc', acc, ctx', ctx, hl, h => by
    simp only [generateFieldsWith] at h ⊢
    cases hs' : generateStructFieldWith X f' u' fld ctx' with
    | none => simp [hs'] at h
    | some r' =>
      obtain ⟨g', m'⟩ := r'
      simp only [hs'] at h
      have hs := generateStructFieldWith_follows X f' f c hc hN u' u hfu hu fld ctx' ctx hl
        (by rw [hs']; rfl)
      cases hsf : generateStructFieldWith X f u fld ctx with
      | none => simp [hsf] at hs
      | some r =>
        obtain ⟨g, m⟩ := r
        simp only
        have hm : m.lookupContext = c.lookupContext := by
          have := generateStructFieldWith_frame X f u hfu fld ctx ctx.reset rfl rfl
          rw [hsf] at this
          cases hr : generateStructFieldWith X f u fld ctx.reset with
          | none => simp [hr] at this
          | some r0 =>
            simp only [hr, Option.map_some', Option.some.injEq, Prod.mk.injEq] at this
            rw [this.2]
            exact hl
        exact generateFieldsWith_follows X f' f c hc hN u' u hfu hu rest _ _ m' m hm h
  | .ComponentsOf _ :: rest, acc', acc, ctx', ctx, hl, h => by
    simp only [generateFieldsWith] at h ⊢
    exact generateFieldsWith_follows X f' f c hc hN u' u hfu hu rest acc' acc ctx' ctx hl h
theorem generateStructFieldWith_follows (X : Externals) (f' f : Nat) (c : moduleContext)
    (hc : Acyclic c) (hN : (typeAssignments c.lookupContext.AssignmentList).length ≤ f)
    (u' u : ASNType → moduleContext → Option (GoExpr × moduleContext))
    (hfu : Framed u) (hu : Follows c u' u) :
    ∀ (fld : NamedComponentType) (ctx' ctx : moduleContext),
      ctx.lookupContext = c.lookupContext →
      (generateStructFieldWith X f' u' fld ctx').isSome = true →
      (generateStructFieldWith X f u fld ctx).isSome = true
  | .mk (.mk identifier t) isOptional default, ctx', ctx, hl, h => by
    simp only [generateStructFieldWith] at h ⊢
    have ht := generateTypeBodyWith_follows X f' f c hc hN u' u hfu hu t ctx' ctx hl (by
      cases ht' : generateTypeBodyWith X f' u' t ctx' with
      | none => simp [ht'] at h
      | some r => rfl)
    cases htb : generateTypeBodyWith X f u t ctx with
    | none => simp [htb] at ht
    | some r =>
      obtain ⟨ty, m⟩ := r
      simp only
      have hm : m.lookupContext = c.lookupContext := by
        have := generateTypeBodyWith_frame X f u hfu t ctx ctx.reset rfl rfl
        rw [htb] at this
        cases hr : generateTypeBodyWith X f u t ctx.reset with
        | none => simp [hr] at this
        | some r0 =>
          simp only [hr, Option.map_some', Option.some.injEq, Prod.mk.injEq] at this
          rw [this.2]
          exact hl
      have ha := asn1TagFromType_isSome_of_acyclic X c hc hN
        (.mk (.mk identifier t) isOptional default) m hm
      cases hat : asn1TagFromType X f (.mk (.mk identifier t) isOptional default) m with
      | none => simp [hat] at ha
      | some q => rfl
end

theorem usefulCall_follows (X : Externals) (c : moduleContext) (hc : Acyclic c) :
    ∀ f' : Nat, Follows c (usefulCall X f')
      (usefulCall X (f' + (typeAssignments c.lookupContext.AssignmentList).length))
  | 0 => fun _ _ _ _ h => by cases h
  | f' + 1 => by
    intro t ctx' ctx hl h
    have h' : (generateTypeBody X f' t ctx').isSome = true := h
    rw [generateTypeBody_eq_with] at h'
    have hgoal : usefulCall X
        (f' + 1 + (typeAssignments c.lookupContext.AssignmentList).length) =
        generateTypeBody X (f' + (typeAssignments c.lookupContext.AssignmentList).length) := by
      rw [Nat.add_right_comm]
      rfl
    rw [hgoal, generateTypeBody_eq_with]
    exact generateTypeBodyWith_follows X f' _ c hc (Nat.le_add_left _ _) _ _
      (usefulCall_framed X _) (usefulCall_follows X c hc f') t ctx' ctx hl h'

/-- In a module with acyclic reference chains `generateTypeBody` has a result, with as
much more fuel as the module has type assignments, whenever it has one in some
context. -/
theorem generateTypeBody_follows (X : Externals) (c : moduleContext) (hc : Acyclic c)
    (f' : Nat) : Follows c (generateTypeBody X f')
      (generateTypeBody X (f' + (typeAssignments c.lookupContext.AssignmentList).length)) := by
  intro t ctx' ctx hl h
  rw [generateTypeBody_eq_with] at h ⊢
  exact generateTypeBodyWith_follows X f' _ c hc (Nat.le_add_left _ _) _ _
    (usefulCall_framed X _) (usefulCall_follows X c hc f') t ctx' ctx hl h

theorem acyclic_emptyContext : Acyclic emptyContext := by
  refine acyclic_of_rank emptyContext (fun _ => 0) ?_
  intro a b h
  simp [nextReference, emptyContext, GetType] at h

theorem leafHint_of_not_reference (c1 c2 : moduleContext) (f1 f2 : Nat) (leaf : ASNType)
    (h : ∀ r, leaf ≠ .TypeReference r) : leafHint c1 f1 leaf = leafHint c2 f2 leaf := by
  cases leaf with
  | TypeReference r => exact absurd rfl (h r)
  | RestrictedStringType lt => cases lt <;> rfl
  | _ => rfl

theorem toNat_ofNat_of_valid (m : Nat) (h : m < 0xD800 ∨ (0xDFFF < m ∧ m < 0x110000)) :
    (Char.ofNat m).toNat = m := by
  have hv : m.isValidChar := h
  simp only [Char.ofNat, hv, dif_pos]
  rfl

theorem titleCaseOf_eq_some :
    ∀ (T : List (Nat × Nat × Nat × Nat)) (n m : Nat), titleCaseOf T n = some m →
      ∃ e ∈ T, e.1 ≤ n ∧ n ≤ e.2.1 ∧ (n - e.1) % e.2.2.1 = 0 ∧ m = e.2.2.2 + (n - e.1)
  | [], _, _, h => by cases h
  | (lo, hi, stride, tlo) :: rest, n, m, h => by
    simp only [titleCaseOf] at h
    split_ifs at h with hc
    · simp only [Option.some.injEq] at h
      exact ⟨(lo, hi, stride, tlo), List.mem_cons_self _ _, hc.1, hc.2.1, hc.2.2, h.symm⟩
    · obtain ⟨e, he, hp⟩ := titleCaseOf_eq_some rest n m h
      exact ⟨e, List.mem_cons_of_mem _ he, hp⟩

theorem titleCaseOf_eq_none :
    ∀ (T : List (Nat × Nat × Nat × Nat)) (n : Nat),
      (∀ e ∈ T, ¬ (e.1 ≤ n ∧ n ≤ e.2.1 ∧ (n - e.1) % e.2.2.1 = 0)) →
      titleCaseOf T n = none
  | [], _, _ => rfl
  | (lo, hi, stride, tlo) :: rest, n, h => by
    simp only [titleCaseOf]
    rw [if_neg (h (lo, hi, stride, tlo) (List.mem_cons_self _ _))]
    exact titleCaseOf_eq_none rest n fun e he => h e (List.mem_cons_of_mem _ he)

theorem imageApart_sound (a b s : Nat) :
    ∀ (T : List (Nat × Nat × Nat × Nat)), imageApart a b s T = true →
      ∀ e ∈ T, ∀ m, a ≤ m → m ≤ b → (m - a) % s = 0 →
        ¬ (e.1 ≤ m ∧ m ≤ e.2.1 ∧ (m - e.1) % e.2.2.1 = 0)
  | [], _, e, he, _, _, _, _ => by cases he
  | (lo, hi, stride, tlo) :: rest, h, e, he, m, ham, hmb, hms => by
    simp only [imageApart, Bool.and_eq_true, Bool.or_eq_true, Nat.blt_eq, beq_iff_eq] at h
    rcases List.mem_cons.mp he with rfl | he'
    · rintro ⟨h1, h2, h3⟩
      simp only at h1 h2 h3
      rcases h.1 with (hlt | hlt) | ⟨⟨hs, hst⟩, hpar⟩
      · omega
      · omega
      · have hm2 : (m - lo) % 2 = 0 := by
          have : 2 ∣ stride := Nat.dvd_of_mod_eq_zero hst
          exact Nat.mod_eq_zero_of_dvd (dvd_trans this (Nat.dvd_of_mod_eq_zero h3))
        have hma : (m - a) % 2 = 0 := by
          rcases hs with hs | hs
          · have : 2 ∣ s := Nat.dvd_of_mod_eq_zero hs
            exact Nat.mod_eq_zero_of_dvd (dvd_trans this (Nat.dvd_of_mod_eq_zero hms))
          · have : m = a := by omega
            subst this
            simp
        omega
    · exact imageApart_sound a b s rest h.2 e he' m ham hmb hms

theorem spaceFree_sound (a b : Nat) :
    ∀ (S : List (Nat × Nat)), spaceFree a b S = true → ∀ n, a ≤ n → n ≤ b →
      inRanges S n = false
  | [], _, _, _, _ => rfl
  | (lo, hi) :: rest, h, n, han, hnb => by
    simp only [spaceFree, Bool.and_eq_true, Bool.or_eq_true, Nat.blt_eq] at h
    have hfirst : (Nat.ble lo n && Nat.ble n hi) = false := by
      rcases h.1 with h1 | h1
      · have : Nat.ble lo n = false := by
          rw [Bool.eq_false_iff]
          intro hh
          have := Nat.le_of_ble_eq_true hh
          omega
        simp [this]
      · have : Nat.ble n hi = false := by
          rw [Bool.eq_false_iff]
          intro hh
          have := Nat.le_of_ble_eq_true hh
          omega
        simp [this]
    simp only [inRanges, hfirst, Bool.false_or]
    exact spaceFree_sound a b rest h.2 n han hnb

/-- What the check of a table gives for each of its ranges. -/
theorem caseRangesOK_sound (T : List (Nat × Nat × Nat × Nat)) (S : List (Nat × Nat)) :
    ∀ (T' : List (Nat × Nat × Nat × Nat)), caseRangesOK T S T' = true → ∀ e ∈ T',
      0x7F < e.1 ∧ e.1 ≤ e.2.1 ∧
      (e.2.2.2 + (e.2.1 - e.1) < 0xD800 ∨
        (0xE000 ≤ e.2.2.2 ∧ e.2.2.2 + (e.2.1 - e.1) < 0x110000)) ∧
      ((65 ≤ e.2.2.2 ∧ e.2.2.2 + (e.2.1 - e.1) ≤ 90) ∨ 0x7F < e.2.2.2) ∧
      imageApart e.2.2.2 (e.2.2.2 + (e.2.1 - e.1)) e.2.2.1 T = true ∧
      spaceFree e.1 e.2.1 S = true ∧
      spaceFree e.2.2.2 (e.2.2.2 + (e.2.1 - e.1)) S = true
  | [], _, e, he => by cases he
  | (lo, hi, stride, tlo) :: rest, h, e, he => by
    simp only [caseRangesOK, Bool.and_eq_true, Bool.or_eq_true, Nat.blt_eq, Nat.ble_eq] at h
    rcases List.mem_cons.mp he with rfl | he'
    · obtain ⟨⟨⟨⟨⟨⟨⟨⟨h1, h2⟩, -⟩, h4⟩, h5⟩, h6⟩, h7⟩, h8⟩, -⟩ := h
      exact ⟨h1, h2, h4, h5, h6, h7, h8⟩
    · exact caseRangesOK_sound T S rest h.2 e he'


/-- The table of case ranges passes the check against the white-space ranges. -/
theorem titleCaseRanges_ok :
    caseRangesOK titleCaseRanges whiteSpaceRanges titleCaseRanges = true := by
  decide!

theorem isSeparator_of_not_space (X : Externals) (r : Char) (h : 0x7F < r.toNat)
    (hs : X.IsSpace r = false) : isSeparator X r = false := by
  have hnot : ¬ r.toNat ≤ 0x7F := by omega
  simp only [isSeparator, hnot, if_false, hs]
  split_ifs <;> rfl

/-- With the tables of Go's `unicode` package every rune above ASCII has the properties
the idempotence of `goifyName` needs. -/
theorem titleCaseSoundAt_withUnicode (X : Externals) (r : Char) (h : 0x7F < r.toNat) :
    TitleCaseSoundAt (withUnicode X) r := by
  have hnot : ¬ r.toNat ≤ 0x7F := by omega
  have hT : (withUnicode X).ToTitleTable = unicodeToTitle := rfl
  have hS : (withUnicode X).IsSpace = unicodeIsSpace := rfl
  cases hl : titleCaseOf titleCaseRanges r.toNat with
  | none =>
    have hr : (withUnicode X).ToTitleTable r = r := by
      rw [hT]
      simp only [unicodeToTitle, hl]
    refine ⟨?_, by rw [hr], ?_⟩
    · rw [hr]
      intro hh
      rw [hh] at h
      exact absurd h (by decide)
    · rw [hr]
      simp only [ToTitle, hnot, if_false]
      exact hr
  | some m =>
    obtain ⟨e, he, h1, h2, h3, hm⟩ := titleCaseOf_eq_some _ _ _ hl
    obtain ⟨k1, -, k3, k4, k5, k6, k7⟩ :=
      caseRangesOK_sound _ _ _ titleCaseRanges_ok e he
    have hlo : e.2.2.2 ≤ m := by omega
    have hhi : m ≤ e.2.2.2 + (e.2.1 - e.1) := by omega
    have hstride : (m - e.2.2.2) % e.2.2.1 = 0 := by
      have : m - e.2.2.2 = r.toNat - e.1 := by omega
      rw [this]
      exact h3
    have hr : (withUnicode X).ToTitleTable r = Char.ofNat m := by
      rw [hT]
      simp only [unicodeToTitle, hl]
    have hnat : (Char.ofNat m).toNat = m := toNat_ofNat_of_valid m (by omega)
    have hspace_r : (withUnicode X).IsSpace r = false := by
      rw [hS]
      exact spaceFree_sound _ _ _ k6 _ h1 h2
    have hspace_m : (withUnicode X).IsSpace (Char.ofNat m) = false := by
      rw [hS, unicodeIsSpace, hnat]
      exact spaceFree_sound _ _ _ k7 _ hlo hhi
    have hnone : titleCaseOf titleCaseRanges m = none :=
      titleCaseOf_eq_none _ _ fun e2 he2 =>
        imageApart_sound _ _ _ _ k5 e2 he2 m hlo hhi hstride
    unfold TitleCaseSoundAt
    rw [hr]
    refine ⟨?_, ?_, ?_⟩
    · intro hh
      have := congrArg Char.toNat hh
      rw [hnat] at this
      have hy : '-'.toNat = 45 := rfl
      omega
    · rw [isSeparator_of_not_space _ r h hspace_r]
      by_cases hm7 : m ≤ 0x7F
      · refine isSeparator_of_wordChar _ _ ?_
        have hA : 'A'.toNat = 65 := rfl
        have hZ : 'Z'.toNat = 90 := rfl
        have : isAsciiLetter (Char.ofNat m) = true := by
          simp only [isAsciiLetter, hnat, hA, hZ, Bool.or_eq_true, Bool.and_eq_true,
            decide_eq_true_eq]
          omega
        simp [this]
      · exact isSeparator_of_not_space _ _ (by rw [hnat]; omega) hspace_m
    · by_cases hm7 : m ≤ 0x7F
      · have ha : 'a'.toNat = 97 := rfl
        have hz : 'z'.toNat = 122 := rfl
        have hnl : ¬ ('a'.toNat ≤ (Char.ofNat m).toNat ∧
            (Char.ofNat m).toNat ≤ 'z'.toNat) := by
          rw [hnat, ha, hz]
          omega
        have h7 : (Char.ofNat m).toNat ≤ 0x7F := by rw [hnat]; exact hm7
        simp only [ToTitle, h7, if_true, hnl, if_false]
      · have h7 : ¬ (Char.ofNat m).toNat ≤ 0x7F := by rw [hnat]; exact hm7
        simp only [ToTitle, h7, if_false]
        rw [hT]
        simp only [unicodeToTitle, hnat, hnone]

/-- The function `goifyName` is idempotent on every string whose runes above ASCII have,
in the title-case table, a title case that is no hyphen, that is a separator exactly when
the rune is, and that is its own title case. -/
theorem goifyName_idempotent_of_sound (X : Externals) (x : String)
    (h : ∀ c ∈ x.data, 0x7F < c.toNat → TitleCaseSoundAt X c) :
    goifyName X (goifyName X x) = goifyName X x := by
  have hstable : ∀ c ∈ hyphensToUnderscores x.data, TitleStable X c := by
    intro c hc
    simp only [hyphensToUnderscores, List.mem_map] at hc
    obtain ⟨d, hd, rfl⟩ := hc
    split_ifs
    · exact titleStable_of_ascii X '_' (by decide)
    · exact titleStable_of X d (h d hd)
  have hno : '-' ∉ titleFrom X ' ' (hyphensToUnderscores x.data) :=
    titleFrom_no_hyphen X _ ' ' hstable (hyphensToUnderscores_no_hyphen _)
  have hdata : (goifyName X (goifyName X x)).data = (goifyName X x).data := by
    rw [goifyName_data X (goifyName X x), goifyName_data X x,
      hyphensToUnderscores_of_no_hyphen _ hno]
    exact titleFrom_idempotent X _ ' ' ' ' hstable rfl
  calc goifyName X (goifyName X x)
      = String.mk (goifyName X (goifyName X x)).data := rfl
    _ = String.mk (goifyName X x).data := by rw [hdata]
    _ = goifyName X x := rfl

/-! ## Theorems -/

/-- C1: the annotation `asn1TagFromType` gives a named component is made of exactly this
token list, in this order: `optional` iff the component is optional, `default:<n>` iff
its default is an integer literal `n`, the tokens of the tagged layers of its type from
the outermost to the innermost (`application` iff the class is application, `explicit`
iff the tagging is explicit, `tag:<n>` for a numeric class number; constrained layers
give nothing), then the leaf hint, which has at most one token (`ia5`, `utf8` or
`printable` for a restricted string, `generalized` or `utc` for a type reference whose
`unwrapToLeafType` name is `GeneralizedTime` or `UTCTime`).  The annotation is nil
exactly for the empty token list and otherwise the comma-joined tokens between
backticks.  `asn1TagFromType` has a result exactly when the leaf hint has one, that is
unless the leaf is a type reference on which `unwrapToLeafType` has none. -/
theorem asn1TagFromType_tokens (X : Externals) (fuel : Nat) (nt : NamedComponentType)
    (ctx : moduleContext) :
    (asn1TagFromType X fuel nt ctx).map Prod.fst =
      (leafHint ctx fuel (leafOf nt.NamedType.Type_)).map (fun hint =>
        annotationOf
          (optionalToken nt ++ defaultToken nt ++ layerTokens nt.NamedType.Type_ ++ hint)) ∧
    (∀ tokens : List String, annotationOf tokens = none ↔ tokens = []) ∧
    (∀ tokens : List String, tokens ≠ [] →
      annotationOf tokens = some ("`" ++ joinComma tokens ++ "`")) ∧
    (∀ hint : List String, leafHint ctx fuel (leafOf nt.NamedType.Type_) = some hint →
      hint.length ≤ 1) := by
  refine ⟨?_, ?_, ?_, ?_⟩
  · rw [asn1TagFromType_eq, annotationTokens]
    cases leafHint ctx fuel (leafOf nt.NamedType.Type_) <;> rfl
  · intro tokens
    cases tokens <;> simp [annotationOf]
  · intro tokens h
    simp [annotationOf, h]
  · intro hint h
    generalize leafOf nt.NamedType.Type_ = leaf at h
    cases leaf with
    | RestrictedStringType lt =>
      cases lt <;> simp [leafHint] at h <;> subst h <;> simp
    | TypeReference r =>
      simp only [leafHint, Option.map_eq_some'] at h
      obtain ⟨l, -, rfl⟩ := h
      unfold timeHint
      split_ifs <;> simp
    | _ =>
      simp [leafHint] at h
      subst h
      simp

/-- C1, on the field of type application-class explicit tag 3 around the reference
`UTCTime`: the annotation is exactly the four tokens `application,explicit,tag:3,utc`
between backticks. -/
theorem asn1TagFromType_tokens_witness :
    (asn1TagFromType sampleExternals 0 utcField emptyContext).map Prod.fst =
      some (some "`application,explicit,tag:3,utc`") :=
  (asn1TagFromType_tokens sampleExternals 0 utcField emptyContext).1.trans (by rfl)

/-- C2: whatever the fuel and the context, `generateTypeBody` maps boolean to `bool`,
integer (with any named numbers) to `int64`, character string to `string`, real to
`float64`, octet string to an array of `byte`, bit string to an array of `bool` and
restricted string (of any charset) to `string`, and returns the context as it was, so
that no error is appended. -/
theorem generateTypeBody_scalars (X : Externals) (fuel : Nat) (ctx : moduleContext) :
    generateTypeBody X fuel .BooleanType ctx = some (.Ident "bool", ctx) ∧
    (∀ named, generateTypeBody X fuel (.IntegerType named) ctx =
      some (.Ident "int64", ctx)) ∧
    generateTypeBody X fuel .CharacterStringType ctx = some (.Ident "string", ctx) ∧
    generateTypeBody X fuel .RealType ctx = some (.Ident "float64", ctx) ∧
    generateTypeBody X fuel .OctetStringType ctx =
      some (.ArrayType (.Ident "byte"), ctx) ∧
    (∀ bits, generateTypeBody X fuel (.BitStringType bits) ctx =
      some (.ArrayType (.Ident "bool"), ctx)) ∧
    (∀ charset, generateTypeBody X fuel (.RestrictedStringType charset) ctx =
      some (.Ident "string", ctx)) := by
  simp [generateTypeBody_eq_with, generateTypeBodyWith]

/-- C3: for a sequence type, `generateTypeBody` has a result exactly when, for every
named component, `generateTypeBody` on its type and `asn1TagFromType` on it have one; the
result is then a struct type with exactly one field per named component, in the order of
the components, the field having the name `goifyName` of the identifier, the type
`generateTypeBody` gives the type of the component and the tag `asn1TagFromType` gives
the component.  The errors appended are those of the named components, in order, so
that a components-of inclusion gives no field and no error. -/
theorem generateTypeBody_sequence (X : Externals) (fuel : Nat)
    (components : List ComponentType) (ctx : moduleContext) :
    (generateTypeBody X fuel (.SequenceType components) ctx).isSome =
      ((namedComponents components).all fun f =>
        (generateTypeBody X fuel f.NamedType.Type_ ctx).isSome &&
          (asn1TagFromType X fuel f ctx).isSome) ∧
    ∀ (e : GoExpr) (c : moduleContext),
      generateTypeBody X fuel (.SequenceType components) ctx = some (e, c) →
      ∃ fields, e = .StructType fields ∧
        List.Forall₂ (fun f fld =>
          GoField.Names fld = [goifyName X f.NamedType.Identifier] ∧
          (generateTypeBody X fuel f.NamedType.Type_ ctx).map Prod.fst =
            some (GoField.Type_ fld) ∧
          (asn1TagFromType X fuel f ctx).map Prod.fst = some (GoField.Tag fld))
          (namedComponents components) fields ∧
        c = ctx.addErrors ((namedComponents components).flatMap fun f =>
          typeDiagnostics X fuel ctx f.NamedType.Type_ ++ tagDiagnostics X fuel ctx f) := by
  constructor
  · have h := generateFieldsWith_isSome X fuel components [] ctx
    simp only [generateTypeBody_eq_with, generateTypeBodyWith]
    rw [← generateTypeBody_eq_with]
    have hs : (fun f => (generateStructField X fuel f ctx).isSome) =
        fun f => ((generateTypeBody X fuel f.NamedType.Type_ ctx).isSome &&
          (asn1TagFromType X fuel f ctx).isSome) :=
      funext fun f => generateStructField_isSome X fuel f ctx
    rw [← hs, ← h]
    cases generateFieldsWith X fuel (usefulCall X fuel) components [] ctx <;> rfl
  · intro e c h
    simp only [generateTypeBody_eq_with, generateTypeBodyWith] at h
    cases hf : generateFieldsWith X fuel (usefulCall X fuel) components [] ctx with
    | none => simp [hf] at h
    | some r =>
      obtain ⟨flds, c1⟩ := r
      simp only [hf, Option.some.injEq, Prod.mk.injEq] at h
      obtain ⟨rfl, rfl⟩ := h
      obtain ⟨new, hnew, hall, hc⟩ := generateFieldsWith_some X fuel components [] ctx _ _ hf
      simp only [List.nil_append] at hnew
      subst hnew
      exact ⟨flds, rfl, hall, hc⟩

/-- C3, on two sequences: the components `name` (UTF8 string) and `age` (integer,
optional) give the fields `Name` (string, tag `utf8`) and `Age` (int64, tag `optional`);
a components-of inclusion followed by one ordinary component gives exactly one field and
no error. -/
theorem generateTypeBody_sequence_witness :
    generateTypeBody sampleExternals 0 (.SequenceType personComponents) emptyContext =
      some (.StructType [.mk ["Name"] (.Ident "string") (some "`utf8`"),
        .mk ["Age"] (.Ident "int64") (some "`optional`")], emptyContext) ∧
    generateTypeBody sampleExternals 0 (.SequenceType inclusionComponents) emptyContext =
      some (.StructType [.mk ["Flag"] (.Ident "bool") none], emptyContext) ∧
    ∃ fields, GoExpr.StructType [.mk ["Flag"] (.Ident "bool") none] = .StructType fields ∧
      List.Forall₂ (fun f fld =>
        GoField.Names fld = [goifyName sampleExternals f.NamedType.Identifier] ∧
        (generateTypeBody sampleExternals 0 f.NamedType.Type_ emptyContext).map Prod.fst =
          some (GoField.Type_ fld) ∧
        (asn1TagFromType sampleExternals 0 f emptyContext).map Prod.fst =
          some (GoField.Tag fld))
        (namedComponents inclusionComponents) fields ∧
      emptyContext = emptyContext.addErrors
        ((namedComponents inclusionComponents).flatMap fun f =>
          typeDiagnostics sampleExternals 0 emptyContext f.NamedType.Type_ ++
            tagDiagnostics sampleExternals 0 emptyContext f) :=
  ⟨rfl, rfl,
    (generateTypeBody_sequence sampleExternals 0 inclusionComponents emptyContext).2 _ _ rfl⟩

/-- C4: for a type reference whose name the registry maps to `u`, `generateTypeBody`
with one more unit of fuel is `generateTypeBody` of `u` (and without fuel it has no
result), so that the reference has a result exactly when `u` has one, and the same one,
whatever the module declares; for a name the registry does not have, the result is the
identifier `goifyName` of the name with the context unchanged, so without any error,
whether or not the module declares the name. -/
theorem generateTypeBody_reference (X : Externals) (name : String) (ctx : moduleContext) :
    (∀ u, X.USEFUL_TYPES name = some u →
      (∀ fuel, generateTypeBody X (fuel + 1) (.TypeReference name) ctx =
        generateTypeBody X fuel u ctx) ∧
      generateTypeBody X 0 (.TypeReference name) ctx = none ∧
      ∀ r, (∃ fuel, generateTypeBody X fuel (.TypeReference name) ctx = some r) ↔
        ∃ fuel, generateTypeBody X fuel u ctx = some r) ∧
    (X.USEFUL_TYPES name = none →
      ∀ fuel, generateTypeBody X fuel (.TypeReference name) ctx =
        some (.Ident (goifyName X name), ctx)) := by
  constructor
  · intro u hu
    have h1 : ∀ fuel, generateTypeBody X (fuel + 1) (.TypeReference name) ctx =
        generateTypeBody X fuel u ctx := by
      intro fuel
      rw [generateTypeBody_eq_with]
      simp only [generateTypeBodyWith, lookupUsefulType, hu, usefulCall]
    have h0 : generateTypeBody X 0 (.TypeReference name) ctx = none := by
      rw [generateTypeBody_eq_with]
      simp only [generateTypeBodyWith, lookupUsefulType, hu, usefulCall]
    refine ⟨h1, h0, fun r => ⟨?_, ?_⟩⟩
    · rintro ⟨fuel, h⟩
      cases fuel with
      | zero => rw [h0] at h; cases h
      | succ n => exact ⟨n, by rw [← h1 n]; exact h⟩
    · rintro ⟨fuel, h⟩
      exact ⟨fuel + 1, by rw [h1 fuel]; exact h⟩
  · intro hn fuel
    simp [generateTypeBody_eq_with, generateTypeBodyWith, lookupUsefulType, hn]

/-- C4, on the name `UTCTime` in a module that declares `UTCTime` itself: the registry
entry decides, the local declaration does not; and on a name neither the registry nor
the module has: the identifier, and the errors as they were. -/
theorem generateTypeBody_reference_witness :
    generateTypeBody sampleExternals 1 (.TypeReference "UTCTime") shadowingContext =
      some (.Ident "string", shadowingContext) ∧
    generateTypeBody sampleExternals 0 (.TypeReference "kdc-req") shadowingContext =
      some (.Ident "Kdc_req", shadowingContext) :=
  ⟨(((generateTypeBody_reference sampleExternals "UTCTime" shadowingContext).1 _ rfl).1
      0).trans rfl,
    ((generateTypeBody_reference sampleExternals "kdc-req" shadowingContext).2 rfl 0).trans
      rfl⟩

/-- C5: a tagged layer (of any class, number and tagging) or a constrained layer (of any
constraint) around a type changes nothing: `generateTypeBody` on the wrapped type is
`generateTypeBody` on the type, the same expression and the same context, from the same
fuel and context. -/
theorem generateTypeBody_wrapper (X : Externals) (fuel : Nat) (t : ASNType)
    (ctx : moduleContext) :
    (∀ tag tagType, generateTypeBody X fuel (.TaggedType tag tagType t) ctx =
      generateTypeBody X fuel t ctx) ∧
    (∀ constraint, generateTypeBody X fuel (.ConstraintedType t constraint) ctx =
      generateTypeBody X fuel t ctx) := by
  constructor <;> intros <;> simp [generateTypeBody_eq_with, generateTypeBodyWith]

/-- C6: on a type whose outermost variant has no case (choice, null, object identifier or
any other variant), `generateTypeBody` returns the nil expression and appends exactly
one error, `Ignoring unsupported type` followed by the rendering of the type, after the
errors collected before; nothing else of the context changes. -/
theorem generateTypeBody_unsupported (X : Externals) (fuel : Nat) (t : ASNType)
    (ctx : moduleContext) (h : unsupported t = true) :
    generateTypeBody X fuel t ctx =
      some (.nil, { ctx with errors :=
        ctx.errors ++ ["Ignoring unsupported type " ++ X.goSyntaxType t] }) := by
  cases t <;> simp [unsupported] at h <;>
    simp [generateTypeBody_eq_with, generateTypeBodyWith, moduleContext.appendError]

/-- C6, on a choice type in a context with one earlier error. -/
theorem generateTypeBody_unsupported_witness :
    unsupported (.ChoiceType [.mk "a" .BooleanType]) = true ∧
    generateTypeBody sampleExternals 0 (.ChoiceType [.mk "a" .BooleanType])
        shadowingContext =
      some (.nil, { shadowingContext with errors :=
        ["earlier", "Ignoring unsupported type asn1go.ChoiceType{...}"] }) :=
  ⟨rfl, generateTypeBody_unsupported sampleExternals 0 _ shadowingContext rfl⟩

/-- C7: `Generate` has a result exactly when `generateDeclarations` has one; it then fails
if and only if at least one error was collected over the whole assignment list; when it
fails nothing is handed to the printer, and with no error the file handed to the printer
holds all the declarations of the run. -/
theorem Generate_fails_iff (X : Externals) (fuel : Nat) (module : ModuleDefinition) :
    (Generate X fuel module).isSome =
      (generateDeclarations X fuel module (initialContext module)).isSome ∧
    ∀ (decls : List GoDecl) (c : moduleContext),
      generateDeclarations X fuel module (initialContext module) = some (decls, c) →
      ((∃ msg, Generate X fuel module = some (.failed msg)) ↔ c.errors ≠ []) ∧
      (c.errors ≠ [] → ∀ ast, Generate X fuel module ≠ some (.printed ast)) ∧
      (c.errors = [] → Generate X fuel module =
        some (.printed ⟨goifyName X module.ModuleIdentifier.Reference, decls⟩)) := by
  rw [Generate_eq]
  refine ⟨by simp, ?_⟩
  intro decls c h
  rw [h]
  by_cases he : c.errors = [] <;> simp [he]

/-- C7, on a module with an unsupported type and on a module without one: the first run
fails, the second hands its file to the printer. -/
theorem Generate_fails_iff_witness :
    ((∃ msg, Generate sampleExternals 0 nullModule = some (.failed msg)) ↔
      ["Ignoring unsupported type asn1go.NullType{}"] ≠ []) ∧
    Generate sampleExternals 0 fooBarModule =
      some (.printed ⟨"Sample_Module", [⟨"Foo_Bar", .Ident "int64"⟩]⟩) :=
  ⟨((Generate_fails_iff sampleExternals 0 nullModule).2
      [⟨"A", .nil⟩, ⟨"B", .Ident "int64"⟩]
      { initialContext nullModule with
        errors := ["Ignoring unsupported type asn1go.NullType{}"] } rfl).1,
    ((Generate_fails_iff sampleExternals 0 fooBarModule).2 _ _ rfl).2.2 rfl⟩

/-- C8: when the run of a module collects the errors `d1 .. dk` with `k ≥ 1`, the message
of the failure `Generate` returns is the header line followed, for each error in the
order of collection, by two spaces, the error and a newline. -/
theorem Generate_message (X : Externals) (fuel : Nat) (module : ModuleDefinition)
    (decls : List GoDecl) (c : moduleContext)
    (h : generateDeclarations X fuel module (initialContext module) = some (decls, c))
    (hk : 1 ≤ c.errors.length) :
    Generate X fuel module =
      some (.failed ("Errors generating Go AST from module: \n" ++ errorLines c.errors)) := by
  have he : c.errors ≠ [] := by
    intro h0
    rw [h0] at hk
    simp at hk
  rw [Generate_eq, h]
  simp [he, errorMessage_eq]

/-- C8, on a module with two unsupported types. -/
theorem Generate_message_witness :
    Generate sampleExternals 0 unsupportedModule =
      some (.failed ("Errors generating Go AST from module: \n" ++
        "  Ignoring unsupported type asn1go.NullType{}\n" ++
        "  Ignoring unsupported type asn1go.ObjectIdentifierType{}\n")) :=
  (Generate_message sampleExternals 0 unsupportedModule [⟨"A", .nil⟩, ⟨"B", .nil⟩]
    { initialContext unsupportedModule with
      errors := ["Ignoring unsupported type asn1go.NullType{}",
        "Ignoring unsupported type asn1go.ObjectIdentifierType{}"] } rfl
    (by decide)).trans rfl

/-- C9: `generateDeclarations` has a result exactly when `generateTypeBody` has one on
the type of every type assignment; the result is then a list with exactly one declaration
per type assignment, in the order of the assignments, the declaration having the name
`goifyName` of the name of the assignment and the type `generateTypeBody` gives the type
of the assignment.  The errors appended are those of the types of the type assignments,
in order, so that any other assignment gives no declaration and no error; the list has
this form whether or not errors were collected. -/
theorem generateDeclarations_list (X : Externals) (fuel : Nat) (module : ModuleDefinition)
    (ctx : moduleContext) :
    (generateDeclarations X fuel module ctx).isSome =
      ((typeAssignments module.ModuleBody.AssignmentList).all fun a =>
        (generateTypeBody X fuel a.Type_ ctx).isSome) ∧
    ∀ (decls : List GoDecl) (c : moduleContext),
      generateDeclarations X fuel module ctx = some (decls, c) →
      List.Forall₂ (fun a d =>
          GoDecl.Name d = goifyName X a.TypeReference ∧
          (generateTypeBody X fuel a.Type_ ctx).map Prod.fst = some (GoDecl.Type_ d))
        (typeAssignments module.ModuleBody.AssignmentList) decls ∧
      decls.length = (typeAssignments module.ModuleBody.AssignmentList).length ∧
      c = ctx.addErrors ((typeAssignments module.ModuleBody.AssignmentList).flatMap
        fun a => typeDiagnostics X fuel ctx a.Type_) := by
  refine ⟨generateDeclarationsLoop_isSome X fuel _ [] ctx, ?_⟩
  intro decls c h
  obtain ⟨new, hnew, hall, hc⟩ := generateDeclarationsLoop_some X fuel _ [] ctx decls c h
  simp only [List.nil_append] at hnew
  subst hnew
  exact ⟨hall, hall.length_eq.symm, hc⟩

/-- C9, on the module with the value assignment `zero` and the type assignment
`Foo-Bar ::= INTEGER`: one declaration, named `Foo_Bar`, of type `int64`. -/
theorem generateDeclarations_list_witness :
    generateDeclarations sampleExternals 0 fooBarModule (initialContext fooBarModule) =
      some ([⟨"Foo_Bar", .Ident "int64"⟩], initialContext fooBarModule) ∧
    [(⟨"Foo_Bar", .Ident "int64"⟩ : GoDecl)].length =
      (typeAssignments fooBarModule.ModuleBody.AssignmentList).length :=
  ⟨rfl, ((generateDeclarations_list sampleExternals 0 fooBarModule
    (initialContext fooBarModule)).2 _ _ rfl).2.1⟩

/-- C10: on a name of ASCII letters, digits and hyphens that starts with a letter,
`goifyName` gives the name with every hyphen replaced by an underscore and the first
character in upper case, every other character as it was (a letter after a hyphen
included); hence on a name of letters only it gives the name with the first letter in
upper case. -/
theorem goifyName_schemaName (X : Externals) (name : String)
    (h : isSchemaName name = true) :
    goifyName X name = String.mk (upperFirst (hyphensToUnderscores name.data)) ∧
    ((name.data.all isAsciiLetter) = true →
      goifyName X name = String.mk (upperFirst name.data)) := by
  have key : goifyName X name = String.mk (upperFirst (hyphensToUnderscores name.data)) := by
    unfold isSchemaName at h
    cases hd : name.data with
    | nil => simp [hd] at h
    | cons c rest =>
      simp only [hd, Bool.and_eq_true, List.all_eq_true, Bool.or_eq_true, beq_iff_eq] at h
      obtain ⟨hc, hrest⟩ := h
      have hne : c ≠ '-' := by
        rintro rfl
        exact absurd hc (by decide)
      have hword : ∀ d ∈ hyphensToUnderscores rest,
          (isAsciiLetter d || isAsciiDigit d || d == '_') = true := by
        intro d hd'
        simp only [hyphensToUnderscores, List.mem_map] at hd'
        obtain ⟨r, hr, rfl⟩ := hd'
        by_cases hr' : r = '-'
        · simp [hr']
        · rcases hrest r hr with (h1 | h1) | h1
          · simp [hr', h1]
          · simp [hr', h1]
          · exact absurd h1 hr'
      have hsep : isSeparator X ' ' = true := rfl
      have htitle : ToTitle X c = asciiUpper c := by
        unfold ToTitle asciiUpper
        have : c.toNat ≤ 0x7F := by
          simp only [isAsciiLetter, Bool.or_eq_true, Bool.and_eq_true,
            decide_eq_true_eq] at hc
          have ha : 'a'.toNat = 97 := rfl
          have hz : 'z'.toNat = 122 := rfl
          have hA : 'A'.toNat = 65 := rfl
          have hZ : 'Z'.toNat = 90 := rfl
          rw [ha, hz, hA, hZ] at hc
          omega
        simp only [this, if_true]
      simp only [goifyName, Title, replaceHyphens, hd, List.map_cons, hne, if_false,
        titleFrom, hsep, if_true, htitle, hyphensToUnderscores, upperFirst]
      congr 2
      exact titleFrom_of_wordChars X _ c (by simp [hc]) hword
  refine ⟨key, fun hall => ?_⟩
  rw [key]
  congr 2
  unfold hyphensToUnderscores
  have : ∀ c ∈ name.data, (if c = '-' then '_' else c) = c := by
    intro c hc
    have := List.all_eq_true.mp hall c hc
    have hne : c ≠ '-' := by
      rintro rfl
      exact absurd this (by decide)
    simp [hne]
  rw [List.map_congr_left this, List.map_id']

/-- C10, on `msg-type`, `error-code`, `KDC-REQ` and `Foo-Bar`. -/
theorem goifyName_schemaName_witness :
    goifyName sampleExternals "msg-type" = "Msg_type" ∧
    goifyName sampleExternals "error-code" = "Error_code" ∧
    goifyName sampleExternals "KDC-REQ" = "KDC_REQ" ∧
    goifyName sampleExternals "Foo-Bar" = "Foo_Bar" :=
  ⟨(goifyName_schemaName sampleExternals "msg-type" (by decide)).1.trans (by decide),
    (goifyName_schemaName sampleExternals "error-code" (by decide)).1.trans (by decide),
    (goifyName_schemaName sampleExternals "KDC-REQ" (by decide)).1.trans (by decide),
    (goifyName_schemaName sampleExternals "Foo-Bar" (by decide)).1.trans (by decide)⟩

/-- C11: `goifyName` is idempotent, `goifyName (goifyName x) = goifyName x`, on every
string `x`, with the title-case table and the white-space predicate of Go's `unicode`
package and whatever the letter and digit predicates are; and on every string of ASCII
runes whatever the tables are. -/
theorem goifyName_idempotent (X : Externals) (x : String) :
    goifyName (withUnicode X) (goifyName (withUnicode X) x) = goifyName (withUnicode X) x ∧
    ((∀ c ∈ x.data, c.toNat ≤ 0x7F) →
      goifyName X (goifyName X x) = goifyName X x) :=
  ⟨goifyName_idempotent_of_sound (withUnicode X) x
      (fun c _ hc => titleCaseSoundAt_withUnicode X c hc),
    fun h => goifyName_idempotent_of_sound X x
      (fun c hc h7 => absurd (h c hc) (by omega))⟩

/-- C11, on a name with runes above ASCII, whose first application upper-cases the runes
that begin words and whose second application changes nothing; on `ǆ`, whose title case
`ǅ` is its own title case; and on `msg-type` with other tables. -/
theorem goifyName_idempotent_witness :
    goifyName (withUnicode sampleExternals) "é-clé b" = "É_clé B" ∧
    goifyName (withUnicode sampleExternals)
        (goifyName (withUnicode sampleExternals) "é-clé b") =
      goifyName (withUnicode sampleExternals) "é-clé b" ∧
    goifyName (withUnicode sampleExternals) "ǆ" = "ǅ" ∧
    goifyName (withUnicode sampleExternals) "ǅ" = "ǅ" ∧
    goifyName sampleExternals (goifyName sampleExternals "msg-type") =
      goifyName sampleExternals "msg-type" :=
  ⟨rfl, (goifyName_idempotent sampleExternals "é-clé b").1, rfl, rfl,
    (goifyName_idempotent sampleExternals "msg-type").2 (by decide)⟩

/-- C12: `asn1TagFromType` returns the context with exactly the errors of the tagged
layers of the type appended, outermost layer first: one error, `Tag value should be
Number, got` followed by the rendering of the value, for each tagged layer whose class
number is no integer literal, and nothing else.  Such a layer gives no `tag:` token but
still its `application` and `explicit` tokens, and the layers below it and the leaf hint
are treated as usual; a layer with a numeric class number, a constrained layer and the
leaf give no error; a default that is no integer literal gives no token and no error. -/
theorem asn1TagFromType_errors (X : Externals) (fuel : Nat) (nt : NamedComponentType)
    (ctx : moduleContext) :
    asn1TagFromType X fuel nt ctx =
      (leafHint ctx fuel (leafOf nt.NamedType.Type_)).map (fun hint =>
        (annotationOf
          (optionalToken nt ++ defaultToken nt ++ layerTokens nt.NamedType.Type_ ++ hint),
         { ctx with errors := ctx.errors ++ layerErrors X nt.NamedType.Type_ })) ∧
    (∀ cls d tagType t,
      layerErrors X (.TaggedType ⟨cls, .Other d⟩ tagType t) =
        ("Tag value should be Number, got " ++ X.goSyntaxValue (.Other d)) ::
          layerErrors X t ∧
      layerTokens (.TaggedType ⟨cls, .Other d⟩ tagType t) =
        (if cls = TagClass.CLASS_APPLICATION then ["application"] else []) ++
        (if tagType = TagKind.TAGS_EXPLICIT then ["explicit"] else []) ++ layerTokens t) ∧
    (∀ cls n tagType t,
      layerErrors X (.TaggedType ⟨cls, .Number n⟩ tagType t) = layerErrors X t ∧
      layerTokens (.TaggedType ⟨cls, .Number n⟩ tagType t) =
        (if cls = TagClass.CLASS_APPLICATION then ["application"] else []) ++
        (if tagType = TagKind.TAGS_EXPLICIT then ["explicit"] else []) ++
        ["tag:" ++ fmtInt n] ++ layerTokens t) ∧
    (∀ t constraint,
      layerErrors X (.ConstraintedType t constraint) = layerErrors X t ∧
      layerTokens (.ConstraintedType t constraint) = layerTokens t) ∧
    (∀ t, isWrapper t = false → layerErrors X t = [] ∧ layerTokens t = []) ∧
    ((∀ n, nt.Default ≠ some (.Number n)) → defaultToken nt = []) := by
  refine ⟨?_, ?_, ?_, ?_, ?_, ?_⟩
  · rw [asn1TagFromType_eq, annotationTokens]
    cases leafHint ctx fuel (leafOf nt.NamedType.Type_) <;> rfl
  · intro cls d tagType t
    simp [layerErrors, layerTokens, tagTokens]
  · intro cls n tagType t
    simp [layerErrors, layerTokens, tagTokens]
  · intro t constraint
    simp [layerErrors, layerTokens]
  · intro t ht
    cases t <;> simp [isWrapper] at ht <;> simp [layerErrors, layerTokens]
  · intro h
    unfold defaultToken
    cases hd : nt.Default with
    | none => rfl
    | some v =>
      cases v with
      | Number n => exact absurd hd (h n)
      | Other d => rfl

/-- C12, on a field with a default that is no integer literal, whose type is an explicit
application tag with a symbolic class number around a constrained, implicitly tagged IA5
string: one error, for the outer tag; the tokens of that tag but no `tag:` token for it;
the tokens of the inner tag and the leaf hint. -/
theorem asn1TagFromType_errors_witness :
    asn1TagFromType sampleExternals 0 symbolicTagField shadowingContext =
      some (some "`application,explicit,tag:2,ia5`",
        { shadowingContext with
          errors := ["earlier", "Tag value should be Number, got max"] }) ∧
    defaultToken symbolicTagField = [] :=
  ⟨(asn1TagFromType_errors sampleExternals 0 symbolicTagField shadowingContext).1.trans rfl,
    (asn1TagFromType_errors sampleExternals 0 symbolicTagField shadowingContext).2.2.2.2.2
      (by intro n h; cases h)⟩

/-- C13: `unwrapToLeafType` on a reference `r`: when the name of `r` has no local type
assignment the result is `r`; when it has one and the assigned type, below all its tagged
and constrained layers, is a type reference `r'`, the result is that of
`unwrapToLeafType` on `r'` (one unit of fuel is spent on the call); when the type below
the layers is no type reference, the result is `r` itself. -/
theorem unwrapToLeafType_cases (ctx : moduleContext) (r : String) :
    (GetType ctx.lookupContext.AssignmentList r = none →
      ∀ fuel, unwrapToLeafType ctx fuel r = some r) ∧
    (∀ a r', GetType ctx.lookupContext.AssignmentList r = some a →
      leafOf a.Type_ = .TypeReference r' →
      (∀ fuel, unwrapToLeafType ctx (fuel + 1) r = unwrapToLeafType ctx fuel r') ∧
      unwrapToLeafType ctx 0 r = none ∧
      ∀ l, (∃ fuel, unwrapToLeafType ctx fuel r = some l) ↔
        ∃ fuel, unwrapToLeafType ctx fuel r' = some l) ∧
    (∀ a, GetType ctx.lookupContext.AssignmentList r = some a →
      (∀ r', leafOf a.Type_ ≠ .TypeReference r') →
      ∀ fuel, unwrapToLeafType ctx fuel r = some r) := by
  refine ⟨?_, ?_, ?_⟩
  · intro h fuel
    rw [unwrapToLeafType_step, nextReference, h]
  · intro a r' ha hl
    have hn : nextReference ctx r = some r' := by
      rw [nextReference, ha]
      exact (unwrapLoop_eq_some r' a.Type_).mpr hl
    have h1 : ∀ fuel, unwrapToLeafType ctx (fuel + 1) r = unwrapToLeafType ctx fuel r' := by
      intro fuel
      rw [unwrapToLeafType_step, hn]
    have h0 : unwrapToLeafType ctx 0 r = none := by
      rw [unwrapToLeafType_step, hn]
    refine ⟨h1, h0, fun l => ⟨?_, ?_⟩⟩
    · rintro ⟨fuel, h⟩
      cases fuel with
      | zero => rw [h0] at h; cases h
      | succ n => exact ⟨n, by rw [← h1 n]; exact h⟩
    · rintro ⟨fuel, h⟩
      exact ⟨fuel + 1, by rw [h1 fuel]; exact h⟩
  · intro a ha hl fuel
    have hn : nextReference ctx r = none := by
      rw [nextReference, ha]
      exact (unwrapLoop_eq_none a.Type_).mpr hl
    rw [unwrapToLeafType_step, hn]

/-- C13, on the module with `KerberosTime ::= GeneralizedTime` and no local type
`GeneralizedTime`: the result for `KerberosTime` is `GeneralizedTime`; and with
`Realm ::= [0] KerberosString`, `KerberosString ::= GeneralString`: the result for
`Realm` is `KerberosString`. -/
theorem unwrapToLeafType_cases_witness :
    unwrapToLeafType kerberosContext 1 "KerberosTime" = some "GeneralizedTime" ∧
    unwrapToLeafType kerberosContext 0 "GeneralizedTime" = some "GeneralizedTime" ∧
    unwrapToLeafType kerberosContext 1 "Realm" = some "KerberosString" ∧
    unwrapToLeafType kerberosContext 0 "KerberosString" = some "KerberosString" :=
  ⟨(((unwrapToLeafType_cases kerberosContext "KerberosTime").2.1
      ⟨"KerberosTime", .TypeReference "GeneralizedTime"⟩ "GeneralizedTime" rfl rfl).1
      0).trans rfl,
    (unwrapToLeafType_cases kerberosContext "GeneralizedTime").1 rfl 0,
    (((unwrapToLeafType_cases kerberosContext "Realm").2.1 _ "KerberosString" rfl rfl).1
      0).trans rfl,
    (unwrapToLeafType_cases kerberosContext "KerberosString").2.2
      ⟨"KerberosString", .RestrictedStringType (.OtherString 1)⟩ rfl
      (by intro r' h; cases h) 0⟩

/-- C14: `lookupType` on a name `n`: when the assignment list has a type assignment named
exactly `n`, the result is the type of that assignment (of the first one in list order),
whatever the registry holds, and the context is unchanged; otherwise, when the registry
has `n`, the result is the registry entry and the context is unchanged; otherwise the
result is nil and exactly one error, `Can not resolve Type Reference` followed by `n`, is
appended. -/
theorem lookupType_cases (X : Externals) (n : String) (ctx : moduleContext) :
    GetType ctx.lookupContext.AssignmentList n =
      (typeAssignments ctx.lookupContext.AssignmentList).find?
        (fun a => a.TypeReference == n) ∧
    (∀ a, GetType ctx.lookupContext.AssignmentList n = some a →
      lookupType X n ctx = (some a.Type_, ctx)) ∧
    (GetType ctx.lookupContext.AssignmentList n = none →
      ∀ u, X.USEFUL_TYPES n = some u → lookupType X n ctx = (some u, ctx)) ∧
    (GetType ctx.lookupContext.AssignmentList n = none → X.USEFUL_TYPES n = none →
      lookupType X n ctx =
        (none, { ctx with
          errors := ctx.errors ++ ["Can not resolve Type Reference " ++ n] })) := by
  refine ⟨GetType_eq_find n _, ?_, ?_, ?_⟩
  · intro a h
    simp [lookupType, h]
  · intro h u hu
    simp [lookupType, h, lookupUsefulType, hu]
  · intro h hu
    simp [lookupType, h, lookupUsefulType, hu, moduleContext.appendError]

/-- C14, on a module that declares `UTCTime` itself (the local type wins over the
registry), on `GeneralizedTime` (from the registry) and on `Mystery` (one error). -/
theorem lookupType_cases_witness :
    lookupType sampleExternals "UTCTime" shadowingContext =
      (some .BooleanType, shadowingContext) ∧
    lookupType sampleExternals "GeneralizedTime" shadowingContext =
      (some (.TaggedType ⟨.CLASS_UNIVERSAL, .Number 24⟩ .TAGS_IMPLICIT
        (.RestrictedStringType (.OtherString 0))), shadowingContext) ∧
    lookupType sampleExternals "Mystery" shadowingContext =
      (none, { shadowingContext with
        errors := ["earlier", "Can not resolve Type Reference Mystery"] }) :=
  ⟨(lookupType_cases sampleExternals "UTCTime" shadowingContext).2.1
      ⟨"UTCTime", .BooleanType⟩ rfl,
    (lookupType_cases sampleExternals "GeneralizedTime" shadowingContext).2.2.1 rfl _ rfl,
    (lookupType_cases sampleExternals "Mystery" shadowingContext).2.2.2 rfl rfl⟩

/-- C15, the code on cyclic modules: with `A ::= [0] A`, and with `A ::= B`, `B ::= A`,
`unwrapToLeafType` on `A` has no result with any fuel, and `Generate` has none on a
module with `A ::= [0] A` and a sequence with a field of type `A`, whatever the registry:
the resolution does not end, and no error is recorded for the cycle. -/
theorem unwrapToLeafType_cycle_no_result :
    (∀ fuel, unwrapToLeafType (initialContext selfCycleModule) fuel "A" = none) ∧
    (∀ fuel, unwrapToLeafType mutualCycleContext fuel "A" = none) ∧
    (∀ X fuel, Generate X fuel selfCycleModule = none) := by
  have h1 : ∀ fuel, unwrapToLeafType (initialContext selfCycleModule) fuel "A" = none := by
    intro fuel
    refine unwrapToLeafType_none_of_closed _ (fun x => x = "A") ?_ fuel "A" rfl
    rintro x rfl
    exact ⟨"A", rfl, rfl⟩
  refine ⟨h1, ?_, ?_⟩
  · intro fuel
    refine unwrapToLeafType_none_of_closed _ (fun x => x = "A" ∨ x = "B") ?_ fuel "A"
      (Or.inl rfl)
    rintro x (rfl | rfl)
    · exact ⟨"B", rfl, Or.inr rfl⟩
    · exact ⟨"A", rfl, Or.inl rfl⟩
  · intro X fuel
    have htag : asn1TagFromType X fuel (.mk (.mk "a" (.TypeReference "A")) false none)
        (initialContext selfCycleModule) = none := by
      rw [asn1TagFromType_eq]
      simp [annotationTokens, NamedComponentType.NamedType, NamedType.Type_, leafOf,
        leafHint, h1 fuel]
    have hfield : (generateTypeBody X fuel
        (.SequenceType [.Named (.mk (.mk "a" (.TypeReference "A")) false none)])
        (initialContext selfCycleModule)).isSome = false := by
      have := generateFieldsWith_isSome X fuel
        [.Named (.mk (.mk "a" (.TypeReference "A")) false none)] []
        (initialContext selfCycleModule)
      simp only [namedComponents, List.all_cons, List.all_nil, Bool.and_true,
        generateStructField_isSome, htag, Option.isSome_none, Bool.and_false] at this
      rw [generateTypeBody_eq_with]
      simp only [generateTypeBodyWith]
      cases hf : generateFieldsWith X fuel (usefulCall X fuel)
        [.Named (.mk (.mk "a" (.TypeReference "A")) false none)] []
        (initialContext selfCycleModule) with
      | none => rfl
      | some r => rw [hf] at this; cases this
    have hdecl : (generateDeclarations X fuel selfCycleModule
        (initialContext selfCycleModule)).isSome = false := by
      rw [generateDeclarations, generateDeclarationsLoop_isSome]
      simp only [selfCycleModule, typeAssignments, List.all_cons, List.all_nil,
        Bool.and_true]
      have hfield' := hfield
      simp only [selfCycleModule] at hfield'
      rw [hfield']
      simp
    rw [Generate_eq]
    cases hg : generateDeclarations X fuel selfCycleModule (initialContext selfCycleModule) with
    | none => rfl
    | some r => rw [hg] at hdecl; cases hdecl

/-- C16, as stated, fails: in the module `Alias ::= Mystery`, where `Mystery` is neither
declared nor in the registry, the run records no error, the declaration is the alias
`Mystery` and `Generate` hands the file to the printer instead of failing. -/
theorem Generate_mystery_counterexample :
    GetType mysteryModule.ModuleBody.AssignmentList "Mystery" = none ∧
    sampleExternals.USEFUL_TYPES "Mystery" = none ∧
    generateDeclarations sampleExternals 0 mysteryModule (initialContext mysteryModule) =
      some ([⟨"Alias", .Ident "Mystery"⟩], initialContext mysteryModule) ∧
    (initialContext mysteryModule).errors = [] ∧
    Generate sampleExternals 0 mysteryModule =
      some (.printed ⟨"Mysteries", [⟨"Alias", .Ident "Mystery"⟩]⟩) :=
  ⟨rfl, rfl, rfl, rfl, rfl⟩

/-- C16, amended: for a type assignment whose type is a reference to a name that the
registry does not have (declared in the module or not), `generateTypeDecl` records no
error and declares the alias `goifyName` of the name; a module made of this assignment
alone is handed to the printer with that one declaration.  The error for an unresolved
reference is recorded by `lookupType` only: once, for a name that is neither declared
nor in the registry. -/
theorem Generate_unresolved_alias (X : Externals) (fuel : Nat) (r n : String)
    (hu : X.USEFUL_TYPES n = none) :
    (∀ ctx, generateTypeDecl X fuel r (.TypeReference n) ctx =
      some (⟨goifyName X r, .Ident (goifyName X n)⟩, ctx)) ∧
    (∀ module : ModuleDefinition,
      module.ModuleBody.AssignmentList = [.TypeAssignment r (.TypeReference n)] →
      Generate X fuel module =
        some (.printed ⟨goifyName X module.ModuleIdentifier.Reference,
          [⟨goifyName X r, .Ident (goifyName X n)⟩]⟩)) ∧
    (∀ ctx, GetType ctx.lookupContext.AssignmentList n = none →
      lookupType X n ctx =
        (none, { ctx with
          errors := ctx.errors ++ ["Can not resolve Type Reference " ++ n] })) := by
  have h1 : ∀ ctx, generateTypeDecl X fuel r (.TypeReference n) ctx =
      some (⟨goifyName X r, .Ident (goifyName X n)⟩, ctx) := by
    intro ctx
    simp [generateTypeDecl, generateTypeBody_of_unresolved X fuel n ctx hu]
  refine ⟨h1, ?_, ?_⟩
  · intro module hm
    rw [Generate_eq]
    simp [generateDeclarations, hm, generateDeclarationsLoop, h1, initialContext]
  · intro ctx h
    simp [lookupType, h, lookupUsefulType, hu, moduleContext.appendError]

/-- C16, amended, on the module `Alias ::= Mystery`. -/
theorem Generate_unresolved_alias_witness :
    Generate sampleExternals 0 mysteryModule =
      some (.printed ⟨"Mysteries", [⟨"Alias", .Ident "Mystery"⟩]⟩) ∧
    lookupType sampleExternals "Mystery" (initialContext mysteryModule) =
      (none, { initialContext mysteryModule with
        errors := ["Can not resolve Type Reference Mystery"] }) :=
  ⟨((Generate_unresolved_alias sampleExternals 0 "Alias" "Mystery" rfl).2.1
      mysteryModule rfl).trans rfl,
    (Generate_unresolved_alias sampleExternals 0 "Alias" "Mystery" rfl).2.2
      (initialContext mysteryModule) rfl⟩

/-- C17: the errors `generateDeclarations` collects are, after those collected before,
the errors of the types of the type assignments, one assignment after the other in list
order; `generateTypeBody`, `asn1TagFromType` and `lookupType` leave the errors collected
before as a prefix of the errors after; and for a module whose type assignments all have
unsupported types, the run has a result for every fuel, with one declaration and one
error per type assignment. -/
theorem generateDeclarations_accumulates (X : Externals) (fuel : Nat)
    (module : ModuleDefinition) (ctx : moduleContext) :
    (∀ decls c, generateDeclarations X fuel module ctx = some (decls, c) →
      c.errors = ctx.errors ++
        (typeAssignments module.ModuleBody.AssignmentList).flatMap
          (fun a => typeDiagnostics X fuel ctx a.Type_)) ∧
    (∀ t e c, generateTypeBody X fuel t ctx = some (e, c) → ctx.errors <+: c.errors) ∧
    (∀ nt tag c, asn1TagFromType X fuel nt ctx = some (tag, c) →
      ctx.errors <+: c.errors) ∧
    (∀ n, ctx.errors <+: (lookupType X n ctx).2.errors) ∧
    ((∀ a ∈ typeAssignments module.ModuleBody.AssignmentList, unsupported a.Type_ = true) →
      ∃ decls c, generateDeclarations X fuel module ctx = some (decls, c) ∧
        decls.length = (typeAssignments module.ModuleBody.AssignmentList).length ∧
        c.errors = ctx.errors ++
          (typeAssignments module.ModuleBody.AssignmentList).map
            (fun a => unsupportedError X a.Type_) ∧
        c.errors.length =
          ctx.errors.length + (typeAssignments module.ModuleBody.AssignmentList).length) := by
  have hsome : ∀ decls c, generateDeclarations X fuel module ctx = some (decls, c) →
      decls.length = (typeAssignments module.ModuleBody.AssignmentList).length ∧
      c.errors = ctx.errors ++
        (typeAssignments module.ModuleBody.AssignmentList).flatMap
          (fun a => typeDiagnostics X fuel ctx a.Type_) := by
    intro decls c h
    obtain ⟨new, hnew, hall, hc⟩ := generateDeclarationsLoop_some X fuel _ [] ctx decls c h
    simp only [List.nil_append] at hnew
    subst hnew
    exact ⟨hall.length_eq.symm, by rw [hc]; rfl⟩
  refine ⟨fun decls c h => (hsome decls c h).2, ?_, ?_, ?_, ?_⟩
  · intro t e c h
    rw [generateTypeBody_run_some X fuel h]
    exact List.prefix_append _ _
  · intro nt tag c h
    rw [asn1TagFromType_run_some X fuel h]
    exact List.prefix_append _ _
  · intro n
    unfold lookupType
    cases GetType ctx.lookupContext.AssignmentList n with
    | some a => exact List.prefix_refl _
    | none =>
      cases hu : lookupUsefulType X ctx n with
      | some u => simp
      | none => simp [moduleContext.appendError]
  · intro hall
    have hs : (generateDeclarations X fuel module ctx).isSome = true := by
      rw [generateDeclarations, generateDeclarationsLoop_isSome, List.all_eq_true]
      intro a ha
      rw [generateTypeBody_of_unsupported X fuel _ ctx (hall a ha)]
      rfl
    obtain ⟨⟨decls, c⟩, h⟩ := Option.isSome_iff_exists.mp hs
    obtain ⟨hlen, hc⟩ := hsome decls c h
    have hflat : (typeAssignments module.ModuleBody.AssignmentList).flatMap
        (fun a => typeDiagnostics X fuel ctx a.Type_) =
        (typeAssignments module.ModuleBody.AssignmentList).map
          (fun a => unsupportedError X a.Type_) := by
      generalize typeAssignments module.ModuleBody.AssignmentList = l at hall
      induction l with
      | nil => rfl
      | cons a rest ih =>
        rw [List.flatMap_cons, List.map_cons,
          typeDiagnostics_of_unsupported X fuel _ ctx (hall a (List.mem_cons_self _ _)),
          ih fun b hb => hall b (List.mem_cons_of_mem _ hb)]
        rfl
    refine ⟨decls, c, h, hlen, by rw [hc, hflat], ?_⟩
    rw [hc, hflat, List.length_append, List.length_map]

/-- C17, on the module `A ::= NULL`, `B ::= OBJECT IDENTIFIER`: two unrelated unsupported
types give two declarations and two errors. -/
theorem generateDeclarations_accumulates_witness :
    ∃ decls c,
      generateDeclarations sampleExternals 0 unsupportedModule
        (initialContext unsupportedModule) = some (decls, c) ∧
      decls.length = 2 ∧
      c.errors = ["Ignoring unsupported type asn1go.NullType{}",
        "Ignoring unsupported type asn1go.ObjectIdentifierType{}"] ∧
      c.errors.length = 2 :=
  (generateDeclarations_accumulates sampleExternals 0 unsupportedModule
    (initialContext unsupportedModule)).2.2.2.2 (by
      intro a ha
      simp only [unsupportedModule, typeAssignments, List.mem_cons, List.mem_singleton,
        List.not_mem_nil, or_false] at ha
      rcases ha with rfl | rfl <;> rfl)

/-- C18, as stated, fails: a sequence with a field of type `KerberosTime`, run from two
contexts with the same (empty) errors, gets the tag `generalized` on the field when the
module has `KerberosTime ::= GeneralizedTime` and no tag when the module has no
assignment. -/
theorem generateTypeBody_context_counterexample :
    kerberosContext.errors = emptyContext.errors ∧
    (generateTypeBody sampleExternals 1 kerberosTimeRecord kerberosContext).map Prod.fst =
      some (.StructType [.mk ["T"] (.Ident "KerberosTime") (some "`generalized`")]) ∧
    (generateTypeBody sampleExternals 1 kerberosTimeRecord emptyContext).map Prod.fst =
      some (.StructType [.mk ["T"] (.Ident "KerberosTime") none]) ∧
    (generateTypeBody sampleExternals 1 kerberosTimeRecord kerberosContext).map Prod.fst ≠
      (generateTypeBody sampleExternals 1 kerberosTimeRecord emptyContext).map Prod.fst := by
  have h1 : (generateTypeBody sampleExternals 1 kerberosTimeRecord kerberosContext).map
      Prod.fst =
      some (.StructType [.mk ["T"] (.Ident "KerberosTime") (some "`generalized`")]) := rfl
  have h2 : (generateTypeBody sampleExternals 1 kerberosTimeRecord emptyContext).map
      Prod.fst = some (.StructType [.mk ["T"] (.Ident "KerberosTime") none]) := rfl
  refine ⟨rfl, h1, h2, ?_⟩
  rw [h1, h2]
  intro h
  simp at h

/-- C18, amended: `generateTypeBody` is a function of the type tree alone up to the tags
of record fields: for two contexts with the same errors, whatever their local assignment
lists, tag defaults and extensibility flags, two runs that return (with whatever fuel)
return the same expression up to field tags, nested fields with their names and types
included, and the same errors; and a run returns in every module with acyclic reference
chains, given as much more fuel as that module has type assignments, as soon as it
returns in some module.  The tag of a field is the same too unless the type of the field,
below its tagged and constrained layers, is a type reference, whose time hint follows the
local assignments of the module; and with the same lookup context the two runs agree in
everything, tags included. -/
theorem generateTypeBody_context (X : Externals) (t : ASNType) (c1 c2 : moduleContext)
    (he : c1.errors = c2.errors) :
    (∀ f1 f2 e1 e2 d1 d2, generateTypeBody X f1 t c1 = some (e1, d1) →
      generateTypeBody X f2 t c2 = some (e2, d2) →
      e1.eraseTags = e2.eraseTags ∧ d1.errors = d2.errors) ∧
    (Acyclic c2 → ∀ f, (generateTypeBody X f t c1).isSome = true →
      (generateTypeBody X (f + (typeAssignments c2.lookupContext.AssignmentList).length)
        t c2).isSome = true) ∧
    (∀ nt : NamedComponentType, (∀ r, leafOf nt.NamedType.Type_ ≠ .TypeReference r) →
      ∀ f1 f2, (asn1TagFromType X f1 nt c1).map Prod.fst =
        (asn1TagFromType X f2 nt c2).map Prod.fst) ∧
    (c1.lookupContext = c2.lookupContext →
      ∀ f, (generateTypeBody X f t c1).map (fun r => (r.1, r.2.errors)) =
        (generateTypeBody X f t c2).map (fun r => (r.1, r.2.errors))) := by
  refine ⟨?_, ?_, ?_, ?_⟩
  · intro f1 f2 e1 e2 d1 d2 h1 h2
    exact generateTypeBody_sameShape X f1 f2 t c1 c2 e1 e2 d1 d2 he h1 h2
  · intro hc f h
    exact generateTypeBody_follows X c2 hc f t c1 c2 rfl h
  · intro nt hleaf f1 f2
    rw [asn1TagFromType_eq, asn1TagFromType_eq]
    simp only [annotationTokens, Option.map_map]
    rw [leafHint_of_not_reference c1 c2 f1 f2 _ hleaf]
    cases leafHint c2 f2 (leafOf nt.NamedType.Type_) <;> rfl
  · intro hl f
    rw [generateTypeBody_framed X f t c1 c2.reset (by rw [reset_lookupContext, hl]) rfl,
      (generateTypeBody_framed X f).run t c2]
    cases generateTypeBody X f t c2.reset with
    | none => rfl
    | some r => simp [moduleContext.addErrors, he]

/-- C18, amended, on the sequence with a field of type `KerberosTime`: the runs in the
module with `KerberosTime ::= GeneralizedTime` and in the module without assignments
return the same struct type up to the tag of the field and the same errors; the run in
the second module returns since the one in the first does; and two contexts of the first
module with different tag defaults and extensibility flags give the same result. -/
theorem generateTypeBody_context_witness :
    generateTypeBody sampleExternals 1 kerberosTimeRecord kerberosContext =
      some (.StructType [.mk ["T"] (.Ident "KerberosTime") (some "`generalized`")],
        kerberosContext) ∧
    generateTypeBody sampleExternals 1 kerberosTimeRecord emptyContext =
      some (.StructType [.mk ["T"] (.Ident "KerberosTime") none], emptyContext) ∧
    ((GoExpr.StructType
        [.mk ["T"] (.Ident "KerberosTime") (some "`generalized`")]).eraseTags =
      (GoExpr.StructType [.mk ["T"] (.Ident "KerberosTime") none]).eraseTags ∧
      kerberosContext.errors = emptyContext.errors) ∧
    (generateTypeBody sampleExternals
      (1 + (typeAssignments emptyContext.lookupContext.AssignmentList).length)
      kerberosTimeRecord emptyContext).isSome = true ∧
    (generateTypeBody sampleExternals 1 kerberosTimeRecord kerberosContext).map
        (fun r => (r.1, r.2.errors)) =
      (generateTypeBody sampleExternals 1 kerberosTimeRecord kerberosContextExplicit).map
        (fun r => (r.1, r.2.errors)) :=
  ⟨rfl, rfl,
    (generateTypeBody_context sampleExternals kerberosTimeRecord kerberosContext
      emptyContext rfl).1 1 1 _ _ _ _ rfl rfl,
    (generateTypeBody_context sampleExternals kerberosTimeRecord kerberosContext
      emptyContext rfl).2.1 acyclic_emptyContext 1 rfl,
    (generateTypeBody_context sampleExternals kerberosTimeRecord kerberosContext
      kerberosContextExplicit rfl).2.2.2 rfl 1⟩

/-- C19: when a run of `generateTypeBody` on a type returns without appending an error,
the expression returned is complete: it is not nil, and none of its array element types
and field types, at any depth, is nil; so a run that returns an expression that is not
complete has appended at least one error.  Hence the file `Generate` hands to the
printer, which it does only after a run without errors, has a complete type in every
declaration.  This holds for every registry. -/
theorem generateTypeBody_wellformed (X : Externals) (fuel : Nat) :
    (∀ t ctx e c, generateTypeBody X fuel t ctx = some (e, c) → c.errors = ctx.errors →
      e.complete = true) ∧
    (∀ t ctx e c, generateTypeBody X fuel t ctx = some (e, c) → e.complete = false →
      ctx.errors.length < c.errors.length) ∧
    (∀ module ast, Generate X fuel module = some (.printed ast) →
      ∀ d ∈ ast.Decls, (GoDecl.Type_ d).complete = true) ∧
    GoExpr.nil.complete = false ∧
    (∀ elt, (GoExpr.ArrayType elt).complete = elt.complete) ∧
    (∀ fields, (GoExpr.StructType fields).complete = true ↔
      ∀ fld ∈ fields, (GoField.Type_ fld).complete = true) := by
  refine ⟨fun t ctx e c h hc => generateTypeBody_complete X fuel h hc, ?_, ?_, rfl,
    fun _ => rfl, fun fields => by
      simp only [GoExpr.complete]
      exact fieldsComplete_iff fields⟩
  · intro t ctx e c h he
    have hc := generateTypeBody_run_some X fuel h
    by_contra hlt
    have hnil : typeDiagnostics X fuel ctx t = [] := by
      rw [hc, addErrors_errors, List.length_append] at hlt
      exact List.length_eq_zero.mp (by omega)
    have := generateTypeBody_complete X fuel h (by
      rw [hc, hnil, addErrors_errors, List.append_nil])
    rw [he] at this
    cases this
  · intro module ast h
    rw [Generate_eq] at h
    cases hg : generateDeclarations X fuel module (initialContext module) with
    | none => simp [hg] at h
    | some r =>
      obtain ⟨decls, c⟩ := r
      simp only [hg, Option.map_some', Option.some.injEq] at h
      by_cases hc : c.errors = []
      · simp only [hc, if_true, GenerateResult.printed.injEq] at h
        subst h
        exact generateDeclarations_complete X fuel module _ hg hc
      · simp [hc] at h

/-- C19, on a sequence with a sequence-of field: the run appends no error and every type
in the result is present; and on a sequence with a field of an unsupported type: the
field has a nil type and an error is appended. -/
theorem generateTypeBody_wellformed_witness :
    generateTypeBody sampleExternals 0 namesRecord emptyContext =
      some (.StructType [.mk ["Names"] (.ArrayType (.Ident "string")) none],
        emptyContext) ∧
    (GoExpr.StructType [.mk ["Names"] (.ArrayType (.Ident "string")) none]).complete =
      true ∧
    generateTypeBody sampleExternals 0 identifierRecord emptyContext =
      some (.StructType [.mk ["Id"] .nil none], { emptyContext with
        errors := ["Ignoring unsupported type asn1go.ObjectIdentifierType{}"] }) ∧
    emptyContext.errors.length <
      ["Ignoring unsupported type asn1go.ObjectIdentifierType{}"].length :=
  ⟨rfl,
    (generateTypeBody_wellformed sampleExternals 0).1 namesRecord emptyContext _
      emptyContext rfl rfl,
    rfl,
    (generateTypeBody_wellformed sampleExternals 0).2.1 identifierRecord emptyContext
      (.StructType [.mk ["Id"] .nil none])
      { emptyContext with
        errors := ["Ignoring unsupported type asn1go.ObjectIdentifierType{}"] } rfl rfl⟩

/-- C20: in a module whose local type-reference chains are acyclic, `unwrapToLeafType`
has a result `l` on every reference `r` (with as much fuel as the module has type
assignments, and the same result with any fuel that gives one); `l` is a fixed point,
`unwrapToLeafType` on `l` is `l`; and `l` has no local type assignment, or has one with a
type that below its tagged and constrained layers is no type reference. -/
theorem unwrapToLeafType_fixed (ctx : moduleContext) (h : Acyclic ctx) (r : String) :
    ∃ l, unwrapToLeafType ctx (typeAssignments ctx.lookupContext.AssignmentList).length r =
        some l ∧
      (∀ fuel l', unwrapToLeafType ctx fuel r = some l' → l' = l) ∧
      (∀ fuel, unwrapToLeafType ctx fuel l = some l) ∧
      (GetType ctx.lookupContext.AssignmentList l = none ∨
        ∃ a, GetType ctx.lookupContext.AssignmentList l = some a ∧
          ∀ r', leafOf a.Type_ ≠ .TypeReference r') := by
  have hw := walk_eq_none_of_acyclic ctx h r
  have hne : unwrapToLeafType ctx (typeAssignments ctx.lookupContext.AssignmentList).length r
      ≠ none := by
    intro hn
    rw [unwrapToLeafType_eq_none_iff, hw] at hn
    cases hn
  obtain ⟨l, hl⟩ := Option.ne_none_iff_exists'.mp hne
  have hterm := unwrapToLeafType_terminal ctx _ r l hl
  refine ⟨l, hl, fun fuel l' h' => unwrapToLeafType_unique ctx h' hl,
    unwrapToLeafType_of_terminal ctx l hterm, ?_⟩
  unfold nextReference at hterm
  cases hg : GetType ctx.lookupContext.AssignmentList l with
  | none => exact Or.inl rfl
  | some a =>
    rw [hg] at hterm
    exact Or.inr ⟨a, rfl, (unwrapLoop_eq_none a.Type_).mp hterm⟩

/-- C20, on the chain `A ::= B`, `B ::= INTEGER`: the result for `A` is the reference
`B`, the last reference of the chain, and `B` is a fixed point. -/
theorem unwrapToLeafType_fixed_witness :
    Acyclic chainContext ∧
    unwrapToLeafType chainContext 2 "A" = some "B" ∧
    unwrapToLeafType chainContext 2 "B" = some "B" ∧
    ∃ l, unwrapToLeafType chainContext
        (typeAssignments chainContext.lookupContext.AssignmentList).length "A" = some l ∧
      (∀ fuel l', unwrapToLeafType chainContext fuel "A" = some l' → l' = l) ∧
      (∀ fuel, unwrapToLeafType chainContext fuel l = some l) ∧
      (GetType chainContext.lookupContext.AssignmentList l = none ∨
        ∃ a, GetType chainContext.lookupContext.AssignmentList l = some a ∧
          ∀ r', leafOf a.Type_ ≠ .TypeReference r') :=
  ⟨acyclic_chainContext, rfl, rfl,
    unwrapToLeafType_fixed chainContext acyclic_chainContext "A"⟩

end Asn1go
